import Mathlib

/-!
# JniObject: a shallow embedding of `src/JniObject.hpp` / `src/JniObject.cpp`

The development has two layers.

* `JniSpec.Descriptor`: the descriptor derivation family (`getSignaturePart`,
  `buildSignature`, `createSignature`, `createVoidSignature`).  These are pure
  in the source except for the class path of a wrapper, which is read through
  a `WrapperView`.
* `JniSpec`: the stateful layer.  The host runtime is a record of responses
  (`Jvm`) together with a mutable `State` (thread slot, class cache, pending
  exception, live references, call log).  Every C++ member function becomes a
  function `State → Res α`; a C++ `throw` is the constructor `Res.raise`.
-/

namespace JniSpec

/-- A foreign reference: `obj` is the identity of the object it denotes
(`0` is `nullptr`), `id` distinguishes references to the same object. -/
structure Ref where
  obj : Nat
  id : Nat
  deriving DecidableEq, Repr

/-- The null reference (`nullptr`). -/
def Ref.null : Ref := ⟨0, 0⟩

/-- The C++ truth value of a reference (`if(ref)`). -/
def Ref.isSet (r : Ref) : Bool := r.obj != 0

/-- The data members of `class JniObject`. -/
structure JniObject where
  _class : Ref
  _instance : Ref
  _classPath : String
  deriving DecidableEq, Repr

/-- Embeds `std::replace(s.begin(), s.end(), '.', '/')`. -/
def replaceDots (s : String) : String :=
  String.mk (s.data.map (fun c => if c = '.' then '/' else c))

/-- The native static types the descriptor family is specialised for. -/
inductive NativeType where
  | bool | uint8 | char | short | int | uint | long | float
  | string
  | wrapper
  | jobject
  | vector (elem : NativeType)
  | set (elem : NativeType)
  | list (elem : NativeType)
  | array (elem : NativeType) (size : Nat)
  | map (key value : NativeType)
  deriving DecidableEq, Repr

/-- Native values.  Containers carry their static element type and their
elements in iteration order. -/
inductive NativeVal where
  | bool (b : Bool)
  | uint8 (n : Nat)
  | char (c : Nat)
  | short (i : Int)
  | int (i : Int)
  | uint (n : Nat)
  | long (i : Int)
  | float (bits : Nat)
  | string (s : String)
  | wrapper (w : JniObject)
  | jobject (r : Ref)
  | vector (elem : NativeType) (xs : List NativeVal)
  | set (elem : NativeType) (xs : List NativeVal)
  | list (elem : NativeType) (xs : List NativeVal)
  | array (elem : NativeType) (size : Nat) (xs : List NativeVal)
  | map (key value : NativeType) (entries : List (NativeVal × NativeVal))

/-- The wrapper `JniObject()` leaves behind: `init` with all default
arguments sets no reference and an empty class path. -/
def JniObject.absent : JniObject := ⟨Ref.null, Ref.null, ""⟩

/-- The value-initialised object `T()` of a native type. -/
def NativeType.defaultValue : NativeType → NativeVal
  | .bool => .bool false
  | .uint8 => .uint8 0
  | .char => .char 0
  | .short => .short 0
  | .int => .int 0
  | .uint => .uint 0
  | .long => .long 0
  | .float => .float 0
  | .string => .string ""
  | .wrapper => .wrapper JniObject.absent
  | .jobject => .jobject Ref.null
  | .vector t => .vector t []
  | .set t => .set t []
  | .list t => .list t []
  | .array t n => .array t n (List.replicate n t.defaultValue)
  | .map k v => .map k v []

namespace Descriptor

/-- What descriptor derivation reads from the runtime: the name the guarded
`JniObject("java/lang/Class", _class).call("getName", _classPath)` of
`getClassPath` yields for a class reference. -/
structure WrapperView where
  lazyName : Ref → String

/-- Embeds `JniObject::getClassPath`, with the lazily computed name read from the view. -/
def getClassPath (V : WrapperView) (w : JniObject) : String :=
  if w._classPath.isEmpty && w._class.isSet then V.lazyName w._class else w._classPath

/-- Embeds `JniObject::getSignature`. -/
def getSignature (V : WrapperView) (w : JniObject) : String :=
  "L" ++ getClassPath V w ++ ";"

/-- Embeds `getSignaturePart(typename Type::value_type())`: the instantiation of
`getSignaturePart` at the value-initialised object of a type (see
`getSignaturePart_defaultValue`). -/
def getSignaturePartDefault (V : WrapperView) : NativeType → String
  | .string => "Ljava/lang/String;"
  | .wrapper => getSignature V JniObject.absent
  | .bool => "Z"
  | .uint8 => "B"
  | .char => "C"
  | .short => "S"
  | .long => "J"
  | .int => "I"
  | .uint => "I"
  | .float => "F"
  | .jobject => "J"
  | .vector t => "[" ++ getSignaturePartDefault V t
  | .set t => "[" ++ getSignaturePartDefault V t
  | .array t _ => "[" ++ getSignaturePartDefault V t
  | .list t => "[" ++ getSignaturePartDefault V t
  | .map _ _ => "Ljava/util/Map;"

mutual
/-- Embeds `JniObject::getSignaturePart(arg)` as a call with a deduced
argument type selects it among the specialisations and overloads.  A raw
reference (`jobject`) is a pointer, and for a pointer argument overload
resolution prefers `getSignaturePart(Type* val)` (the more specialised
template) to the primary `getSignaturePart(const Type&)`, so the descriptor is
that of `(jlong)val`, with `jlong` the 64-bit `long`.  The explicit
specialisation for `const jobject&` is `getSignaturePartJobject` below. -/
def getSignaturePart (V : WrapperView) : NativeVal → String
  | .string _ => "Ljava/lang/String;"
  | .wrapper w => getSignature V w
  | .bool _ => "Z"
  | .uint8 _ => "B"
  | .char _ => "C"
  | .short _ => "S"
  | .long _ => "J"
  | .int _ => "I"
  | .uint _ => "I"
  | .float _ => "F"
  | .jobject _ => "J"
  | .vector t xs => "[" ++ getContainerElementSignaturePart V t xs
  | .set t xs => "[" ++ getContainerElementSignaturePart V t xs
  | .array t _ xs => "[" ++ getContainerElementSignaturePart V t xs
  | .list t xs => "[" ++ getContainerElementSignaturePart V t xs
  | .map _ _ _ => "Ljava/util/Map;"
/-- Embeds `JniObject::getContainerElementSignaturePart`: the descriptor of
`typename Type::value_type()` for an empty container, of `*container.begin()`
otherwise. -/
def getContainerElementSignaturePart (V : WrapperView) (t : NativeType) : List NativeVal → String
  | [] => getSignaturePartDefault V t
  | x :: _ => getSignaturePart V x
end

/-- Embeds `JniObject::getSignaturePart()`: the void descriptor. -/
def getSignaturePartVoid : String := "V"

/-- Embeds `JniObject::buildSignature(os, arg, args...)`: appends the descriptor of
each argument to the stream, left to right. -/
def buildSignature (V : WrapperView) (os : String) : List NativeVal → String
  | [] => os
  | arg :: args => buildSignature V (os ++ getSignaturePart V arg) args

/-- Embeds `JniObject::createSignature(ret, args...)`. -/
def createSignature (V : WrapperView) (ret : NativeVal) (args : List NativeVal) : String :=
  let os := ""
  let os := os ++ "("
  let os := buildSignature V os args
  let os := os ++ ")" ++ getSignaturePart V ret
  os

/-- Embeds `JniObject::createVoidSignature(args...)`. -/
def createVoidSignature (V : WrapperView) (args : List NativeVal) : String :=
  let os := ""
  let os := os ++ "("
  let os := buildSignature V os args
  let os := os ++ ")" ++ getSignaturePartVoid
  os

end Descriptor

/-! ## The host runtime -/

/-- The members of `union jvalue`. -/
inductive JValue where
  | z (v : Bool)
  | b (v : Nat)
  | c (v : Nat)
  | s (v : Int)
  | i (v : Int)
  | j (v : Int)
  | f (bits : Nat)
  | d (bits : Nat)
  | l (r : Ref)
  deriving DecidableEq, Repr

/-- The answer of a runtime lookup (`FindClass`, `GetMethodID`, ...): the
identifier found (`0` when there is none) and the exception the runtime leaves
pending (`0` when there is none). -/
structure Lookup where
  id : Nat
  thrown : Nat
  deriving DecidableEq, Repr

/-- The answer of a runtime invocation or field read: the value produced, the
exception left pending (`0` for none) and the managed heap afterwards. -/
structure Outcome where
  ret : JValue
  thrown : Nat
  world : Nat
  deriving DecidableEq, Repr

/-- Element kinds of foreign arrays (`NewDoubleArray`, `NewLongArray`, ...,
`NewObjectArray` with its element class). -/
inductive ArrayKind where
  | double | long | float | int | byte
  | object (cls : Nat)
  deriving DecidableEq, Repr

/-- A foreign array. -/
structure JArray where
  kind : ArrayKind
  elems : List JValue
  deriving DecidableEq, Repr

/-- The host runtime as a set of responses.  Objects, classes, methods and
fields are identified by numbers; `0` is the null identifier.  The `world`
argument is the state of the managed heap, which invocations may change. -/
structure Jvm where
  attachEnv : Nat
  findClass : String → Lookup
  objectClass : Nat → Nat
  methodID : Nat → String → String → Lookup
  staticMethodID : Nat → String → String → Lookup
  fieldID : Nat → String → String → Lookup
  staticFieldID : Nat → String → String → Lookup
  invoke : Nat → Nat → Nat → List JValue → Outcome
  invokeStatic : Nat → Nat → Nat → List JValue → Outcome
  newObject : Nat → Nat → Nat → List JValue → Outcome
  readField : Nat → Nat → Nat → Outcome
  readStaticField : Nat → Nat → Nat → Outcome
  stringChars : Nat → Option String
  isInstance : Nat → Nat → Bool
  indexError : Nat
  /-- The specialisations of `isObjectArgument` for non-container types are
  declared in `JniObject.hpp` but defined outside the two source files. -/
  isObjectArgumentOther : NativeVal → Bool

/-- The runtime entry points recorded in the call log. -/
inductive Event where
  | attachCurrentThread
  | findClass (path : String)
  | getObjectClass (obj : Nat)
  | newGlobalRef (obj : Nat)
  | deleteGlobalRef (r : Ref)
  | newLocalRef (obj : Nat)
  | deleteLocalRef (r : Ref)
  | exceptionOccurred
  | exceptionClear
  | getMethodID (cls : Nat) (name sig : String)
  | getStaticMethodID (cls : Nat) (name sig : String)
  | getFieldID (cls : Nat) (name sig : String)
  | getStaticFieldID (cls : Nat) (name sig : String)
  | callMethod (obj method : Nat) (args : List JValue)
  | callStaticMethod (cls method : Nat) (args : List JValue)
  | newObject (cls method : Nat) (args : List JValue)
  | getField (target field : Nat)
  | getStaticField (cls field : Nat)
  | newStringUTF (chars : String)
  | getStringUTFChars (obj : Nat)
  | newArray (kind : ArrayKind) (size : Nat)
  | setArrayRegion (arr : Nat) (start : Nat) (vals : List JValue)
  | setObjectArrayElement (arr : Nat) (pos : Nat) (r : Ref)
  deriving DecidableEq, Repr

/-- The mutable state the layer works on: the statics of `class Jni`
(`_java`, the per-thread slot behind `_thread`, `_classes`), the pending
exception of the current thread, the live pinned and transient references,
the managed heap, and the log of runtime entry points called so far. -/
structure State where
  java : Bool
  threadEnv : Nat
  classes : List (String × Ref)
  pending : Nat
  globals : List Ref
  locals : List Ref
  nextId : Nat
  nextObj : Nat
  world : Nat
  strings : List (Nat × String)
  arrays : List (Nat × JArray)
  log : List Event
  deriving DecidableEq, Repr

/-- The result of running a member function: normal return, a thrown
`JniException`, a behaviour outside the embedded fragment (a template
instantiation with no definition in the sources, a failed `assert`), or an
exhausted recursion budget. -/
inductive Res (α : Type) where
  | ok (a : α) (s : State)
  | raise (msg : String) (s : State)
  | outside (why : String)
  | timeout
  deriving DecidableEq, Repr

/-- The value a computation returned, `d` when it did not return. -/
def Res.valueD {α : Type} (r : Res α) (d : α) : α :=
  match r with
  | .ok a _ => a
  | _ => d

/-- The state a computation left behind, `d` when it neither returned nor threw. -/
def Res.stateD {α : Type} (r : Res α) (d : State) : State :=
  match r with
  | .ok _ s => s
  | .raise _ s => s
  | _ => d

/-- The message a computation threw, if it threw. -/
def Res.raised {α : Type} (r : Res α) : Option String :=
  match r with
  | .raise e _ => some e
  | _ => none

/-- Stateful computations. -/
def M (α : Type) : Type := State → Res α

/-- Sequencing; a `raise` skips the rest. -/
def M.bind {α β : Type} (m : M α) (f : α → M β) : M β := fun s =>
  match m s with
  | .ok a s1 => f a s1
  | .raise e s1 => .raise e s1
  | .outside w => .outside w
  | .timeout => .timeout

instance : Monad M where
  pure a := fun s => .ok a s
  bind := M.bind

/-- Embeds `throw JniException(msg)`. -/
def throwJni {α : Type} (msg : String) : M α := fun s => .raise msg s

/-- Runs `m` and then `fin` on both the normal and the exceptional path:
the destructor of a local object at scope exit and during unwinding. -/
def M.andFinally {α : Type} (m : M α) (fin : M Unit) : M α := fun s =>
  match m s with
  | .ok a s1 =>
    match fin s1 with
    | .ok _ s2 => .ok a s2
    | .raise e s2 => .raise e s2
    | .outside w => .outside w
    | .timeout => .timeout
  | .raise e s1 =>
    match fin s1 with
    | .ok _ s2 => .raise e s2
    | .raise _ s2 => .raise e s2
    | .outside w => .outside w
    | .timeout => .timeout
  | .outside w => .outside w
  | .timeout => .timeout

/-- Embeds `try { m } catch(JniException e) { h }`. -/
def M.tryCatch {α : Type} (m : M α) (h : M α) : M α := fun s =>
  match m s with
  | .raise _ s1 => h s1
  | r => r

/-- Appends an entry to the call log. -/
def logEvent (e : Event) : M Unit := fun s => .ok () { s with log := s.log ++ [e] }

/-- A fresh transient reference to `obj` (null for the null object). -/
def newLocal (obj : Nat) : M Ref := fun s =>
  if obj = 0 then .ok Ref.null s
  else .ok ⟨obj, s.nextId⟩ { s with nextId := s.nextId + 1, locals := ⟨obj, s.nextId⟩ :: s.locals }

/-- Sets the pending exception when a runtime call threw. -/
def setPending (thrown : Nat) : M Unit := fun s =>
  if thrown = 0 then .ok () s else .ok () { s with pending := thrown }

/-- Embeds `env->FindClass(path)`. -/
def FindClass (J : Jvm) (path : String) : M Ref := do
  logEvent (.findClass path)
  setPending (J.findClass path).thrown
  newLocal (J.findClass path).id

/-- Embeds `env->GetObjectClass(obj)`. -/
def GetObjectClass (J : Jvm) (obj : Ref) : M Ref := do
  logEvent (.getObjectClass obj.obj)
  newLocal (J.objectClass obj.obj)

/-- Embeds `env->NewGlobalRef(r)`: a fresh pinned reference to the same object. -/
def NewGlobalRef (r : Ref) : M Ref := fun s =>
  if r.obj = 0 then .ok Ref.null { s with log := s.log ++ [.newGlobalRef 0] }
  else .ok ⟨r.obj, s.nextId⟩
    { s with nextId := s.nextId + 1, globals := ⟨r.obj, s.nextId⟩ :: s.globals,
             log := s.log ++ [.newGlobalRef r.obj] }

/-- Embeds `env->DeleteGlobalRef(r)`. -/
def DeleteGlobalRef (r : Ref) : M Unit := fun s =>
  .ok () { s with globals := s.globals.erase r, log := s.log ++ [.deleteGlobalRef r] }

/-- Embeds `env->NewLocalRef(r)`. -/
def NewLocalRef (r : Ref) : M Ref := do
  logEvent (.newLocalRef r.obj)
  newLocal r.obj

/-- Embeds `env->DeleteLocalRef(r)`. -/
def DeleteLocalRef (r : Ref) : M Unit := fun s =>
  .ok () { s with locals := s.locals.erase r, log := s.log ++ [.deleteLocalRef r] }

/-- Embeds `env->ExceptionCheck()`. -/
def ExceptionCheck : M Bool := fun s => .ok (s.pending != 0) s

/-- Embeds `env->ExceptionOccurred()`. -/
def ExceptionOccurred : M Ref := do
  logEvent .exceptionOccurred
  fun s => newLocal s.pending s

/-- Embeds `env->ExceptionClear()`. -/
def ExceptionClear : M Unit := fun s =>
  .ok () { s with pending := 0, log := s.log ++ [.exceptionClear] }

/-- Records a lookup and leaves its exception pending. -/
def lookupMember (e : Event) (r : Lookup) : M Nat := do
  logEvent e
  setPending r.thrown
  pure r.id

/-- Embeds `env->GetMethodID(cls, name, sig)`. -/
def GetMethodID (J : Jvm) (cls : Ref) (name sig : String) : M Nat :=
  lookupMember (.getMethodID cls.obj name sig) (J.methodID cls.obj name sig)

/-- Embeds `env->GetStaticMethodID(cls, name, sig)`. -/
def GetStaticMethodID (J : Jvm) (cls : Ref) (name sig : String) : M Nat :=
  lookupMember (.getStaticMethodID cls.obj name sig) (J.staticMethodID cls.obj name sig)

/-- Embeds `env->GetFieldID(cls, name, sig)`. -/
def GetFieldID (J : Jvm) (cls : Ref) (name sig : String) : M Nat :=
  lookupMember (.getFieldID cls.obj name sig) (J.fieldID cls.obj name sig)

/-- Embeds `env->GetStaticFieldID(cls, name, sig)`. -/
def GetStaticFieldID (J : Jvm) (cls : Ref) (name sig : String) : M Nat :=
  lookupMember (.getStaticFieldID cls.obj name sig) (J.staticFieldID cls.obj name sig)

/-- Records a runtime invocation or field read, installs the heap and the
pending exception it produced, and hands back the raw value. -/
def runOutcome (e : Event) (o : Nat → Outcome) : M JValue := fun s =>
  let r := o s.world
  let s1 := { s with world := r.world, log := s.log ++ [e] }
  .ok r.ret (if r.thrown = 0 then s1 else { s1 with pending := r.thrown })

/-- Embeds `env->Call<Kind>MethodA(obj, method, args)`, raw value. -/
def CallMethodA (J : Jvm) (obj : Ref) (method : Nat) (args : List JValue) : M JValue :=
  runOutcome (.callMethod obj.obj method args) (fun w => J.invoke w obj.obj method args)

/-- Embeds `env->CallStatic<Kind>MethodA(cls, method, args)`, raw value. -/
def CallStaticMethodA (J : Jvm) (cls : Ref) (method : Nat) (args : List JValue) : M JValue :=
  runOutcome (.callStaticMethod cls.obj method args) (fun w => J.invokeStatic w cls.obj method args)

/-- Embeds `env->Get<Kind>Field(target, field)`, raw value. -/
def GetField (J : Jvm) (target : Ref) (field : Nat) : M JValue :=
  runOutcome (.getField target.obj field) (fun w => J.readField w target.obj field)

/-- Embeds `env->GetStatic<Kind>Field(cls, field)`, raw value. -/
def GetStaticField (J : Jvm) (cls : Ref) (field : Nat) : M JValue :=
  runOutcome (.getStaticField cls.obj field) (fun w => J.readStaticField w cls.obj field)

/-- The object carried by a raw value returned for an object-kind entry point. -/
def JValue.objectOf : JValue → Nat
  | .l r => r.obj
  | _ => 0

/-- An object-kind entry point returns a new transient reference to its result. -/
def asLocal (v : JValue) : M Ref := newLocal v.objectOf

/-- Embeds `env->NewObjectA(cls, method, args)`. -/
def NewObjectA (J : Jvm) (cls : Ref) (method : Nat) (args : List JValue) : M Ref := do
  let v ← runOutcome (.newObject cls.obj method args) (fun w => J.newObject w cls.obj method args)
  asLocal v

/-- Embeds `env->NewStringUTF(chars)`: a new string object and a transient reference to it. -/
def NewStringUTF (chars : String) : M Ref := fun s =>
  newLocal (s.nextObj + 1)
    { s with nextObj := s.nextObj + 1, strings := (s.nextObj + 1, chars) :: s.strings,
             log := s.log ++ [.newStringUTF chars] }

/-- Embeds `env->GetStringUTFChars(str, NULL)`; `none` is the `NULL` result. -/
def GetStringUTFChars (J : Jvm) (str : Ref) : M (Option String) := fun s =>
  .ok (match s.strings.lookup str.obj with
       | some c => some c
       | none => J.stringChars str.obj)
      { s with log := s.log ++ [.getStringUTFChars str.obj] }

/-- Embeds `env->New<Kind>Array(size)` / `env->NewObjectArray(size, cls, 0)`. -/
def NewArray (kind : ArrayKind) (size : Nat) (zero : JValue) : M Ref := fun s =>
  newLocal (s.nextObj + 1)
    { s with nextObj := s.nextObj + 1,
             arrays := (s.nextObj + 1, ⟨kind, List.replicate size zero⟩) :: s.arrays,
             log := s.log ++ [.newArray kind size] }

/-- Overwrites `elems[start ..]` with `vals`, as far as the array reaches. -/
def writeRegion (elems : List JValue) (start : Nat) (vals : List JValue) : List JValue :=
  elems.take start ++ (vals.take (elems.length - start)) ++ elems.drop (start + vals.length)

/-- Embeds `env->Set<Kind>ArrayRegion(arr, start, len, buf)`: writes into an array of
that kind.  Handing the entry point an array of another element kind is
outside the behaviour the runtime defines (it aborts or reinterprets memory). -/
def SetArrayRegion (kind : ArrayKind) (arr : Ref) (start : Nat) (vals : List JValue) : M Unit := fun s =>
  match s.arrays.lookup arr.obj with
  | none => .outside "Set<Kind>ArrayRegion on a reference that is no array"
  | some a =>
    if a.kind = kind then
      .ok () { s with
        arrays := s.arrays.map (fun e =>
          if e.1 = arr.obj then (e.1, ⟨e.2.kind, writeRegion e.2.elems start vals⟩) else e),
        log := s.log ++ [.setArrayRegion arr.obj start vals] }
    else .outside "Set<Kind>ArrayRegion on an array of another element kind"

/-- Embeds `env->GetArrayLength(arr)`. -/
def GetArrayLength (arr : Ref) : M Nat := fun s =>
  match s.arrays.lookup arr.obj with
  | none => .outside "GetArrayLength on a reference that is no array"
  | some a => .ok a.elems.length s

/-- Embeds `env->Get<Kind>ArrayRegion(arr, pos, 1, &out)`: the element read, `none`
(with the index error left pending) when `pos` is past the end. -/
def GetArrayRegion1 (indexError : Nat) (kind : ArrayKind) (arr : Ref) (pos : Nat) :
    M (Option JValue) := fun s =>
  match s.arrays.lookup arr.obj with
  | none => .outside "Get<Kind>ArrayRegion on a reference that is no array"
  | some a =>
    if a.kind = kind then
      match a.elems.get? pos with
      | some v => .ok (some v) s
      | none => .ok none { s with pending := indexError }
    else .outside "Get<Kind>ArrayRegion on an array of another element kind"

/-- Embeds `env->GetObjectArrayElement(arr, pos)`: a new transient reference to the
element. -/
def GetObjectArrayElement (indexError : Nat) (arr : Ref) (pos : Nat) : M Ref := fun s =>
  match s.arrays.lookup arr.obj with
  | none => .outside "GetObjectArrayElement on a reference that is no array"
  | some a =>
    match a.elems.get? pos with
    | some v => newLocal v.objectOf s
    | none => .ok Ref.null { s with pending := indexError }

/-- Embeds `env->SetObjectArrayElement(arr, pos, elm)`. -/
def SetObjectArrayElement (arr : Ref) (pos : Nat) (elm : Ref) : M Unit := fun s =>
  .ok () { s with
    arrays := s.arrays.map (fun e =>
      if e.1 = arr.obj then (e.1, ⟨e.2.kind, writeRegion e.2.elems pos [.l elm]⟩) else e),
    log := s.log ++ [.setObjectArrayElement arr.obj pos elm] }

/-! ## `class Jni` -/

/-- Embeds `Jni::getEnvironment`: throws when `_java` is not installed; attaches the
thread and fills its slot when the slot is empty. -/
def getEnvironment (J : Jvm) : M Nat := fun s =>
  if s.java = false then .raise "Jni::onLoad not called." s
  else if s.threadEnv = 0 then
    .ok J.attachEnv { s with threadEnv := J.attachEnv, log := s.log ++ [.attachCurrentThread] }
  else .ok s.threadEnv s

/-- Embeds `_classes[classPath] = cls`. -/
def cacheClass (classPath : String) (cls : Ref) : M Unit := fun s =>
  .ok () { s with classes := (classPath, cls) :: s.classes.filter (fun e => e.1 != classPath) }

/-- Embeds `Jni::getClass(classPath, cache)`. -/
def Jni.getClass (J : Jvm) (classPath : String) (cache : Bool) : M Ref := fun s =>
  match s.classes.lookup classPath with
  | some cls => .ok cls s
  | none => (do
      let env ← getEnvironment J
      if env != 0 then
        let cls ← FindClass J classPath
        if cls.isSet then
          if cache then
            let cls ← NewGlobalRef cls
            cacheClass classPath cls
            pure cls
          else
            pure cls
        else
          ExceptionClear
          pure Ref.null
      else
        pure Ref.null) s

/-! ## `class JniObject`: construction and release -/

/-- Embeds `JniObject::init(objId, classId, classPath)` on a wrapper `w`. -/
def JniObject.init (J : Jvm) (w : JniObject) (objId classId : Ref) (classPath : String) :
    M JniObject := do
  let env ← getEnvironment J
  let w := { w with _classPath := replaceDots classPath }
  if env != 0 then
    let classId ←
      if !classId.isSet then
        if objId.isSet then GetObjectClass J objId
        else if !classPath.isEmpty then Jni.getClass J w._classPath true
        else pure classId
      else pure classId
    let w ←
      if classId.isSet then do
        let g ← NewGlobalRef classId
        pure { w with _class := g }
      else pure { w with _classPath := "" }
    if objId.isSet then
      let g ← NewGlobalRef objId
      pure { w with _instance := g }
    else pure w
  else pure w

/-- The member initialisers `_instance(nullptr), _class(nullptr)`. -/
def JniObject.fresh : JniObject := ⟨Ref.null, Ref.null, ""⟩

/-- Embeds `JniObject(const std::string& classPath, jobject objId, jclass classId)`. -/
def JniObject.ofClassPath (J : Jvm) (classPath : String) (objId classId : Ref) : M JniObject :=
  JniObject.init J JniObject.fresh objId classId classPath

/-- Embeds `JniObject(jclass classId, jobject objId)`. -/
def JniObject.ofClass (J : Jvm) (classId objId : Ref) : M JniObject :=
  JniObject.init J JniObject.fresh objId classId ""

/-- Embeds `JniObject(jobject objId)`. -/
def JniObject.ofObject (J : Jvm) (objId : Ref) : M JniObject :=
  JniObject.init J JniObject.fresh objId Ref.null ""

/-- Embeds `JniObject(const JniObject& other)`. -/
def JniObject.copy (J : Jvm) (other : JniObject) : M JniObject :=
  JniObject.init J JniObject.fresh other._instance other._class other._classPath

/-- Embeds `JniObject::clear` (also the destructor). -/
def JniObject.clear (J : Jvm) (w : JniObject) : M JniObject := do
  let env ← getEnvironment J
  if env = 0 then pure w
  else
    let w ←
      if w._class.isSet then do
        DeleteGlobalRef w._class
        pure { w with _class := Ref.null }
      else pure w
    if w._instance.isSet then do
      DeleteGlobalRef w._instance
      pure { w with _instance := Ref.null }
    else pure w

/-- The destructor `~JniObject`, for use at scope exit. -/
def JniObject.destroy (J : Jvm) (w : JniObject) : M Unit := do
  let _ ← JniObject.clear J w
  pure ()

/-- Embeds `JniObject::operator=(const JniObject& other)`. -/
def JniObject.assign (J : Jvm) (w other : JniObject) : M JniObject := do
  let w ← JniObject.clear J w
  let w := { w with _classPath := other._classPath }
  JniObject.init J w other._instance other._class ""

/-- Embeds `JniObject::operator bool`. -/
def JniObject.toBool (w : JniObject) : Bool := w._instance.isSet

/-! ## Value conversion -/

/-- The return types the typed entry points of `JniObject.cpp` are specialised for. -/
inductive RetKind where
  | bool | uint8 | jobject | double | long | float | int | string | wrapper
  deriving DecidableEq, Repr

/-- A decoded result. -/
inductive RetVal where
  | bool (b : Bool)
  | uint8 (n : Nat)
  | jobject (r : Ref)
  | double (bits : Nat)
  | long (i : Int)
  | float (bits : Nat)
  | int (i : Int)
  | string (s : String)
  | wrapper (w : JniObject)
  | void
  deriving DecidableEq, Repr

/-- Reads a scalar result of the given kind out of the raw value an entry
point returned (the zero value when the runtime produced another kind). -/
def RetVal.ofScalar : RetKind → JValue → RetVal
  | .bool, .z v => .bool v
  | .bool, _ => .bool false
  | .uint8, .b v => .uint8 v
  | .uint8, _ => .uint8 0
  | .double, .d v => .double v
  | .double, _ => .double 0
  | .long, .j v => .long v
  | .long, _ => .long 0
  | .float, .f v => .float v
  | .float, _ => .float 0
  | .int, .i v => .int v
  | .int, _ => .int 0
  | _, _ => .void

/-- The return type a native type selects as `Return`, when it has one. -/
def NativeType.retKind : NativeType → Option RetKind
  | .bool => some .bool
  | .uint8 => some .uint8
  | .jobject => some .jobject
  | .long => some .long
  | .float => some .float
  | .int => some .int
  | .string => some .string
  | .wrapper => some .wrapper
  | _ => none

/-- Embeds `assert(cond)`. -/
def cassert (cond : Bool) (what : String) : M Unit := fun s =>
  if cond then .ok () s else .outside what

/-- Embeds `convertFromJavaObject(env, obj, std::string& out)`: the flag and the new `out`. -/
def convertFromJavaObjectString (J : Jvm) (obj : Ref) (out : String) : M (Bool × String) := do
  if !obj.isSet then pure (true, "")
  else
    match ← GetStringUTFChars J obj with
    | none => pure (false, out)
    | some chars => pure (true, chars)

/-- Embeds `convertFromJavaObject(env, obj, JniObject& out)`: `out = obj` goes through
the converting constructor `JniObject(jobject)` and `operator=`. -/
def convertFromJavaObjectWrapper (J : Jvm) (obj : Ref) (out : JniObject) : M (Bool × JniObject) := do
  let tmp ← JniObject.ofObject J obj
  let out ← (JniObject.assign J out tmp).andFinally (JniObject.destroy J tmp)
  DeleteLocalRef obj
  pure (true, out)

/-- Embeds `convertFromJavaObject<std::string>(env, obj)`. -/
def convertFromJavaObjectStringValue (J : Jvm) (obj : Ref) : M String := do
  let (result, out) ← convertFromJavaObjectString J obj ""
  cassert result "assert(result)"
  pure out

/-- Embeds `convertFromJavaObject<JniObject>(env, obj)`. -/
def convertFromJavaObjectWrapperValue (J : Jvm) (obj : Ref) : M JniObject := do
  let out ← JniObject.ofObject J Ref.null
  let (result, out) ← convertFromJavaObjectWrapper J obj out
  cassert result "assert(result)"
  pure out

/-- Embeds `convertFromJavaObject<std::string>(obj)`: fetches the environment itself. -/
def convertFromJavaObjectStringNoEnv (J : Jvm) (obj : Ref) : M String := do
  let env ← getEnvironment J
  cassert (env != 0) "assert(env)"
  convertFromJavaObjectStringValue J obj

/-- Embeds `convertFromJavaObject<JniObject>(obj)`: fetches the environment itself. -/
def convertFromJavaObjectWrapperNoEnv (J : Jvm) (obj : Ref) : M JniObject := do
  let env ← getEnvironment J
  cassert (env != 0) "assert(env)"
  convertFromJavaObjectWrapperValue J obj

/-- The reference held in the `l` member of a slot. -/
def JValue.refOf : JValue → Ref
  | .l r => r
  | _ => Ref.null

/-- Embeds `isObjectArgument(arg)`: `true` for every container and map overload of
`JniObject.hpp`, `false` for a pointer, which a raw reference is. -/
def isObjectArgument (J : Jvm) : NativeVal → Bool
  | .jobject _ => false
  | .vector _ _ => true
  | .set _ _ => true
  | .array _ _ _ => true
  | .list _ _ => true
  | .map _ _ _ => true
  | v => J.isObjectArgumentOther v

/-- Embeds `cleanupArguments(env, jargs, args...)`: `findObjectArguments` collects the
slots of the object-valued positions, then each is released. -/
def cleanupArguments (J : Jvm) : List JValue → List NativeVal → M Unit
  | jv :: jargs, arg :: args => do
    if isObjectArgument J arg then DeleteLocalRef jv.refOf
    cleanupArguments J jargs args
  | _, _ => pure ()

/-- Embeds `createJavaArray(env, element, size)`, by the type of `element`. -/
def createJavaArrayOf (J : Jvm) (element : NativeVal) (size : Nat) : M Ref :=
  match element with
  | .jobject r => do
    let elmClass ← GetObjectClass J r
    NewArray (.object elmClass.obj) size (.l Ref.null)
  | .long _ => NewArray .long size (.j 0)
  | .float _ => NewArray .float size (.f 0)
  | .int _ => NewArray .long size (.j 0)
  | .uint8 _ => NewArray .byte size (.b 0)
  | .string _ => do
    let elmClass ← FindClass J "java/lang/String"
    NewArray (.object elmClass.obj) size (.l Ref.null)
  | .wrapper w => NewArray (.object w._class.obj) size (.l Ref.null)
  | _ => fun _ => .outside "createJavaArray<Type>(env, element, size) has no definition"

/-- Embeds `setJavaArrayElement(env, arr, position, elm)` for the per-index element types. -/
def setJavaArrayElement (arr : Ref) (position : Nat) : NativeVal → M Unit
  | .jobject r => SetObjectArrayElement arr position r
  | .string str => do
    let obj ← NewStringUTF str
    SetObjectArrayElement arr position obj
  | .wrapper w => SetObjectArrayElement arr position w._instance
  | _ => fun _ => .outside "setJavaArrayElement is used per index for objects and strings only"

/-- The per-index loop of `setJavaArrayElements`. -/
def setEach (arr : Ref) : Nat → List NativeVal → M Unit
  | _, [] => pure ()
  | i, x :: xs => do
    setJavaArrayElement arr i x
    setEach arr (i + 1) xs

/-- The slot a numeric element occupies in a region buffer. -/
def NativeVal.slot : NativeVal → JValue
  | .bool b => .z b
  | .uint8 n => .b n
  | .char c => .c c
  | .short i => .s i
  | .int i => .i i
  | .uint n => .i n
  | .long i => .j i
  | .float f => .f f
  | _ => .l Ref.null

/-- Embeds `setJavaArrayElements(env, arr, const std::vector<T>& obj)`, by element type. -/
def setJavaArrayElements (arr : Ref) (elem : NativeType) (xs : List NativeVal) : M Unit :=
  match elem with
  | .long => SetArrayRegion .long arr 0 (xs.map NativeVal.slot)
  | .float => SetArrayRegion .float arr 0 (xs.map NativeVal.slot)
  | .int => SetArrayRegion .int arr 0 (xs.map NativeVal.slot)
  | .uint8 => SetArrayRegion .byte arr 0 (xs.map NativeVal.slot)
  | .wrapper => setEach arr 0 xs
  | .string => setEach arr 0 xs
  | .jobject => setEach arr 0 xs
  | _ => fun _ => .outside "setJavaArrayElements<Type> has no definition"

/-- Embeds `createJavaArray(const Type& obj)` for a `std::vector` of the given element type. -/
def createJavaArray (J : Jvm) (elem : NativeType) (xs : List NativeVal) : M Ref := do
  let env ← getEnvironment J
  if env = 0 then pure Ref.null
  else
    let arr ←
      match xs with
      | [] => createJavaArrayOf J elem.defaultValue 0
      | x :: _ => createJavaArrayOf J x xs.length
    setJavaArrayElements arr elem xs
    pure arr

/-- Runs `f` on each argument, left to right (`buildArguments`). -/
def buildArguments (f : NativeVal → M JValue) : List NativeVal → M (List JValue)
  | [] => pure []
  | arg :: args => do
    let v ← f arg
    let vs ← buildArguments f args
    pure (v :: vs)

/-- Runs `f` on each entry of a map, in iteration order. -/
def forEntries (f : NativeVal → NativeVal → M Unit) : List (NativeVal × NativeVal) → M Unit
  | [] => pure ()
  | (k, v) :: rest => do
    f k v
    forEntries f rest

/-- Runs `fin` when `m` throws, then rethrows: the destructor of a local
object during unwinding. -/
def M.onRaise {α : Type} (m : M α) (fin : M Unit) : M α := fun s =>
  match m s with
  | .raise e s1 =>
    match fin s1 with
    | .ok _ s2 => .raise e s2
    | .raise _ s2 => .raise e s2
    | .outside w => .outside w
    | .timeout => .timeout
  | r => r

/-- The destructor of a result object. -/
def RetVal.destroy (J : Jvm) : RetVal → M Unit
  | .wrapper w => JniObject.destroy J w
  | _ => pure ()

/-! ## Invocation and field dispatch

The functions below call each other (`checkJniException` calls `call` on the
exception object, `call` ends in `checkJniException`, a map argument is
built with `callSigned`), so they are defined together over a recursion
budget; `Res.timeout` reports an exhausted budget. -/

mutual

/-- Embeds `JniObject::checkJniException`. -/
def checkJniException (J : Jvm) : Nat → M Unit
  | 0 => fun _ => .timeout
  | fuel + 1 => do
    let env ← getEnvironment J
    if env = 0 then pure ()
    else if !(← ExceptionCheck) then pure ()
    else
      let exc ← JniObject.ofObject J (← ExceptionOccurred)
      M.andFinally (do
        if exc.toBool then
          ExceptionClear
          let (cp, exc) ← getClassPath J fuel exc
          let msg := cp ++ ": "
          let r ← callSigned J fuel .string exc "getLocalizedMessage" "()Ljava/lang/String;" []
          match r with
          | .string m => throwJni (msg ++ m)
          | _ => throwJni msg
        else pure ()) (JniObject.destroy J exc)

/-- The guarded expression of `getClassPath`:
`JniObject("java/lang/Class", _class).call("getName", _classPath)`. -/
def lazyClassName (J : Jvm) : Nat → Ref → M String
  | 0, _ => fun _ => .timeout
  | fuel + 1, cls => do
    let tmp ← JniObject.ofClassPath J "java/lang/Class" cls Ref.null
    M.andFinally (do
      let r ← callSigned J fuel .string tmp "getName" "()Ljava/lang/String;" []
      match r with
      | .string name => pure name
      | _ => pure "") (JniObject.destroy J tmp)

/-- Embeds `JniObject::getClassPath`: the string returned and the wrapper with its
`mutable` class path. -/
def getClassPath (J : Jvm) : Nat → JniObject → M (String × JniObject)
  | 0, _ => fun _ => .timeout
  | fuel + 1, w =>
    if w._classPath.isEmpty && w._class.isSet then
      M.tryCatch (do
        let name ← lazyClassName J fuel w._class
        pure (name, { w with _classPath := name })) (pure (w._classPath, w))
    else pure (w._classPath, w)

/-- Embeds `callJavaMethod(env, objId, methodId, args, out)`: the typed entry point
for scalar kinds, `callJavaObjectMethod` for strings and wrappers. -/
def callJavaMethod (J : Jvm) : Nat → RetKind → Ref → Nat → List JValue → M RetVal
  | 0, _, _, _, _ => fun _ => .timeout
  | fuel + 1, kind, objId, methodId, args =>
    match kind with
    | .jobject => do
      let v ← CallMethodA J objId methodId args
      pure (.jobject (← asLocal v))
    | .string => do
      let jout ← asLocal (← CallMethodA J objId methodId args)
      checkJniException J fuel
      pure (.string (← convertFromJavaObjectStringNoEnv J jout))
    | .wrapper => do
      let result ← JniObject.ofObject J Ref.null
      M.onRaise (do
        let jout ← asLocal (← CallMethodA J objId methodId args)
        checkJniException J fuel
        let conv ← convertFromJavaObjectWrapperNoEnv J jout
        let result ← (JniObject.assign J result conv).andFinally (JniObject.destroy J conv)
        pure (.wrapper result)) (JniObject.destroy J result)
    | k => do
      let v ← CallMethodA J objId methodId args
      pure (RetVal.ofScalar k v)

/-- Embeds `convertToJavaValue(obj)`.  References reach the slot through the
pointer overload, as `(jlong)obj` in the member `j`, which shares its bits
with the member `l` that `cleanupArguments` reads; the slot is recorded as
holding the reference. -/
def convertToJavaValue (J : Jvm) : Nat → NativeVal → M JValue
  | 0, _ => fun _ => .timeout
  | fuel + 1, v =>
    match v with
    | .bool b => pure (.z b)
    | .uint8 n => pure (.b n)
    | .char c => pure (.c c)
    | .short i => pure (.s i)
    | .int i => pure (.i i)
    | .uint n => pure (.i n)
    | .long i => pure (.j i)
    | .float f => pure (.f f)
    | .jobject r => pure (.l r)
    | .wrapper w => pure (.l w._instance)
    | .string str => do
      let env ← getEnvironment J
      if env = 0 then pure (.l Ref.null)
      else pure (.l (← NewStringUTF str))
    | .vector t xs => do pure (.l (← createJavaArray J t xs))
    | .set _ _ => fun _ => .outside "setJavaArrayElements<std::set<Type>> has no definition"
    | .array _ _ _ => fun _ => .outside "setJavaArrayElements<std::array<Type, Size>> has no definition"
    | .list _ _ => fun _ => .outside "setJavaArrayElements<std::list<Type>> has no definition"
    | .map _ vt entries => do
      let jmap ← createJavaMap J fuel vt entries "java/util/HashMap"
      M.andFinally (do pure (.l (← NewLocalRef jmap._instance))) (JniObject.destroy J jmap)

/-- Embeds `createArguments(args...)`. -/
def createArguments (J : Jvm) : Nat → List NativeVal → M (List JValue)
  | 0, _ => fun _ => .timeout
  | fuel + 1, args => buildArguments (convertToJavaValue J fuel) args

/-- Embeds `JniObject::callSigned<Return>(name, signature, defRet, args...)`. -/
def callSigned (J : Jvm) : Nat → RetKind → JniObject → String → String → List NativeVal → M RetVal
  | 0, _, _, _, _, _ => fun _ => .timeout
  | fuel + 1, kind, w, name, signature, args => do
    let env ← getEnvironment J
    if env = 0 then throwJni "no environment found"
    else
      let classId := w._class
      if !classId.isSet then throwJni "no class found"
      else
        let objId := w._instance
        if !objId.isSet then throwJni "no object found"
        else
          let methodId ← GetMethodID J classId name signature
          checkJniException J fuel
          let jargs ← createArguments J fuel args
          let result ← callJavaMethod J fuel kind objId methodId jargs
          M.onRaise (do
            cleanupArguments J jargs args
            checkJniException J fuel
            pure result) (RetVal.destroy J result)

/-- Embeds `JniObject::callSignedVoid(name, signature, args...)`. -/
def callSignedVoid (J : Jvm) : Nat → JniObject → String → String → List NativeVal → M Unit
  | 0, _, _, _, _ => fun _ => .timeout
  | fuel + 1, w, name, signature, args => do
    let env ← getEnvironment J
    if env = 0 then throwJni "no environment found"
    else
      let classId := w._class
      if !classId.isSet then throwJni "no class found"
      else
        let objId := w._instance
        if !objId.isSet then throwJni "no object found"
        else
          let methodId ← GetMethodID J classId name signature
          checkJniException J fuel
          let jargs ← createArguments J fuel args
          let _ ← CallMethodA J objId methodId jargs
          cleanupArguments J jargs args
          checkJniException J fuel

/-- Embeds `callStaticJavaMethod<Return>(env, classId, methodId, args)`. -/
def callStaticJavaMethod (J : Jvm) : Nat → RetKind → Ref → Nat → List JValue → M RetVal
  | 0, _, _, _, _ => fun _ => .timeout
  | _ + 1, kind, classId, methodId, args =>
    match kind with
    | .jobject => do
      let v ← CallStaticMethodA J classId methodId args
      pure (.jobject (← asLocal v))
    | .string => do
      let jout ← asLocal (← CallStaticMethodA J classId methodId args)
      pure (.string (← convertFromJavaObjectStringValue J jout))
    | .wrapper => do
      let jout ← asLocal (← CallStaticMethodA J classId methodId args)
      pure (.wrapper (← convertFromJavaObjectWrapperValue J jout))
    | .bool => fun _ => .outside "callStaticJavaMethod<bool> has no definition"
    | .uint8 => fun _ => .outside "callStaticJavaMethod<uint8_t> has no definition"
    | k => do
      let v ← CallStaticMethodA J classId methodId args
      pure (RetVal.ofScalar k v)

/-- Embeds `JniObject::staticCallSigned<Return>(name, signature, defRet, args...)`. -/
def staticCallSigned (J : Jvm) : Nat → RetKind → JniObject → String → String → List NativeVal → M RetVal
  | 0, _, _, _, _, _ => fun _ => .timeout
  | fuel + 1, kind, w, name, signature, args => do
    let env ← getEnvironment J
    if env = 0 then throwJni "no environment found"
    else
      let classId := w._class
      if !classId.isSet then throwJni "no class found"
      else
        let methodId ← GetStaticMethodID J classId name signature
        checkJniException J fuel
        let jargs ← createArguments J fuel args
        let result ← callStaticJavaMethod J fuel kind classId methodId jargs
        M.onRaise (do
          cleanupArguments J jargs args
          checkJniException J fuel
          pure result) (RetVal.destroy J result)

/-- Embeds `JniObject::staticCallSignedVoid(name, signature, args...)`. -/
def staticCallSignedVoid (J : Jvm) : Nat → JniObject → String → String → List NativeVal → M Unit
  | 0, _, _, _, _ => fun _ => .timeout
  | fuel + 1, w, name, signature, args => do
    let env ← getEnvironment J
    if env = 0 then throwJni "no environment found"
    else
      let classId := w._class
      if !classId.isSet then throwJni "no class found"
      else
        let methodId ← GetStaticMethodID J classId name signature
        checkJniException J fuel
        let jargs ← createArguments J fuel args
        let _ ← CallStaticMethodA J classId methodId jargs
        cleanupArguments J jargs args
        checkJniException J fuel

/-- Embeds `JniObject::createNew(classPath, args...)`.  The constructor signature is
derived with the class paths the runtime reports in the entry state. -/
def createNew (J : Jvm) : Nat → String → List NativeVal → M JniObject
  | 0, _, _ => fun _ => .timeout
  | fuel + 1, classPath, args => fun s0 => (do
    let defRet ← JniObject.ofClassPath J classPath Ref.null Ref.null
    M.onRaise (do
      let env ← getEnvironment J
      if env = 0 then pure defRet
      else
        let classId ← Jni.getClass J classPath true
        if !classId.isSet then pure defRet
        else
          let V : Descriptor.WrapperView :=
            ⟨fun r => match lazyClassName J fuel r s0 with
                      | .ok n _ => n
                      | _ => ""⟩
          let signature := Descriptor.createVoidSignature V args
          let methodId ← GetMethodID J classId "<init>" signature
          checkJniException J fuel
          let jargs ← createArguments J fuel args
          let obj ← NewObjectA J classId methodId jargs
          checkJniException J fuel
          let tmp ← JniObject.ofClassPath J classPath obj classId
          (JniObject.assign J defRet tmp).andFinally (JniObject.destroy J tmp))
      (JniObject.destroy J defRet)) s0

/-- Embeds `JniObject::createJavaMap(obj, classPath)` for a map with the given value type. -/
def createJavaMap (J : Jvm) : Nat → NativeType → List (NativeVal × NativeVal) → String → M JniObject
  | 0, _, _, _ => fun _ => .timeout
  | fuel + 1, vt, entries, classPath => do
    let jmap ← createNew J fuel classPath []
    M.onRaise (do
      match vt.retKind with
      | none =>
        match entries with
        | [] => pure ()
        | _ => fun _ => .outside "callJavaMethod<Value> has no definition"
      | some kind =>
        forEntries (fun k v => do
          let r ← callSigned J fuel kind jmap "put"
            "(Ljava/lang/Object;Ljava/lang/Object;)Ljava/lang/Object;" [k, v]
          RetVal.destroy J r) entries
      pure jmap) (JniObject.destroy J jmap)

end

/-- Embeds `getJavaStaticField<Return>(env, classId, fieldId)`. -/
def getJavaStaticField (J : Jvm) (kind : RetKind) (classId : Ref) (fieldId : Nat) : M RetVal :=
  match kind with
  | .jobject => do pure (.jobject (← asLocal (← GetStaticField J classId fieldId)))
  | .string => do
    let obj ← asLocal (← GetStaticField J classId fieldId)
    pure (.string (← convertFromJavaObjectStringNoEnv J obj))
  | .wrapper => do
    let obj ← asLocal (← GetStaticField J classId fieldId)
    pure (.wrapper (← convertFromJavaObjectWrapperNoEnv J obj))
  | .bool => fun _ => .outside "getJavaStaticField<bool> has no definition"
  | .uint8 => fun _ => .outside "getJavaStaticField<uint8_t> has no definition"
  | k => do pure (RetVal.ofScalar k (← GetStaticField J classId fieldId))

/-- Embeds `JniObject::staticFieldSigned<Return>(name, signature, defRet)`. -/
def staticFieldSigned (J : Jvm) (fuel : Nat) (kind : RetKind) (w : JniObject)
    (name signature : String) : M RetVal := do
  let env ← getEnvironment J
  if env = 0 then throwJni "no environment found"
  else
    let classId := w._class
    if !classId.isSet then throwJni "no class found"
    else
      let fieldId ← GetStaticFieldID J classId name signature
      checkJniException J fuel
      let result ← getJavaStaticField J kind classId fieldId
      M.onRaise (do
        checkJniException J fuel
        pure result) (RetVal.destroy J result)

/-- Embeds `getJavaField<Return>(env, objId, fieldId)`. -/
def getJavaField (J : Jvm) (kind : RetKind) (objId : Ref) (fieldId : Nat) : M RetVal :=
  match kind with
  | .jobject => do pure (.jobject (← asLocal (← GetField J objId fieldId)))
  | .string => do
    let obj ← asLocal (← GetField J objId fieldId)
    pure (.string (← convertFromJavaObjectStringNoEnv J obj))
  | .wrapper => do
    let obj ← asLocal (← GetField J objId fieldId)
    pure (.wrapper (← convertFromJavaObjectWrapperNoEnv J obj))
  | .bool => fun _ => .outside "getJavaField<bool> has no definition"
  | .uint8 => fun _ => .outside "getJavaField<uint8_t> has no definition"
  | k => do pure (RetVal.ofScalar k (← GetField J objId fieldId))

/-- Embeds `JniObject::fieldSigned<Return>(name, signature, defRet)`: the field is
read with `getJavaField<Return>(env, classId, fieldId)`. -/
def fieldSigned (J : Jvm) (fuel : Nat) (kind : RetKind) (w : JniObject)
    (name signature : String) : M RetVal := do
  let env ← getEnvironment J
  if env = 0 then throwJni "no environment found"
  else
    let classId := w._class
    if !classId.isSet then throwJni "no class found"
    else
      let fieldId ← GetFieldID J classId name signature
      checkJniException J fuel
      let result ← getJavaField J kind classId fieldId
      M.onRaise (do
        checkJniException J fuel
        pure result) (RetVal.destroy J result)

/-- Embeds `JniObject::getSignature`: `"L" + getClassPath() + ";"`. -/
def getSignature (J : Jvm) (fuel : Nat) (w : JniObject) : M (String × JniObject) := do
  let (cp, w) ← getClassPath J fuel w
  pure ("L" ++ cp ++ ";", w)

/-- Embeds `getSignaturePart(const jobject& val)`: `getSignaturePart(JniObject(val))`. -/
def getSignaturePartJobject (J : Jvm) (fuel : Nat) (val : Ref) : M String := do
  let tmp ← JniObject.ofObject J val
  M.andFinally (do
    let (sig, _) ← getSignature J fuel tmp
    pure sig) (JniObject.destroy J tmp)

/-! ## Static typing of native values -/

/-- The static type of a native value. -/
def NativeVal.typeOf : NativeVal → NativeType
  | .bool _ => .bool
  | .uint8 _ => .uint8
  | .char _ => .char
  | .short _ => .short
  | .int _ => .int
  | .uint _ => .uint
  | .long _ => .long
  | .float _ => .float
  | .string _ => .string
  | .wrapper _ => .wrapper
  | .jobject _ => .jobject
  | .vector t _ => .vector t
  | .set t _ => .set t
  | .list t _ => .list t
  | .array t n _ => .array t n
  | .map k v _ => .map k v

mutual
/-- Every element of a container has the container's element type, and a
fixed array has as many elements as its size says. -/
def NativeVal.wellTyped : NativeVal → Bool
  | .vector t xs => wellTypedList t xs
  | .set t xs => wellTypedList t xs
  | .list t xs => wellTypedList t xs
  | .array t n xs => wellTypedList t xs && xs.length == n
  | .map k v es => wellTypedEntries k v es
  | _ => true
/-- All elements are well typed and of type `t`. -/
def wellTypedList (t : NativeType) : List NativeVal → Bool
  | [] => true
  | x :: xs => x.typeOf == t && x.wellTyped && wellTypedList t xs
/-- All entries are well typed, with keys of type `k` and values of type `v`. -/
def wellTypedEntries (k v : NativeType) : List (NativeVal × NativeVal) → Bool
  | [] => true
  | (a, b) :: es =>
    a.typeOf == k && a.wellTyped && b.typeOf == v && b.wellTyped && wellTypedEntries k v es
end

/-- Types whose descriptor does not read a wrapper: no wrapper occurs as an
element type. -/
def NativeType.valueFree : NativeType → Bool
  | .wrapper => false
  | .vector t => t.valueFree
  | .set t => t.valueFree
  | .list t => t.valueFree
  | .array t _ => t.valueFree
  | _ => true

/-! ## Identity, instance tests, singletons -/

/-- Embeds `env->IsSameObject(a, b)`: the two references denote the same object (two
null references do). -/
def IsSameObject (a b : Ref) : Bool := a.obj == b.obj

/-- Embeds `JniObject::operator==`. -/
def JniObject.equals (J : Jvm) (w other : JniObject) : M Bool := do
  let env ← getEnvironment J
  if env = 0 then pure false
  else
    let a := w._instance
    let b := other._instance
    if a.isSet && b.isSet then pure (IsSameObject a b)
    else
      let a := w._class
      let b := other._class
      pure (IsSameObject a b)

/-- Embeds `JniObject::isInstanceOf(classPath)`. -/
def JniObject.isInstanceOf (J : Jvm) (w : JniObject) (classPath : String) : M Bool := do
  let fclassPath := replaceDots classPath
  let env ← getEnvironment J
  if env = 0 then pure false
  else
    let cls ← FindClass J fclassPath
    pure (J.isInstance w._instance.obj cls.obj)

/-- The wrapper a wrapper-valued result carries. -/
def RetVal.toWrapper : RetVal → JniObject
  | .wrapper w => w
  | _ => JniObject.fresh

/-- Embeds `JniObject::staticField<JniObject>(name, defRet)`: the signature is
`getSignaturePart<JniObject>(defRet)`, that is `defRet.getSignature()`. -/
def staticFieldWrapper (J : Jvm) (fuel : Nat) (w : JniObject) (name : String)
    (defRet : JniObject) : M JniObject := do
  let (signature, _) ← getSignature J fuel defRet
  let r ← staticFieldSigned J fuel .wrapper w name signature
  pure r.toWrapper

/-- Embeds `JniObject::staticCall<JniObject>(name, defRet)` without arguments: the
signature is `createSignature(defRet)`. -/
def staticCallWrapper (J : Jvm) (fuel : Nat) (w : JniObject) (name : String)
    (defRet : JniObject) : M JniObject := do
  let (part, _) ← getSignature J fuel defRet
  let signature := "(" ++ ")" ++ part
  let r ← staticCallSigned J fuel .wrapper w name signature []
  pure r.toWrapper

/-- Embeds `JniObject::findSingleton(classPath)`.  Both attempts pass `cls` as
`defRet`; `getSignature` leaves a wrapper built from a class path as it is
(`getSignature_stored`), so the alias needs no threading. -/
def findSingleton (J : Jvm) (fuel : Nat) (classPath : String) : M JniObject := do
  let cls ← JniObject.ofClassPath J classPath Ref.null Ref.null
  M.andFinally
    (M.tryCatch (staticFieldWrapper J fuel cls "instance" cls)
      (M.tryCatch (staticCallWrapper J fuel cls "getInstance" cls)
        (throwJni "Could not find singleton instance.")))
    (JniObject.destroy J cls)

/-! ## Foreign arrays to native containers -/

/-- The loop of `convertFromJavaArray`: decodes the listed indices in order and
appends each element, whatever the decoder's flag says. -/
def decodeEach (decode : Ref → Nat → M (Bool × NativeVal)) (arr : Ref) :
    List Nat → List NativeVal → M (List NativeVal)
  | [], acc => pure acc
  | i :: is, acc => do
    let (_, elm) ← decode arr i
    decodeEach decode arr is (acc ++ [elm])

/-- Embeds `convertFromJavaArray(env, arr, container)` over an element decoder: a null
array gives `false`; otherwise the length is read and the indices
`0 .. arraySize - 1` are decoded in order. -/
def convertFromJavaArrayWith (decode : Ref → Nat → M (Bool × NativeVal)) (arr : Ref)
    (container : List NativeVal) : M (Bool × List NativeVal) := do
  if !arr.isSet then pure (false, container)
  else
    let arraySize ← GetArrayLength arr
    let out ← decodeEach decode arr (List.range arraySize) container
    pure (true, out)

/-- The scalar a region read hands back, the initial `out` when nothing was read. -/
def scalarOr (v : Option JValue) (d : NativeVal) (f : JValue → NativeVal) : NativeVal :=
  match v with
  | some x => f x
  | none => d

/-- Embeds `convertFromJavaArrayElement(env, arr, position, out)`, by the type of `out`;
the flag and the decoded element. -/
def convertFromJavaArrayElement (J : Jvm) : NativeType → Ref → Nat → M (Bool × NativeVal)
  | .jobject, arr, position => do
    let out ← GetObjectArrayElement J.indexError arr position
    pure (true, .jobject out)
  | .long, arr, position => do
    let v ← GetArrayRegion1 J.indexError .long arr position
    pure (true, scalarOr v (.long 0) (fun x => match x with | .j i => .long i | _ => .long 0))
  | .float, arr, position => do
    let v ← GetArrayRegion1 J.indexError .float arr position
    pure (true, scalarOr v (.float 0) (fun x => match x with | .f b => .float b | _ => .float 0))
  | .int, arr, position => do
    let v ← GetArrayRegion1 J.indexError .int arr position
    pure (true, scalarOr v (.int 0) (fun x => match x with | .i i => .int i | _ => .int 0))
  | .uint8, arr, position => do
    let v ← GetArrayRegion1 J.indexError .byte arr position
    pure (true, scalarOr v (.uint8 0)
      (fun x => match x with | .b n => .uint8 (n % 256) | _ => .uint8 0))
  | .string, arr, position => do
    let obj ← GetObjectArrayElement J.indexError arr position
    let (_, out) ← convertFromJavaObjectString J obj ""
    pure (true, .string out)
  | .wrapper, arr, position => do
    let elm ← JniObject.ofObject J Ref.null
    let obj ← GetObjectArrayElement J.indexError arr position
    let (_, out) ← convertFromJavaObjectWrapper J obj elm
    pure (true, .wrapper out)
  | .vector t, arr, position => do
    let elm ← GetObjectArrayElement J.indexError arr position
    let (ok, out) ← convertFromJavaArrayWith (convertFromJavaArrayElement J t) elm []
    pure (ok, .vector t out)
  | _, _, _ => fun _ => .outside "convertFromJavaArrayElement<Type> is not embedded for this type"

/-- Embeds `convertFromJavaArray(env, arr, container)` for a container of the given
element type. -/
def convertFromJavaArray (J : Jvm) (elem : NativeType) (arr : Ref)
    (container : List NativeVal) : M (Bool × List NativeVal) :=
  convertFromJavaArrayWith (convertFromJavaArrayElement J elem) arr container

/-- Encoding a sequence into a foreign array and decoding that array into an
empty sequence. -/
def roundTrip (J : Jvm) (elem : NativeType) (xs : List NativeVal) :
    M (Bool × List NativeVal) := do
  let arr ← createJavaArray J elem xs
  convertFromJavaArray J elem arr []

/-- The elements the decoder yields at the listed indices of the array, in the order
of the list (the flag of each decoding is dropped). -/
def decodedAt (decode : Ref → Nat → M (Bool × NativeVal)) (arr : Ref) :
    List Nat → M (List NativeVal)
  | [] => pure []
  | i :: is => do
    let (_, elm) ← decode arr i
    let rest ← decodedAt decode arr is
    pure (elm :: rest)

/-- The native value a raw array slot decodes to, for the numeric element types. -/
def NativeType.ofSlot : NativeType → JValue → NativeVal
  | .long, .j i => .long i
  | .long, _ => .long 0
  | .float, .f b => .float b
  | .float, _ => .float 0
  | .int, .i i => .int i
  | .int, _ => .int 0
  | .uint8, .b n => .uint8 (n % 256)
  | .uint8, _ => .uint8 0
  | t, _ => t.defaultValue

/-- The array kind the region getter of a numeric element type reads. -/
def NativeType.regionKind : NativeType → Option ArrayKind
  | .long => some .long
  | .float => some .float
  | .int => some .int
  | .uint8 => some .byte
  | _ => none

/-! ## Allocation of foreign arrays, `double` included -/

/-- Embeds `createJavaArray(env, const double& element, size)`. -/
def createJavaArrayOfDouble (size : Nat) : M Ref := NewArray .double size (.d 0)

/-- Embeds `setJavaArrayElements(env, arr, const std::vector<double>& obj)`; the
elements are given by their bits. -/
def setJavaArrayElementsDouble (arr : Ref) (xs : List Nat) : M Unit :=
  SetArrayRegion .double arr 0 (xs.map JValue.d)

/-- The element kind and the length of the array an allocation returned. -/
def allocated (r : Res Ref) : Option (ArrayKind × Nat) :=
  match r with
  | .ok arr s1 => (s1.arrays.lookup arr.obj).map (fun a => (a.kind, a.elems.length))
  | _ => none

/-! ## Foreign arrays and maps to native maps -/

/-- Embeds `out[k] = v` on a `std::map`, whose entries are kept in key order; `lt` is
the key comparison `std::less<Key>`.  An equivalent key keeps its entry and gets
the new value. -/
def mapAssign (lt : NativeVal → NativeVal → Bool) (k v : NativeVal) :
    List (NativeVal × NativeVal) → List (NativeVal × NativeVal)
  | [] => [(k, v)]
  | (k1, v1) :: rest =>
    if lt k k1 then (k, v) :: (k1, v1) :: rest
    else if lt k1 k then (k1, v1) :: mapAssign lt k v rest
    else (k1, v) :: rest

/-- The key comparison `operator<` for integer and string keys. -/
def NativeVal.keyLt : NativeVal → NativeVal → Bool
  | .uint8 a, .uint8 b => decide (a < b)
  | .char a, .char b => decide (a < b)
  | .short a, .short b => decide (a < b)
  | .int a, .int b => decide (a < b)
  | .uint a, .uint b => decide (a < b)
  | .long a, .long b => decide (a < b)
  | .string a, .string b => decide (a < b)
  | _, _ => false

/-- The loop of `convertToMapFromJavaArray` over the listed pair indices. -/
def mapPairsLoop (lt : NativeVal → NativeVal → Bool)
    (decodeK decodeV : Ref → Nat → M (Bool × NativeVal)) (arr : Ref) :
    List Nat → List (NativeVal × NativeVal) → M (List (NativeVal × NativeVal))
  | [], out => pure out
  | i :: is, out => do
    let (okK, k) ← decodeK arr (i * 2)
    if okK then
      let (okV, v) ← decodeV arr (i * 2 + 1)
      if okV then mapPairsLoop lt decodeK decodeV arr is (mapAssign lt k v out)
      else mapPairsLoop lt decodeK decodeV arr is out
    else mapPairsLoop lt decodeK decodeV arr is out

/-- Embeds `convertToMapFromJavaArray(env, arr, out)` over the decoders of the key and
value types. -/
def convertToMapFromJavaArrayWith (lt : NativeVal → NativeVal → Bool)
    (decodeK decodeV : Ref → Nat → M (Bool × NativeVal)) (arr : Ref)
    (out : List (NativeVal × NativeVal)) : M (Bool × List (NativeVal × NativeVal)) := do
  if !arr.isSet then pure (false, out)
  else
    let arraySize ← GetArrayLength arr
    let mapSize := arraySize / 2
    let out ← mapPairsLoop lt decodeK decodeV arr (List.range mapSize) out
    pure (true, out)

/-- Embeds `convertToMapFromJavaArray(env, arr, out)` for a `std::map<Key, Value>`. -/
def convertToMapFromJavaArray (J : Jvm) (lt : NativeVal → NativeVal → Bool)
    (kt vt : NativeType) (arr : Ref) (out : List (NativeVal × NativeVal)) :
    M (Bool × List (NativeVal × NativeVal)) :=
  convertToMapFromJavaArrayWith lt (convertFromJavaArrayElement J kt)
    (convertFromJavaArrayElement J vt) arr out

/-- The map `out` updated with the listed pairs, first to last. -/
def updatedWith (lt : NativeVal → NativeVal → Bool) (pairs : List (NativeVal × NativeVal))
    (out : List (NativeVal × NativeVal)) : List (NativeVal × NativeVal) :=
  pairs.foldl (fun m p => mapAssign lt p.1 p.2 m) out

/-- The pairs `(element 2i, element 2i+1)` of a list of slots, for `i` in the list. -/
def slotPairs (kt vt : NativeType) (elems : List JValue) (is : List Nat) :
    List (NativeVal × NativeVal) :=
  is.map (fun i => (kt.ofSlot (elems.getD (i * 2) (.l Ref.null)),
    vt.ofSlot (elems.getD (i * 2 + 1) (.l Ref.null))))

/-- The pairs the two decoders yield at the listed pair indices, in the order of the
list: key from slot `2i`, value from slot `2i + 1`; a pair one of whose halves does
not decode is left out. -/
def decodedPairsAt (decodeK decodeV : Ref → Nat → M (Bool × NativeVal)) (arr : Ref) :
    List Nat → M (List (NativeVal × NativeVal))
  | [] => pure []
  | i :: is => do
    let (okK, k) ← decodeK arr (i * 2)
    if okK then
      let (okV, v) ← decodeV arr (i * 2 + 1)
      let rest ← decodedPairsAt decodeK decodeV arr is
      pure (if okV then (k, v) :: rest else rest)
    else decodedPairsAt decodeK decodeV arr is

/-- The characters of a native string. -/
def NativeVal.textOf : NativeVal → Option String
  | .string str => some str
  | _ => none

/-- The number a native integer holds. -/
def NativeVal.numberOf : NativeVal → Option Int
  | .uint8 n => some n
  | .char n => some n
  | .short i => some i
  | .int i => some i
  | .uint n => some n
  | .long i => some i
  | _ => none

/-- Embeds `JniObject::call<JniObject>(name, defRet)` without arguments: the signature
is `createSignature(defRet)`. -/
def callWrapper (J : Jvm) (fuel : Nat) (w : JniObject) (name : String)
    (defRet : JniObject) : M JniObject := do
  let (part, _) ← getSignature J fuel defRet
  let signature := "(" ++ ")" ++ part
  let r ← callSigned J fuel .wrapper w name signature []
  pure r.toWrapper

mutual

/-- Embeds `convertFromJavaCollection(env, obj, std::vector<Type>& out)`.  The signature
of `call<Type>("toArray", out, out)` is derived with the class paths the runtime
reports in the entry state. -/
def convertFromJavaCollection (J : Jvm) :
    Nat → NativeType → Ref → List NativeVal → M (Bool × List NativeVal)
  | 0, _, _, _ => fun _ => .timeout
  | fuel + 1, elem, obj, out => fun s0 =>
    (if !obj.isSet then pure (false, out)
    else
      M.tryCatch (do
        let jcontainer ← JniObject.ofObject J obj
        M.andFinally (do
          if !(← JniObject.isInstanceOf J jcontainer "java.util.Collection") then
            pure (false, out)
          else
            let V : Descriptor.WrapperView :=
              ⟨fun r => match lazyClassName J fuel r s0 with
                        | .ok n _ => n
                        | _ => ""⟩
            let signature := Descriptor.createSignature V (.vector elem out) [.vector elem out]
            let r ← callSignedVector J fuel elem jcontainer "toArray" signature
              [.vector elem out]
            pure (true, r)) (JniObject.destroy J jcontainer))
        (pure (false, out))) s0

/-- Embeds `convertFromJavaObject(env, obj, std::vector<Type>& out)`: the collection
decoding first, the array decoding next. -/
def convertFromJavaObjectVector (J : Jvm) :
    Nat → NativeType → Ref → List NativeVal → M (Bool × List NativeVal)
  | 0, _, _, _ => fun _ => .timeout
  | fuel + 1, elem, obj, out => do
    let (ok, out) ← convertFromJavaCollection J fuel elem obj out
    if ok then pure (true, out)
    else
      let (ok, out) ← convertFromJavaArray J elem obj out
      if ok then pure (true, out)
      else pure (false, out)

/-- Embeds `JniObject::callSigned<std::vector<Type>>(name, signature, defRet, args...)`:
`callJavaMethod` for a vector is `callJavaObjectMethod`, which checks for an
exception and decodes with `convertFromJavaObject<Return>(jout)`. -/
def callSignedVector (J : Jvm) :
    Nat → NativeType → JniObject → String → String → List NativeVal → M (List NativeVal)
  | 0, _, _, _, _, _ => fun _ => .timeout
  | fuel + 1, elem, w, name, signature, args => do
    let env ← getEnvironment J
    if env = 0 then throwJni "no environment found"
    else
      let classId := w._class
      if !classId.isSet then throwJni "no class found"
      else
        let objId := w._instance
        if !objId.isSet then throwJni "no object found"
        else
          let methodId ← GetMethodID J classId name signature
          checkJniException J fuel
          let jargs ← createArguments J fuel args
          let jout ← asLocal (← CallMethodA J objId methodId jargs)
          checkJniException J fuel
          let env ← getEnvironment J
          cassert (env != 0) "assert(env)"
          let (result, out) ← convertFromJavaObjectVector J fuel elem jout []
          cassert result "assert(result)"
          cleanupArguments J jargs args
          checkJniException J fuel
          pure out

end

/-- The native value of type `t` a decoded result stands for. -/
def RetVal.toNativeOf : NativeType → RetVal → NativeVal
  | .bool, .bool b => .bool b
  | .uint8, .uint8 n => .uint8 n
  | .jobject, .jobject r => .jobject r
  | .long, .long i => .long i
  | .float, .float b => .float b
  | .int, .int i => .int i
  | .string, .string str => .string str
  | t, _ => t.defaultValue

/-- Embeds `JniObject::callSigned<Value>(name, signature, Value(), args...)` by the
value type, for the value types whose result owns no reference: the scalar
types, strings, raw references and sequences. -/
def callSignedValue (J : Jvm) (fuel : Nat) (vt : NativeType) (w : JniObject)
    (name signature : String) (args : List NativeVal) : M NativeVal :=
  match vt with
  | .vector t => do
    let xs ← callSignedVector J fuel t w name signature args
    pure (.vector t xs)
  | .wrapper => fun _ => .outside "callSigned<JniObject> into a map entry is not embedded"
  | t =>
    match t.retKind with
    | some kind => do
      let r ← callSigned J fuel kind w name signature args
      pure (r.toNativeOf t)
    | none => fun _ => .outside "callSigned<Value> is not embedded for this value type"

/-- The loop of `convertFromJavaMap`: fetches the value of each key with `get` and
assigns the entry. -/
def getEach (J : Jvm) (lt : NativeVal → NativeVal → Bool) (fuel : Nat) (vt : NativeType)
    (jmap : JniObject) :
    List NativeVal → List (NativeVal × NativeVal) → M (List (NativeVal × NativeVal))
  | [], out => pure out
  | key :: keys, out => do
    let v ← callSignedValue J fuel vt jmap "get" "(Ljava/lang/Object;)Ljava/lang/Object;"
      [key]
    getEach J lt fuel vt jmap keys (mapAssign lt key v out)

/-- Embeds `convertFromJavaMap(env, obj, std::map<Key, Value>& out)`. -/
def convertFromJavaMap (J : Jvm) (lt : NativeVal → NativeVal → Bool) (fuel : Nat)
    (kt vt : NativeType) (obj : Ref) (out : List (NativeVal × NativeVal)) :
    M (Bool × List (NativeVal × NativeVal)) := do
  if !obj.isSet then pure (false, out)
  else
    let jmap ← JniObject.ofObject J obj
    M.andFinally (do
      if !(← JniObject.isInstanceOf J jmap "java.util.Map") then pure (false, out)
      else
        let defRet ← JniObject.ofClassPath J "java.util.Set" Ref.null Ref.null
        let jkeys ← M.andFinally (callWrapper J fuel jmap "keySet" defRet)
          (JniObject.destroy J defRet)
        M.andFinally (do
          let keys ← callSignedVector J fuel kt jkeys "toArray" "()[Ljava/lang/Object;" []
          let out ← getEach J lt fuel vt jmap keys out
          pure (true, out)) (JniObject.destroy J jkeys)) (JniObject.destroy J jmap)

/-- Embeds `convertFromJavaObject(env, obj, std::map<Key, Type>& out)`. -/
def convertFromJavaObjectMap (J : Jvm) (lt : NativeVal → NativeVal → Bool) (fuel : Nat)
    (kt vt : NativeType) (obj : Ref) (out : List (NativeVal × NativeVal)) :
    M (Bool × List (NativeVal × NativeVal)) := do
  let (ok, out) ← convertFromJavaMap J lt fuel kt vt obj out
  if ok then pure (true, out)
  else
    let (ok, out) ← convertToMapFromJavaArray J lt kt vt obj out
    if ok then pure (true, out)
    else pure (false, out)

/-! ## Wrapper states reachable through the public operations -/

/-- The wrapper states the constructors, copy construction, assignment from
another wrapper and `clear()` produce. -/
inductive Reachable (J : Jvm) : JniObject → Prop where
  | ofClassPath (classPath : String) (objId classId : Ref) (s s1 : State) (w : JniObject) :
      JniObject.ofClassPath J classPath objId classId s = .ok w s1 → Reachable J w
  | ofClass (classId objId : Ref) (s s1 : State) (w : JniObject) :
      JniObject.ofClass J classId objId s = .ok w s1 → Reachable J w
  | ofObject (objId : Ref) (s s1 : State) (w : JniObject) :
      JniObject.ofObject J objId s = .ok w s1 → Reachable J w
  | copy (other : JniObject) (s s1 : State) (w : JniObject) :
      Reachable J other → JniObject.copy J other s = .ok w s1 → Reachable J w
  | assign (w0 other : JniObject) (s s1 : State) (w : JniObject) :
      Reachable J w0 → Reachable J other → JniObject.assign J w0 other s = .ok w s1 →
      Reachable J w
  | clear (w0 : JniObject) (s s1 : State) (w : JniObject) :
      Reachable J w0 → JniObject.clear J w0 s = .ok w s1 → Reachable J w

/-- Every live pinned reference was handed out before: its id is below the
next id. -/
def FreshIds (s : State) : Prop := ∀ r ∈ s.globals, r.id < s.nextId

/-- The wrapper invariant: an object handle comes with a class handle. -/
def HasClassIfObject (w : JniObject) : Prop :=
  w._instance.isSet = true → w._class.isSet = true

/-- The computation never changes the installed runtime pointer `_java`, whether
it returns or throws. -/
structure KeepsJava {α : Type} (m : M α) : Prop where
  java_eq : ∀ s, ((m s).stateD s).java = s.java

/-! ## Naming the states the claims speak about -/

/-- The environment pointer `getEnvironment` hands out in state `s`. -/
def envOf (J : Jvm) (s : State) : Nat :=
  if s.threadEnv = 0 then J.attachEnv else s.threadEnv

/-- The state `getEnvironment` leaves behind. -/
def afterEnv (J : Jvm) (s : State) : State :=
  match getEnvironment J s with
  | .ok _ s1 => s1
  | .raise _ s1 => s1
  | _ => s

/-- The runtime is loaded and the current thread is attached. -/
def Attached (s : State) : Prop := s.java = true ∧ s.threadEnv ≠ 0

/-- A run of `getClass` calls, one per request, handles dropped. -/
def getClassEach (J : Jvm) : List (String × Bool) → M Unit
  | [] => pure ()
  | (path, cache) :: rest => do
    let _ ← Jni.getClass J path cache
    getClassEach J rest

/-- The class a path resolves to in state `s`: the cached handle's class if
there is one, the runtime's `FindClass` answer otherwise (`0` for none). -/
def resolveClass (J : Jvm) (s : State) (path : String) : Nat :=
  match s.classes.lookup path with
  | some cls => cls.obj
  | none => (J.findClass path).id

/-- The statements of `checkJniException` from `getEnvironment` to
`ExceptionClear`: the wrapper built around the pending exception, in the
state in which its accessors are then called. -/
def wrapPending (J : Jvm) : M JniObject := do
  let _ ← getEnvironment J
  let exc ← JniObject.ofObject J (← ExceptionOccurred)
  ExceptionClear
  pure exc

namespace Sample

/-- The sample runtime's `FindClass`. -/
def findClass (path : String) : Lookup :=
  if path = "java/lang/String" then ⟨10, 0⟩
  else if path = "com/example/Counter" then ⟨20, 0⟩
  else if path = "java/lang/Class" then ⟨30, 0⟩
  else if path = "com/example/Registry" then ⟨60, 0⟩
  else if path = "com/example/Config" then ⟨70, 0⟩
  else if path = "java/util/Map" then ⟨80, 0⟩
  else if path = "java/util/Set" then ⟨82, 0⟩
  else if path = "java/util/Collection" then ⟨84, 0⟩
  else ⟨0, 96⟩

/-- The sample runtime's `GetObjectClass`. -/
def objectClass (obj : Nat) : Nat :=
  if obj = 0 then 0
  else if obj = 100 ∨ obj = 101 then 20
  else if obj = 10 ∨ obj = 20 ∨ obj = 30 ∨ obj = 41 ∨ obj = 42 ∨ obj = 50 then 30
  else if obj = 43 ∨ obj = 60 ∨ obj = 70 then 30
  else if obj = 98 then 41
  else if obj = 97 then 42
  else if obj = 95 then 43
  else if obj = 600 then 60
  else if obj = 700 then 70
  else if obj = 800 ∨ obj = 810 then 81
  else if obj = 820 then 83
  else 50

/-- The sample runtime's methods: 1 `Class.getName`, 2
`Throwable.getLocalizedMessage`, 3 `Counter.increment`, 4 `Counter.fail`
(always throws), 5 `Counter.describe`, 6 the constructor `Counter()`, 11
`HashMap.keySet`, 12 `HashSet.toArray`, 13 `HashMap.get`. -/
def methodID (cls : Nat) (name sig : String) : Lookup :=
  if cls = 30 ∧ name = "getName" ∧ sig = "()Ljava/lang/String;" then ⟨1, 0⟩
  else if (cls = 41 ∨ cls = 42 ∨ cls = 43) ∧ name = "getLocalizedMessage"
      ∧ sig = "()Ljava/lang/String;"
    then ⟨2, 0⟩
  else if cls = 20 ∧ name = "increment" ∧ sig = "()I" then ⟨3, 0⟩
  else if cls = 20 ∧ name = "fail" then ⟨4, 0⟩
  else if cls = 20 ∧ name = "describe" then ⟨5, 0⟩
  else if cls = 20 ∧ name = "<init>" ∧ sig = "()V" then ⟨6, 0⟩
  else if cls = 81 ∧ name = "keySet" ∧ sig = "()Ljava/util/Set;" then ⟨11, 0⟩
  else if cls = 83 ∧ name = "toArray" ∧ sig = "()[Ljava/lang/Object;" then ⟨12, 0⟩
  else if cls = 81 ∧ name = "get" ∧ sig = "(Ljava/lang/Object;)Ljava/lang/Object;"
    then ⟨13, 0⟩
  else ⟨0, 97⟩

/-- The sample runtime's instance invocation.  `keySet()` throws on the map 800 and
returns the set 820 on the map 810, whose `toArray()` returns the array 900;
`get` returns the number of calls made so far. -/
def invoke (world obj method : Nat) (_args : List JValue) : Outcome :=
  if method = 1 then ⟨.l ⟨300 + obj, 0⟩, 0, world⟩
  else if method = 2 then ⟨.l ⟨400, 0⟩, 0, world⟩
  else if method = 3 then ⟨.i world, 0, world + 1⟩
  else if method = 4 then ⟨.l Ref.null, 98, world⟩
  else if method = 5 then ⟨.l ⟨401, 0⟩, 0, world⟩
  else if method = 11 then (if obj = 800 then ⟨.l Ref.null, 98, world⟩ else ⟨.l ⟨820, 0⟩, 0, world⟩)
  else if method = 12 then ⟨.l ⟨900, 0⟩, 0, world⟩
  else if method = 13 then ⟨.j world, 0, world + 1⟩
  else ⟨.l Ref.null, 0, world⟩

/-- The sample runtime's fields: 7 is `Counter.count`. -/
def fieldID (cls : Nat) (name sig : String) : Lookup :=
  if cls = 20 ∧ name = "count" ∧ sig = "I" then ⟨7, 0⟩ else ⟨0, 95⟩

/-- The sample runtime's instance field read: object 100 has `count = 5`. -/
def readField (world target field : Nat) : Outcome :=
  if target = 100 ∧ field = 7 then ⟨.i 5, 0, world⟩ else ⟨.i 0, 0, world⟩

/-- The characters of the sample runtime's string objects. -/
def stringChars (obj : Nat) : Option String :=
  if obj = 310 then some "java.lang.String"
  else if obj = 320 then some "com.example.Counter"
  else if obj = 341 then some "java.lang.RuntimeException"
  else if obj = 342 then some "java.lang.NoSuchMethodError"
  else if obj = 343 then some "java.lang.NoSuchFieldError"
  else if obj = 400 then some "boom"
  else if obj = 401 then some "a counter"
  else none

/-- The sample runtime's static methods: 8 is `Registry.getInstance`. -/
def staticMethodID (cls : Nat) (name sig : String) : Lookup :=
  if cls = 60 ∧ name = "getInstance" ∧ sig = "()Lcom/example/Registry;" then ⟨8, 0⟩
  else ⟨0, 97⟩

/-- The sample runtime's static invocation: `Registry.getInstance()` returns
object 600. -/
def invokeStatic (world _cls method : Nat) (_args : List JValue) : Outcome :=
  if method = 8 then ⟨.l ⟨600, 0⟩, 0, world⟩ else ⟨.l Ref.null, 0, world⟩

/-- The sample runtime's static fields: 9 is `Config.instance`; `Registry` has
no `instance` field. -/
def staticFieldID (cls : Nat) (name sig : String) : Lookup :=
  if cls = 70 ∧ name = "instance" ∧ sig = "Lcom/example/Config;" then ⟨9, 0⟩ else ⟨0, 95⟩

/-- The sample runtime's static field read: `Config.instance` is object 700. -/
def readStaticField (world _cls field : Nat) : Outcome :=
  if field = 9 then ⟨.l ⟨700, 0⟩, 0, world⟩ else ⟨.l Ref.null, 0, world⟩

/-- The sample runtime's `IsInstanceOf`: a null object can be cast to any
class; otherwise the object's class must be the class asked for, or implement
it (`HashMap` is a `Map`, `HashSet` a `Set` and a `Collection`). -/
def isInstance (obj cls : Nat) : Bool :=
  obj = 0 || objectClass obj = cls || (objectClass obj = 81 && cls = 80)
    || (objectClass obj = 83 && (cls = 82 || cls = 84))

/-- The sample runtime's constructors: `Counter()` makes object 101. -/
def newObject (world cls method : Nat) (_args : List JValue) : Outcome :=
  if cls = 20 ∧ method = 6 then ⟨.l ⟨101, 0⟩, 0, world⟩ else ⟨.l Ref.null, 0, world⟩

/-- The sample runtime. -/
def jvm : Jvm where
  attachEnv := 1
  findClass := findClass
  objectClass := objectClass
  methodID := methodID
  staticMethodID := staticMethodID
  fieldID := fieldID
  staticFieldID := staticFieldID
  invoke := invoke
  invokeStatic := invokeStatic
  newObject := newObject
  readField := readField
  readStaticField := readStaticField
  stringChars := stringChars
  isInstance := isInstance
  indexError := 94
  isObjectArgumentOther := fun _ => false

/-- A loaded runtime with the current thread attached and nothing else. -/
def state : State where
  java := true
  threadEnv := 1
  classes := []
  pending := 0
  globals := []
  locals := []
  nextId := 1
  nextObj := 1000
  world := 0
  strings := []
  arrays := []
  log := []

/-- The sample state with the array 900 of the keys of the map 810 on the heap: the
strings 400 ("boom") and 401 ("a counter"). -/
def mapState : State :=
  { state with arrays := [(900, ⟨.object 10, [.l ⟨400, 0⟩, .l ⟨401, 0⟩]⟩)] }

/-- The sample state with a `long[]` array 900 holding `1, 2, 1, 5, 9`. -/
def longArrayState : State :=
  { state with arrays := [(900, ⟨.long, [.j 1, .j 2, .j 1, .j 5, .j 9]⟩)] }

/-- The sample state with the exception object 98 pending. -/
def faulted : State := { state with pending := 98 }

/-- The construction `JniObject("com.example.Counter", obj)` around the
`Counter` object 100, run in the sample state. -/
def built : Res JniObject :=
  JniObject.ofClassPath jvm "com.example.Counter" ⟨100, 0⟩ Ref.null state

/-- The wrapper that construction yields: class handle and object handle. -/
def counter : JniObject := built.valueD JniObject.fresh

/-- The state that construction leaves. -/
def counterState : State := built.stateD state

/-- The construction `JniObject("com.example.Counter")`, run in the sample state. -/
def builtClass : Res JniObject :=
  JniObject.ofClassPath jvm "com.example.Counter" Ref.null Ref.null state

/-- The wrapper that construction yields: class handle, no object. -/
def counterClass : JniObject := builtClass.valueD JniObject.fresh

/-- The state that construction leaves. -/
def counterClassState : State := builtClass.stateD state

end Sample

/-! # Theorems -/

namespace Descriptor

/-- Appending the descriptors one by one is appending their concatenation. -/
theorem buildSignature_eq (V : WrapperView) (args : List NativeVal) (os : String) :
    buildSignature V os args = os ++ String.join (args.map (getSignaturePart V)) := by
  induction args generalizing os with
  | nil => simp [buildSignature, String.join]
  | cons a as ih =>
    have hj : ∀ (l : List String) (x : String),
        List.foldl (fun r s => r ++ s) x l = x ++ List.foldl (fun r s => r ++ s) "" l := by
      intro l
      induction l with
      | nil => intro x; simp
      | cons y ys ihy =>
        intro x
        simp only [List.foldl_cons]
        rw [ihy (x ++ y), ihy ("" ++ y)]
        simp [String.append_assoc]
    simp only [buildSignature, ih, List.map_cons, String.join, List.foldl_cons]
    rw [hj _ ("" ++ getSignaturePart V a)]
    simp [String.append_assoc]

/-- The descriptor of the value-initialised object of a type is the
instantiation `getSignaturePartDefault`. -/
theorem getSignaturePart_defaultValue (V : WrapperView) (t : NativeType) :
    getSignaturePart V t.defaultValue = getSignaturePartDefault V t := by
  induction t with
  | array t n ih =>
    cases n with
    | zero => simp [NativeType.defaultValue, getSignaturePart, getContainerElementSignaturePart,
        getSignaturePartDefault]
    | succ m => simp [NativeType.defaultValue, getSignaturePart, getContainerElementSignaturePart,
        getSignaturePartDefault, List.replicate_succ, ih]
  | _ => simp [NativeType.defaultValue, getSignaturePart, getContainerElementSignaturePart,
        getSignaturePartDefault]

/-- C1: `getSignaturePart` returns "Z", "B", "C", "S", "I", "I", "J", "F" for
every value of bool, uint8_t, char, short, int, unsigned int, long and float,
"Ljava/lang/String;" for every string, "Ljava/util/Map;" for every map
whatever its key type, value type and contents, and the no-argument form
returns "V"; the runtime view `V` and the value do not enter the result. -/
theorem getSignaturePart_table (V : WrapperView) :
    (∀ b, getSignaturePart V (.bool b) = "Z") ∧
    (∀ n, getSignaturePart V (.uint8 n) = "B") ∧
    (∀ c, getSignaturePart V (.char c) = "C") ∧
    (∀ i, getSignaturePart V (.short i) = "S") ∧
    (∀ i, getSignaturePart V (.int i) = "I") ∧
    (∀ n, getSignaturePart V (.uint n) = "I") ∧
    (∀ i, getSignaturePart V (.long i) = "J") ∧
    (∀ f, getSignaturePart V (.float f) = "F") ∧
    (∀ str, getSignaturePart V (.string str) = "Ljava/lang/String;") ∧
    (∀ k v es, getSignaturePart V (.map k v es) = "Ljava/util/Map;") ∧
    getSignaturePartVoid = "V" := by
  simp [getSignaturePart, getSignaturePartVoid]

/-- C2: `createSignature(r, a1..an)` is "(" followed by the descriptors of
a1..an in argument order with nothing between them, then ")" and the
descriptor of `r`; `createVoidSignature(a1..an)` is the same string with
"V" as the return descriptor.  The empty argument list is included. -/
theorem createSignature_eq (V : WrapperView) (r : NativeVal) (args : List NativeVal) :
    createSignature V r args
        = "(" ++ String.join (args.map (getSignaturePart V)) ++ ")" ++ getSignaturePart V r ∧
    createVoidSignature V args
        = "(" ++ String.join (args.map (getSignaturePart V)) ++ ")" ++ "V" := by
  simp [createSignature, createVoidSignature, buildSignature_eq, getSignaturePartVoid]

mutual
/-- A well-typed value of a type without wrapper components has the
descriptor of its type's value-initialised object. -/
theorem getSignaturePart_valueFree (V : WrapperView) :
    ∀ (v : NativeVal), v.wellTyped = true → v.typeOf.valueFree = true →
      getSignaturePart V v = getSignaturePartDefault V v.typeOf
  | .bool _, _, _ => rfl
  | .uint8 _, _, _ => rfl
  | .char _, _, _ => rfl
  | .short _, _, _ => rfl
  | .int _, _, _ => rfl
  | .uint _, _, _ => rfl
  | .long _, _, _ => rfl
  | .float _, _, _ => rfl
  | .string _, _, _ => rfl
  | .wrapper _, _, hf => by simp [NativeVal.typeOf, NativeType.valueFree] at hf
  | .jobject _, _, _ => rfl
  | .map _ _ _, _, _ => rfl
  | .vector t xs, hw, hf => by
    simp only [NativeVal.wellTyped] at hw
    simp only [NativeVal.typeOf, NativeType.valueFree] at hf
    simp only [getSignaturePart, NativeVal.typeOf, getSignaturePartDefault,
      getContainerElementSignaturePart_valueFree V t xs hw hf]
  | .set t xs, hw, hf => by
    simp only [NativeVal.wellTyped] at hw
    simp only [NativeVal.typeOf, NativeType.valueFree] at hf
    simp only [getSignaturePart, NativeVal.typeOf, getSignaturePartDefault,
      getContainerElementSignaturePart_valueFree V t xs hw hf]
  | .list t xs, hw, hf => by
    simp only [NativeVal.wellTyped] at hw
    simp only [NativeVal.typeOf, NativeType.valueFree] at hf
    simp only [getSignaturePart, NativeVal.typeOf, getSignaturePartDefault,
      getContainerElementSignaturePart_valueFree V t xs hw hf]
  | .array t n xs, hw, hf => by
    simp only [NativeVal.wellTyped, Bool.and_eq_true] at hw
    simp only [NativeVal.typeOf, NativeType.valueFree] at hf
    simp only [getSignaturePart, NativeVal.typeOf, getSignaturePartDefault,
      getContainerElementSignaturePart_valueFree V t xs hw.1 hf]
/-- The element descriptor of a well-typed container of a type without
wrapper components does not depend on the elements. -/
theorem getContainerElementSignaturePart_valueFree (V : WrapperView) :
    ∀ (t : NativeType) (xs : List NativeVal), wellTypedList t xs = true → t.valueFree = true →
      getContainerElementSignaturePart V t xs = getSignaturePartDefault V t
  | _, [], _, _ => rfl
  | t, x :: xs, hw, hf => by
    simp only [wellTypedList, Bool.and_eq_true, beq_iff_eq] at hw
    have hx := getSignaturePart_valueFree V x hw.1.2 (by rw [hw.1.1]; exact hf)
    simp only [getContainerElementSignaturePart, hx, hw.1.1]
end

/-- C3 (as the code has it): the descriptor of a sequence, set, list or
fixed array is "[" followed by the descriptor of its first element, or of the
value-initialised element when it is empty.  When no wrapper occurs in the
element type and the elements are of that type, the descriptor is the same
whether or not the container is empty, and a sequence of sequences of int
gives "[[I". -/
theorem getSignaturePart_container (V : WrapperView) (t : NativeType) (xs : List NativeVal) :
    getSignaturePart V (.vector t xs) = "[" ++ getSignaturePart V (xs.headD t.defaultValue) ∧
    getSignaturePart V (.set t xs) = "[" ++ getSignaturePart V (xs.headD t.defaultValue) ∧
    getSignaturePart V (.list t xs) = "[" ++ getSignaturePart V (xs.headD t.defaultValue) ∧
    (∀ n, getSignaturePart V (.array t n xs)
        = "[" ++ getSignaturePart V (xs.headD t.defaultValue)) ∧
    (t.valueFree = true → wellTypedList t xs = true →
      getSignaturePart V (.vector t xs) = getSignaturePart V (.vector t []) ∧
      getSignaturePart V (.set t xs) = getSignaturePart V (.set t []) ∧
      getSignaturePart V (.list t xs) = getSignaturePart V (.list t []) ∧
      (∀ n, getSignaturePart V (.array t n xs) = getSignaturePart V (.array t 0 []))) ∧
    (wellTypedList (.vector .int) xs = true →
      getSignaturePart V (.vector (.vector .int) xs) = "[[I") := by
  have hhead : getContainerElementSignaturePart V t xs
      = getSignaturePart V (xs.headD t.defaultValue) := by
    cases xs with
    | nil => simp [getContainerElementSignaturePart, getSignaturePart_defaultValue]
    | cons x rest => simp [getContainerElementSignaturePart]
  refine ⟨?_, ?_, ?_, ?_, ?_, ?_⟩
  · simp only [getSignaturePart, hhead]
  · simp only [getSignaturePart, hhead]
  · simp only [getSignaturePart, hhead]
  · intro n; simp only [getSignaturePart, hhead]
  · intro hf hw
    have h := getContainerElementSignaturePart_valueFree V t xs hw hf
    simp only [getSignaturePart, h, getContainerElementSignaturePart, implies_true, and_self]
  · intro hw
    have h := getContainerElementSignaturePart_valueFree V (.vector .int) xs hw rfl
    simp only [getSignaturePart, h, getSignaturePartDefault]
    decide

/-- Witness for `getSignaturePart_container`: a sequence of two ints, and a
sequence holding one sequence of int. -/
theorem getSignaturePart_container_witness :
    getSignaturePart ⟨fun _ => ""⟩ (.vector .int [.int 1, .int 2])
      = getSignaturePart ⟨fun _ => ""⟩ (.vector .int []) ∧
    getSignaturePart ⟨fun _ => ""⟩
      (.vector (.vector .int) [.vector .int [.int 5]]) = "[[I" :=
  ⟨((getSignaturePart_container ⟨fun _ => ""⟩ .int
      [.int 1, .int 2]).2.2.2.2.1 (by decide) (by decide)).1,
   (getSignaturePart_container ⟨fun _ => ""⟩ (.vector .int)
      [.vector .int [.int 5]]).2.2.2.2.2 (by decide)⟩

/-- C3 as stated fails for wrapper elements: an empty sequence of wrappers
has descriptor "[L;" while a sequence whose first wrapper has class path
"java/lang/Foo" has descriptor "[Ljava/lang/Foo;". -/
theorem getSignaturePart_container_emptiness_counterexample :
    getSignaturePart ⟨fun _ => ""⟩ (.vector .wrapper []) = "[L;" ∧
    getSignaturePart ⟨fun _ => ""⟩
      (.vector .wrapper [.wrapper ⟨⟨7, 1⟩, Ref.null, "java/lang/Foo"⟩]) = "[Ljava/lang/Foo;" ∧
    wellTypedList .wrapper [.wrapper ⟨⟨7, 1⟩, Ref.null, "java/lang/Foo"⟩] = true ∧
    getSignaturePart ⟨fun _ => ""⟩
      (.vector .wrapper [.wrapper ⟨⟨7, 1⟩, Ref.null, "java/lang/Foo"⟩])
      ≠ getSignaturePart ⟨fun _ => ""⟩ (.vector .wrapper []) := by
  decide

end Descriptor

/-! ## The stateful layer -/

/-- Sequencing, applied to a state. -/
theorem M.bind_apply {α β : Type} (m : M α) (f : α → M β) (s : State) :
    (m >>= f) s = M.bind m f s := rfl

/-- Returning, applied to a state. -/
theorem M.pure_apply {α : Type} (a : α) (s : State) : (pure a : M α) s = .ok a s := rfl

/-- A conditional computation, applied to a state. -/
theorem M.ite_apply {α : Type} (c : Prop) [Decidable c] (m1 m2 : M α) (s : State) :
    (if c then m1 else m2) s = if c then m1 s else m2 s := by
  split <;> rfl

/-- The state after `getEnvironment` is the entry state, up to the lazy
attachment of the thread. -/
theorem afterEnv_eq (J : Jvm) (s : State) :
    afterEnv J s = if s.java = true ∧ s.threadEnv = 0
      then { s with threadEnv := J.attachEnv, log := s.log ++ [.attachCurrentThread] } else s := by
  unfold afterEnv getEnvironment
  by_cases hj : s.java = false <;> by_cases ht : s.threadEnv = 0 <;> simp [hj, ht]

/-- Inversion of a normally returning sequence. -/
theorem M.bind_eq_ok {α β : Type} (m : M α) (f : α → M β) (s s' : State) (b : β) :
    (m >>= f) s = .ok b s' ↔ ∃ a s1, m s = .ok a s1 ∧ f a s1 = .ok b s' := by
  simp only [M.bind_apply, M.bind]
  cases h : m s with
  | ok a0 s0 =>
    constructor
    · intro h2; exact ⟨a0, s0, rfl, h2⟩
    · rintro ⟨a, s1, h3, h2⟩
      injection h3 with ha hs
      subst ha; subst hs; exact h2
  | raise e s0 => simp
  | outside w => simp
  | timeout => simp

/-- Inversion of a normally returning scope with a destructor. -/
theorem M.andFinally_eq_ok {α : Type} (m : M α) (fin : M Unit) (s s' : State) (a : α) :
    M.andFinally m fin s = .ok a s' ↔ ∃ s1, m s = .ok a s1 ∧ fin s1 = .ok () s' := by
  unfold M.andFinally
  cases h : m s with
  | ok a1 s1 =>
    dsimp only
    cases h2 : fin s1 with
    | ok u s2 =>
      simp only [Res.ok.injEq]
      constructor
      · rintro ⟨rfl, rfl⟩; exact ⟨s1, ⟨rfl, rfl⟩, h2⟩
      · rintro ⟨s3, ⟨rfl, rfl⟩, h4⟩
        rw [h2] at h4
        injection h4 with _ hs
        exact ⟨rfl, hs⟩
    | raise e s2 => simp [h2]
    | outside w => simp [h2]
    | timeout => simp [h2]
  | raise e s1 =>
    dsimp only
    cases h2 : fin s1 <;> simp
  | outside w => simp
  | timeout => simp

/-- An unwinding handler does not run on normal return. -/
theorem M.onRaise_eq_ok {α : Type} (m : M α) (fin : M Unit) (s s' : State) (a : α) :
    M.onRaise m fin s = .ok a s' ↔ m s = .ok a s' := by
  unfold M.onRaise
  cases h : m s with
  | raise e s1 =>
    dsimp only
    cases h2 : fin s1 <;> simp
  | ok a1 s1 => simp
  | outside w => simp
  | timeout => simp

/-- The result of `getEnvironment`. -/
theorem getEnvironment_eq (J : Jvm) (s : State) :
    getEnvironment J s = if s.java = false then .raise "Jni::onLoad not called." s
      else .ok (envOf J s) (afterEnv J s) := by
  unfold afterEnv getEnvironment envOf
  by_cases hj : s.java = false <;> by_cases ht : s.threadEnv = 0 <;> simp [hj, ht]

/-- Fetching the environment twice hands out the same pointer. -/
theorem envOf_afterEnv (J : Jvm) (s : State) : envOf J (afterEnv J s) = envOf J s := by
  rw [afterEnv_eq]
  unfold envOf
  by_cases hj : s.java = true <;> by_cases ht : s.threadEnv = 0 <;> simp [hj, ht]

/-- Calling `ExceptionOccurred` with an exception pending. -/
theorem ExceptionOccurred_pending (s : State) (hp : s.pending ≠ 0) :
    ExceptionOccurred s = .ok ⟨s.pending, s.nextId⟩
      { s with nextId := s.nextId + 1, locals := ⟨s.pending, s.nextId⟩ :: s.locals,
               log := s.log ++ [.exceptionOccurred] } := by
  simp [ExceptionOccurred, M.bind_apply, M.bind, logEvent, newLocal, hp]

/-- A wrapper built from a non-null raw reference holds an object when an
environment exists. -/
theorem ofObject_toBool (J : Jvm) (r : Ref) (s s' : State) (w : JniObject)
    (hr : r.obj ≠ 0) (he : envOf J s ≠ 0) (h : JniObject.ofObject J r s = .ok w s') :
    w.toBool = true := by
  unfold envOf at he
  simp only [JniObject.ofObject, JniObject.init, JniObject.fresh, M.bind_apply, M.bind,
    getEnvironment, M.ite_apply, M.pure_apply, GetObjectClass, logEvent, newLocal,
    NewGlobalRef] at h
  by_cases hj : s.java = false
  · simp [hj] at h
  · by_cases ht : s.threadEnv = 0 <;> by_cases hc : J.objectClass r.obj = 0
    all_goals simp [ht] at he
    all_goals simp [hj, ht, he, hc, hr, Ref.isSet, Ref.null] at h
    all_goals obtain ⟨hw, _⟩ := h
    all_goals subst hw
    all_goals simp [JniObject.toBool, Ref.isSet, hr]

/-- When `checkJniException` returns, it has done no more than fetch the
environment, and no exception was pending if an environment exists. -/
theorem checkJniException_ok (J : Jvm) (fuel : Nat) (s s' : State) (u : Unit)
    (h : checkJniException J fuel s = .ok u s') :
    s' = afterEnv J s ∧ (envOf J s ≠ 0 → s.pending = 0) := by
  cases fuel with
  | zero => simp [checkJniException] at h
  | succ f =>
    simp only [checkJniException, M.bind_eq_ok, getEnvironment_eq] at h
    obtain ⟨env, s1, h1, h2⟩ := h
    by_cases hj : s.java = false
    · simp [hj] at h1
    · simp only [hj, if_false] at h1
      injection h1 with he hs
      subst he; subst hs
      by_cases he : envOf J s = 0
      · simp [he, M.pure_apply] at h2
        exact ⟨h2.symm, fun h => absurd he h⟩
      · simp only [he, if_false] at h2
        have hpend : (afterEnv J s).pending = s.pending := by
          rw [afterEnv_eq]; split <;> rfl
        by_cases hp : s.pending = 0
        · simp [M.bind_apply, M.bind, ExceptionCheck, hpend, hp, M.pure_apply] at h2
          exact ⟨h2.symm, fun _ => hp⟩
        · exfalso
          simp only [M.bind_eq_ok, ExceptionCheck, Res.ok.injEq] at h2
          obtain ⟨b, s2, ⟨hb, hs2⟩, h3⟩ := h2
          subst hb; subst hs2
          simp only [hpend] at h3
          have hb : (!(s.pending != 0)) = false := by simp [hp]
          rw [hb] at h3
          simp only [Bool.false_eq_true, if_false, M.bind_eq_ok, M.andFinally_eq_ok] at h3
          obtain ⟨r, s3, hr, exc, s4, hexc, s5, hbody, _⟩ := h3
          rw [ExceptionOccurred_pending _ (by rw [hpend]; exact hp)] at hr
          injection hr with hr hs3
          have hro : r.obj ≠ 0 := by rw [← hr]; simpa [hpend] using hp
          have he3 : envOf J s3 ≠ 0 := by
            have := envOf_afterEnv J s
            rw [← hs3]
            unfold envOf at this ⊢
            simpa [this] using he
          have htb := ofObject_toBool J r s3 s4 exc hro he3 hexc
          simp only [htb, if_true, M.bind_eq_ok] at hbody
          obtain ⟨_, _, _, cpw, _, _, rv, s8, _, hthrow⟩ := hbody
          cases rv <;> simp [throwJni] at hthrow

/-- Fetching the environment on an attached thread changes nothing. -/
theorem Attached.afterEnv {J : Jvm} {s : State} (h : Attached s) : afterEnv J s = s := by
  rw [afterEnv_eq]; simp [h.2]

/-- An attached thread has an environment. -/
theorem Attached.envOf {J : Jvm} {s : State} (h : Attached s) : envOf J s ≠ 0 := by
  unfold JniSpec.envOf; simp [h.2]

/-- After `getEnvironment` handed out an environment the thread is attached. -/
theorem attached_afterEnv (J : Jvm) (s : State) (hj : s.java = true) (he : envOf J s ≠ 0) :
    Attached (afterEnv J s) := by
  rw [afterEnv_eq]
  unfold envOf at he
  by_cases ht : s.threadEnv = 0
  · simp [ht] at he
    simp [hj, ht, Attached, he]
  · simp [hj, ht, Attached]

/-- Member lookups leave the thread binding alone. -/
theorem lookupMember_ok (e : Event) (l : Lookup) (s s' : State) (a : Nat)
    (h : lookupMember e l s = .ok a s') : s'.java = s.java ∧ s'.threadEnv = s.threadEnv := by
  simp only [lookupMember, M.bind_apply, M.bind, logEvent, setPending, M.pure_apply] at h
  by_cases ht : l.thrown = 0 <;> simp [ht] at h <;> obtain ⟨_, h⟩ := h <;> subst h <;> simp

/-- Invocations and field reads leave the thread binding alone. -/
theorem runOutcome_ok (e : Event) (o : Nat → Outcome) (s s' : State) (a : JValue)
    (h : runOutcome e o s = .ok a s') : s'.java = s.java ∧ s'.threadEnv = s.threadEnv := by
  simp only [runOutcome] at h
  by_cases ht : (o s.world).thrown = 0 <;> simp [ht] at h <;> obtain ⟨_, h⟩ := h <;> subst h <;> simp

/-- Creating a transient reference leaves thread binding and pending state alone. -/
theorem newLocal_ok (obj : Nat) (s s' : State) (a : Ref)
    (h : newLocal obj s = .ok a s') :
    s'.java = s.java ∧ s'.threadEnv = s.threadEnv ∧ s'.pending = s.pending := by
  simp only [newLocal] at h
  by_cases ht : obj = 0 <;> simp [ht] at h <;> obtain ⟨_, h⟩ := h <;> subst h <;> simp

/-- Decoding a string leaves thread binding and pending state alone. -/
theorem convertFromJavaObjectStringValue_ok (J : Jvm) (obj : Ref) (s s' : State) (a : String)
    (h : convertFromJavaObjectStringValue J obj s = .ok a s') :
    s'.java = s.java ∧ s'.threadEnv = s.threadEnv ∧ s'.pending = s.pending := by
  simp only [convertFromJavaObjectStringValue, convertFromJavaObjectString, M.bind_apply, M.bind,
    M.ite_apply, M.pure_apply, GetStringUTFChars, cassert] at h
  by_cases ho : obj.isSet = true
  · cases hl : List.lookup obj.obj s.strings with
    | some c =>
      simp [ho, hl] at h
      obtain ⟨_, h⟩ := h; subst h; simp
    | none =>
      cases hc : J.stringChars obj.obj with
      | some c =>
        simp [ho, hl, hc] at h
        obtain ⟨_, h⟩ := h; subst h; simp
      | none => simp [ho, hl, hc] at h
  · simp [ho] at h
    obtain ⟨_, h⟩ := h; subst h; simp

/-- Decoding a string on an attached thread leaves thread binding and pending
state alone. -/
theorem convertFromJavaObjectStringNoEnv_ok (J : Jvm) (obj : Ref) (s s' : State) (a : String)
    (ha : Attached s) (h : convertFromJavaObjectStringNoEnv J obj s = .ok a s') :
    s'.java = s.java ∧ s'.threadEnv = s.threadEnv ∧ s'.pending = s.pending := by
  simp only [convertFromJavaObjectStringNoEnv, M.bind_eq_ok, getEnvironment_eq, ha.1,
    Bool.true_eq_false, if_false, Res.ok.injEq, ha.afterEnv] at h
  obtain ⟨env, s1, ⟨_, hs1⟩, u, s2, hassert, hconv⟩ := h
  subst hs1
  have hs2 : s2 = s := by
    simp only [cassert] at hassert
    split at hassert
    · injection hassert with _ hs; exact hs.symm
    · cases hassert
  subst hs2
  exact convertFromJavaObjectStringValue_ok J obj _ _ _ hconv

/-- A normally returning string-valued `callSigned` without arguments leaves
no exception pending. -/
theorem callSigned_string_ok (J : Jvm) (fuel : Nat) (w : JniObject) (name sig : String)
    (s s' : State) (r : RetVal)
    (h : callSigned J fuel .string w name sig [] s = .ok r s') : s'.pending = 0 := by
  cases fuel with
  | zero => simp [callSigned] at h
  | succ f =>
    simp only [callSigned, M.bind_eq_ok, getEnvironment_eq] at h
    obtain ⟨env, s1, h1, h2⟩ := h
    by_cases hj : s.java = false
    · simp [hj] at h1
    · simp only [hj, if_false] at h1
      injection h1 with he hs
      subst he; subst hs
      by_cases he : envOf J s = 0
      · simp [he, throwJni] at h2
      · by_cases hc : w._class.isSet = true
        · by_cases hi : w._instance.isSet = true
          · simp only [he, hc, hi, if_false, Bool.not_true, Bool.false_eq_true, M.bind_eq_ok,
              M.onRaise_eq_ok] at h2
            obtain ⟨mid, s2, hmid, u1, s3, hchk1, jargs, s4, hargs, res, s5, hcall,
              u2, s6, hclean, u3, s7, hchk2, hret⟩ := h2
            have a1 : Attached (afterEnv J s) := attached_afterEnv J s (by simpa using hj) he
            have a2 : Attached s2 := by
              have := lookupMember_ok _ _ _ _ _ hmid
              exact ⟨this.1 ▸ a1.1, this.2 ▸ a1.2⟩
            have e3 := (checkJniException_ok J f s2 s3 u1 hchk1).1
            rw [a2.afterEnv] at e3
            subst e3
            cases f with
            | zero => simp [checkJniException] at hchk1
            | succ g =>
              simp only [createArguments, buildArguments, M.pure_apply, Res.ok.injEq] at hargs
              obtain ⟨hja, hs4⟩ := hargs
              subst hja; subst hs4
              simp only [cleanupArguments, M.pure_apply, Res.ok.injEq] at hclean
              obtain ⟨_, hs6⟩ := hclean
              subst hs6
              simp only [callJavaMethod, M.bind_eq_ok, CallMethodA, asLocal] at hcall
              obtain ⟨v, t1, hv, jout, t3, hloc, u4, t4, hchk3, str, t5, hstr, hres⟩ := hcall
              have b1 := runOutcome_ok _ _ _ _ _ hv
              have b2 := newLocal_ok _ _ _ _ hloc
              have a3 : Attached t3 := ⟨by rw [b2.1, b1.1]; exact a2.1, by rw [b2.2.1, b1.2]; exact a2.2⟩
              have e4 := (checkJniException_ok J g t3 t4 u4 hchk3).1
              rw [a3.afterEnv] at e4
              subst e4
              have b3 := convertFromJavaObjectStringNoEnv_ok _ _ _ _ _ a3 hstr
              simp only [M.pure_apply, Res.ok.injEq] at hres
              obtain ⟨_, hs5⟩ := hres
              subst hs5
              have a4 : Attached t5 := ⟨by rw [b3.1]; exact a3.1, by rw [b3.2.1]; exact a3.2⟩
              have e5 := checkJniException_ok J (g + 1) t5 s7 u3 hchk2
              rw [a4.afterEnv] at e5
              simp only [M.pure_apply, Res.ok.injEq] at hret
              obtain ⟨_, hs7⟩ := hret
              rw [← hs7, e5.1]
              exact e5.2 a4.envOf
          · simp [he, hc, hi, throwJni] at h2
        · simp [he, hc, throwJni] at h2

/-- Sequencing after a known normal return. -/
theorem M.bind_of_ok {α β : Type} (m : M α) (f : α → M β) (s s1 : State) (a : α)
    (h : m s = .ok a s1) : (m >>= f) s = f a s1 := by
  simp only [M.bind_apply, M.bind, h]

/-- Sequencing after a known throw. -/
theorem M.bind_of_raise {α β : Type} (m : M α) (f : α → M β) (s s1 : State) (e : String)
    (h : m s = .raise e s1) : (m >>= f) s = .raise e s1 := by
  simp only [M.bind_apply, M.bind, h]

/-- The destructor returns or throws, and leaves the pending exception as it is. -/
theorem destroy_pending (J : Jvm) (w : JniObject) (s : State) :
    ∃ s', (JniObject.destroy J w s = .ok () s' ∨ ∃ e, JniObject.destroy J w s = .raise e s') ∧
      s'.pending = s.pending := by
  simp only [JniObject.destroy, JniObject.clear, M.bind_apply, M.bind, getEnvironment,
    M.ite_apply, M.pure_apply, DeleteGlobalRef]
  by_cases hj : s.java = false <;> by_cases ht : s.threadEnv = 0 <;>
    by_cases he : J.attachEnv = 0 <;> by_cases hc : w._class.isSet = true <;>
    by_cases hi : w._instance.isSet = true <;> simp [hj, ht, he, hc, hi]

/-- A throw leaves its scope through the destructor. -/
theorem M.andFinally_of_raise {α : Type} (m : M α) (fin : M Unit) (s s1 s2 : State) (e : String)
    (h : m s = .raise e s1)
    (hf : fin s1 = .ok () s2 ∨ ∃ e2, fin s1 = .raise e2 s2) :
    M.andFinally m fin s = .raise e s2 := by
  unfold M.andFinally
  rcases hf with hf | ⟨e2, hf⟩ <;> simp [h, hf]

/-- With the thread attached, wrapping a non-null raw reference returns a
wrapper around that object. -/
theorem ofObject_ok (J : Jvm) (r : Ref) (s : State) (hr : r.obj ≠ 0) (ha : Attached s) :
    ∃ w s', JniObject.ofObject J r s = .ok w s' ∧ w._instance.obj = r.obj := by
  obtain ⟨hj, ht⟩ := ha
  simp only [JniObject.ofObject, JniObject.init, JniObject.fresh, M.bind_apply, M.bind,
    getEnvironment, M.ite_apply, M.pure_apply, GetObjectClass, logEvent, newLocal,
    NewGlobalRef]
  by_cases hc : J.objectClass r.obj = 0 <;> simp [hj, ht, hc, hr, Ref.isSet, Ref.null]

/-- C8: when no exception is pending (and the runtime is loaded),
`checkJniException` returns normally and changes nothing beyond what fetching
the environment does, which is nothing once the thread is attached.  When an
exception is pending and an environment exists, the exception is wrapped and
the pending state cleared before its accessors run; if its class path comes
back as `cp` and its message accessor returns `m`, then `checkJniException`
raises one error whose message is `cp`, then ": ", then `m`, and no exception
is pending in the state in which the error is raised. -/
theorem checkJniException_spec (J : Jvm) (fuel : Nat) (s : State) :
    (s.java = true → s.pending = 0 →
      checkJniException J (fuel + 1) s = .ok () (afterEnv J s) ∧
      (s.threadEnv ≠ 0 → afterEnv J s = s)) ∧
    (s.java = true → envOf J s ≠ 0 → s.pending ≠ 0 →
      (∃ exc s1, wrapPending J s = .ok exc s1 ∧ exc._instance.obj = s.pending ∧ s1.pending = 0) ∧
      ∀ exc s1 cp exc2 s2 m s3,
        wrapPending J s = .ok exc s1 →
        getClassPath J fuel exc s1 = .ok (cp, exc2) s2 →
        callSigned J fuel .string exc2 "getLocalizedMessage" "()Ljava/lang/String;" [] s2
          = .ok (.string m) s3 →
        s3.pending = 0 ∧
        ∃ s4, checkJniException J (fuel + 1) s = .raise (cp ++ ": " ++ m) s4 ∧
          s4.pending = 0) := by
  constructor
  · intro hj hp
    constructor
    · have hpend : (afterEnv J s).pending = 0 := by
        rw [afterEnv_eq]; split <;> simp [hp]
      simp only [checkJniException, M.bind_apply, M.bind, getEnvironment_eq, hj,
        Bool.true_eq_false, if_false, M.ite_apply, ExceptionCheck, hpend, M.pure_apply]
      by_cases he : envOf J s = 0 <;> simp [he]
    · intro ht
      rw [afterEnv_eq]; simp [ht]
  · intro hj he hp
    have hjf : ¬ s.java = false := by simp [hj]
    have hpend : (afterEnv J s).pending = s.pending := by
      rw [afterEnv_eq]; split <;> rfl
    have hpa : (afterEnv J s).pending ≠ 0 := by rw [hpend]; exact hp
    have hocc := ExceptionOccurred_pending (afterEnv J s) hpa
    have hatt := attached_afterEnv J s hj he
    constructor
    · have hab : Attached { afterEnv J s with
          nextId := (afterEnv J s).nextId + 1,
          locals := ⟨(afterEnv J s).pending, (afterEnv J s).nextId⟩ :: (afterEnv J s).locals,
          log := (afterEnv J s).log ++ [.exceptionOccurred] } := ⟨hatt.1, hatt.2⟩
      obtain ⟨w, sc, hw, hwo⟩ := ofObject_ok J ⟨(afterEnv J s).pending, (afterEnv J s).nextId⟩ _ hpa hab
      refine ⟨w, { sc with pending := 0, log := sc.log ++ [.exceptionClear] }, ?_, ?_, rfl⟩
      · unfold wrapPending
        rw [M.bind_of_ok _ _ s (afterEnv J s) (envOf J s) (by simp [getEnvironment_eq, hj]),
          M.bind_of_ok _ _ _ _ _ hocc, M.bind_of_ok _ _ _ _ _ hw]
        rfl
      · rw [hwo]; exact hpend
    · intro exc s1 cp exc2 s2 m s3 hwrap hcp hcall
      have h3 := callSigned_string_ok J fuel exc2 _ _ s2 s3 _ hcall
      refine ⟨h3, ?_⟩
      simp only [wrapPending, M.bind_eq_ok, getEnvironment_eq, hj, Bool.true_eq_false, if_false,
        Res.ok.injEq, M.pure_apply, ExceptionClear] at hwrap
      obtain ⟨_, sa, ⟨_, hsa⟩, r, sb, hr, exc0, sc, hexc, u, sd, ⟨_, hsd⟩, hexc0, hs1⟩ := hwrap
      subst hsa; subst hexc0; subst hs1
      rw [hocc] at hr
      injection hr with hr hsb
      subst hr; subst hsb
      have hro : (⟨(afterEnv J s).pending, (afterEnv J s).nextId⟩ : Ref).obj ≠ 0 := hpa
      have hab : Attached { afterEnv J s with
          nextId := (afterEnv J s).nextId + 1,
          locals := ⟨(afterEnv J s).pending, (afterEnv J s).nextId⟩ :: (afterEnv J s).locals,
          log := (afterEnv J s).log ++ [.exceptionOccurred] } := ⟨hatt.1, hatt.2⟩
      have htb := ofObject_toBool J _ _ sc exc0 hro hab.envOf hexc
      have hclr : ExceptionClear sc = .ok () sd := by rw [← hsd]; rfl
      obtain ⟨s4, hfin, hp4⟩ := destroy_pending J exc0 s3
      refine ⟨s4, ?_, by rw [hp4]; exact h3⟩
      have hbody : (do
          ExceptionClear
          let (cp, exc) ← getClassPath J fuel exc0
          let msg := cp ++ ": "
          let r ← callSigned J fuel .string exc "getLocalizedMessage" "()Ljava/lang/String;" []
          match r with
          | .string m => throwJni (msg ++ m)
          | _ => throwJni msg : M Unit) sc = .raise (cp ++ ": " ++ m) s3 := by
        rw [M.bind_of_ok _ _ _ _ _ hclr, M.bind_of_ok _ _ _ _ _ hcp]
        simp only []
        rw [M.bind_of_ok _ _ _ _ _ hcall]
        rfl
      have hres := M.andFinally_of_raise _ (JniObject.destroy J exc0) sc s3 s4 _ hbody hfin
      simp only [checkJniException, getEnvironment_eq, hj, Bool.true_eq_false, if_false]
      rw [M.bind_of_ok _ _ s (afterEnv J s) (envOf J s) (by simp [getEnvironment_eq, hj])]
      simp only [he, if_false]
      have hchk : ExceptionCheck (afterEnv J s) = .ok true (afterEnv J s) := by
        simp [ExceptionCheck, hpa]
      rw [M.bind_of_ok _ _ _ _ _ hchk]
      simp only [Bool.not_true, Bool.false_eq_true, if_false]
      rw [M.bind_of_ok _ _ _ _ _ hocc]
      rw [M.bind_of_ok _ _ _ _ _ hexc]
      simp only [htb, if_true]
      exact hres

/-- Replacing dots keeps a string empty or non-empty. -/
theorem replaceDots_isEmpty (p : String) : (replaceDots p).isEmpty = p.isEmpty := by
  have h1 : ((replaceDots p).isEmpty = true ↔ p.isEmpty = true) := by
    rw [String.isEmpty_iff, String.isEmpty_iff]
    unfold replaceDots
    constructor
    · intro h
      have h2 := congrArg String.data h
      simp at h2
      exact String.ext h2
    · intro h
      subst h
      rfl
  cases ha : (replaceDots p).isEmpty <;> cases hb : p.isEmpty <;> simp_all

/-- C4: with the runtime loaded and an environment at hand, a wrapper
constructed from a non-empty class path `p`, with a raw object (whose class the
runtime reports) or without one (and then `p`, dots replaced, resolves through
the cache or the runtime), holds a class handle, and `getClassPath()` returns
`p` with every '.' replaced by '/' and `getSignature()` returns "L", that path,
";", neither touching the state.  If `p` resolves to no class and neither an
object nor a class handle is supplied, the wrapper has the empty class path
and both references absent. -/
theorem ofClassPath_classPath (J : Jvm) (s : State) (p : String) (obj : Ref) :
    (s.java = true → envOf J s ≠ 0 → p ≠ "" →
      (if obj.isSet then J.objectClass obj.obj ≠ 0 else resolveClass J s (replaceDots p) ≠ 0) →
      ∃ w s', JniObject.ofClassPath J p obj Ref.null s = .ok w s' ∧
        w._class.isSet = true ∧ w._instance.isSet = obj.isSet ∧
        ∀ fuel, getClassPath J (fuel + 1) w s' = .ok (replaceDots p, w) s' ∧
          getSignature J (fuel + 1) w s' = .ok ("L" ++ replaceDots p ++ ";", w) s') ∧
    (s.java = true → envOf J s ≠ 0 → resolveClass J s (replaceDots p) = 0 →
      ∃ s', JniObject.ofClassPath J p Ref.null Ref.null s = .ok ⟨Ref.null, Ref.null, ""⟩ s' ∧
        ∀ fuel, getClassPath J (fuel + 1) ⟨Ref.null, Ref.null, ""⟩ s'
          = .ok ("", ⟨Ref.null, Ref.null, ""⟩) s') := by
  constructor
  · intro hj he hp hcls
    have hpe : p.isEmpty = false := by
      cases h : p.isEmpty
      · rfl
      · exact absurd ((String.isEmpty_iff p).1 h) hp
    have hre : (replaceDots p).isEmpty = false := by rw [replaceDots_isEmpty, hpe]
    have fin : ∀ (w : JniObject) (s' : State), w._classPath = replaceDots p →
        ∀ fuel, getClassPath J (fuel + 1) w s' = .ok (replaceDots p, w) s' ∧
          getSignature J (fuel + 1) w s' = .ok ("L" ++ replaceDots p ++ ";", w) s' := by
      intro w s' hw fuel
      have h1 : getClassPath J (fuel + 1) w s' = .ok (replaceDots p, w) s' := by
        simp [getClassPath, hw, hre, M.pure_apply]
      refine ⟨h1, ?_⟩
      simp [getSignature, M.bind_apply, M.bind, h1, M.pure_apply]
    unfold envOf at he
    unfold resolveClass at hcls
    simp only [JniObject.ofClassPath, JniObject.init, JniObject.fresh, M.bind_apply, M.bind,
      getEnvironment, M.ite_apply, M.pure_apply, GetObjectClass, logEvent, newLocal,
      NewGlobalRef, Jni.getClass, FindClass, setPending, cacheClass, ExceptionClear]
    by_cases ho : obj.isSet = true
    · simp only [ho, if_true] at hcls
      have ho' : obj.obj ≠ 0 := by simpa [Ref.isSet] using ho
      by_cases ht : s.threadEnv = 0
      · simp [ht] at he
        simp [hj, ht, he, ho, ho', hcls, Ref.isSet, Ref.null, hpe]
        exact ⟨_, _, ⟨rfl, rfl⟩, by simpa using hcls, by simp [ho'], fin _ _ rfl⟩
      · simp [ht] at he
        simp [hj, ht, ho, ho', hcls, Ref.isSet, Ref.null, hpe]
        exact ⟨_, _, ⟨rfl, rfl⟩, by simpa using hcls, by simp [ho'], fin _ _ rfl⟩
    · simp only [ho] at hcls
      have ho' : obj.obj = 0 := by simpa [Ref.isSet] using ho
      cases hl : s.classes.lookup (replaceDots p) with
      | some cls =>
        simp [hl] at hcls
        by_cases ht : s.threadEnv = 0
        · simp [ht] at he
          simp [hj, ht, he, ho, ho', hcls, Ref.isSet, Ref.null, hpe, hl]
          exact ⟨_, _, ⟨rfl, rfl⟩, by simpa using hcls, by simp [ho'], fin _ _ rfl⟩
        · simp [ht] at he
          simp [hj, ht, ho, ho', hcls, Ref.isSet, Ref.null, hpe, hl]
          exact ⟨_, _, ⟨rfl, rfl⟩, by simpa using hcls, by simp [ho'], fin _ _ rfl⟩
      | none =>
        simp [hl] at hcls
        by_cases ht : s.threadEnv = 0 <;> by_cases hth : (J.findClass (replaceDots p)).thrown = 0
        all_goals simp [ht] at he
        all_goals simp [hj, ht, he, ho, ho', hcls, Ref.isSet, Ref.null, hpe, hl, hth]
        all_goals exact ⟨_, _, ⟨rfl, rfl⟩, by simpa using hcls, by simp [ho'], fin _ _ rfl⟩
  · intro hj he hno
    have fin : ∀ (s' : State) (fuel : Nat), getClassPath J (fuel + 1) ⟨Ref.null, Ref.null, ""⟩ s'
          = .ok ("", ⟨Ref.null, Ref.null, ""⟩) s' := by
      intro s' fuel
      simp [getClassPath, Ref.isSet, Ref.null, M.pure_apply]
    unfold envOf at he
    unfold resolveClass at hno
    simp only [JniObject.ofClassPath, JniObject.init, JniObject.fresh, M.bind_apply, M.bind,
      getEnvironment, M.ite_apply, M.pure_apply, GetObjectClass, logEvent, newLocal,
      NewGlobalRef, Jni.getClass, FindClass, setPending, cacheClass, ExceptionClear]
    cases hl : s.classes.lookup (replaceDots p) with
    | some cls =>
      simp [hl] at hno
      by_cases ht : s.threadEnv = 0 <;> by_cases hpe : p.isEmpty = true
      all_goals simp [ht] at he
      all_goals simp [hj, ht, he, hno, Ref.isSet, Ref.null, hpe, hl]
      all_goals exact fin _
    | none =>
      simp [hl] at hno
      by_cases ht : s.threadEnv = 0 <;> by_cases hpe : p.isEmpty = true <;>
        by_cases hth : (J.findClass (replaceDots p)).thrown = 0
      all_goals simp [ht] at he
      all_goals simp [hj, ht, he, hno, Ref.isSet, Ref.null, hpe, hl, hth]
      all_goals exact fin _

/-- Dropping the entries of another key does not change a lookup. -/
theorem lookup_filter_ne (path p : String) (hne : path ≠ p) (l : List (String × Ref)) :
    List.lookup path (l.filter (fun e => e.1 != p)) = List.lookup path l := by
  induction l with
  | nil => rfl
  | cons e es ih =>
    obtain ⟨k, v⟩ := e
    by_cases hk : k = p
    · subst hk
      have h1 : (path == k) = false := by simpa using hne
      simp [List.filter_cons, List.lookup_cons, h1, ih]
    · have h2 : (k != p) = true := by simpa using hk
      simp only [List.filter_cons, h2, if_true, List.lookup_cons, ih]

/-- A cached entry survives every `getClass` call. -/
theorem getClass_keeps_entry (J : Jvm) (path p : String) (c : Bool) (s s2 : State) (h r : Ref)
    (hl : s.classes.lookup path = some h) (hg : Jni.getClass J p c s = .ok r s2) :
    s2.classes.lookup path = some h := by
  unfold Jni.getClass at hg
  cases hp : s.classes.lookup p with
  | some cls =>
    simp only [hp] at hg
    injection hg with _ hs
    subst hs; exact hl
  | none =>
    have hne : path ≠ p := by
      intro he; subst he; rw [hl] at hp; cases hp
    have hne2 : (path == p) = false := by simpa using hne
    simp only [hp, M.bind_apply, M.bind, getEnvironment, M.ite_apply, FindClass, logEvent,
      setPending, newLocal, NewGlobalRef, cacheClass, ExceptionClear, M.pure_apply] at hg
    by_cases hj : s.java = false
    · simp [hj] at hg
    · by_cases ht : s.threadEnv = 0 <;> by_cases he : J.attachEnv = 0 <;>
        by_cases hf : (J.findClass p).id = 0 <;> by_cases hth : (J.findClass p).thrown = 0 <;>
        cases c
      all_goals simp [hj, ht, he, hf, hth, Ref.isSet, Ref.null] at hg
      all_goals obtain ⟨_, hs⟩ := hg
      all_goals subst hs
      all_goals simp [hl, List.lookup_cons, hne2, lookup_filter_ne path p hne]

/-- A cached entry survives every run of `getClass` calls. -/
theorem getClassEach_keeps_entry (J : Jvm) (path : String) (h : Ref)
    (reqs : List (String × Bool)) :
    ∀ (s s2 : State) (u : Unit), s.classes.lookup path = some h →
      getClassEach J reqs s = .ok u s2 → s2.classes.lookup path = some h := by
  induction reqs with
  | nil =>
    intro s s2 u hl hg
    simp only [getClassEach, M.pure_apply, Res.ok.injEq] at hg
    rw [← hg.2]; exact hl
  | cons q rest ih =>
    intro s s2 u hl hg
    obtain ⟨p, c⟩ := q
    simp only [getClassEach, M.bind_eq_ok] at hg
    obtain ⟨r, s1, h1, h2⟩ := hg
    exact ih s1 s2 u (getClass_keeps_entry J path p c s s1 h r hl h1) h2

/-- A cache hit returns the entry and touches nothing. -/
theorem getClass_hit (J : Jvm) (path : String) (c : Bool) (s : State) (h : Ref)
    (hl : s.classes.lookup path = some h) : Jni.getClass J path c s = .ok h s := by
  unfold Jni.getClass
  simp only [hl]

/-- After a `getClass(path, true)` that returned a handle, the handle is cached. -/
theorem getClass_caches (J : Jvm) (path : String) (s s' : State) (h : Ref)
    (hset : h.isSet = true) (h1 : Jni.getClass J path true s = .ok h s') :
    s'.classes.lookup path = some h := by
  unfold Jni.getClass at h1
  cases hl : s.classes.lookup path with
  | some cls =>
    simp only [hl] at h1
    injection h1 with ha hs
    subst ha; subst hs
    exact hl
  | none =>
    simp only [hl, M.bind_apply, M.bind, getEnvironment, M.ite_apply, FindClass, logEvent,
      setPending, newLocal, NewGlobalRef, cacheClass, ExceptionClear, M.pure_apply] at h1
    by_cases hj : s.java = false
    · simp [hj] at h1
    · by_cases ht : s.threadEnv = 0 <;> by_cases he : J.attachEnv = 0 <;>
        by_cases hf : (J.findClass path).id = 0 <;>
        by_cases hp : (J.findClass path).thrown = 0
      all_goals simp [hj, ht, he, hf, hp, Ref.isSet, Ref.null] at h1
      all_goals obtain ⟨ha, hs⟩ := h1
      all_goals subst ha; subst hs
      all_goals first
        | (exfalso; simp [Ref.isSet] at hset; done)
        | simp

/-- C10: once `getClass(path, true)` has returned a handle `h` (non-null),
every later `getClass(path, cache)`, for either value of the flag, returns
that same `h` and leaves the state, call log included, exactly as it was, so
the runtime is not asked to resolve the class again; this also holds after
any run of further `getClass` calls on any paths. -/
theorem getClass_cached (J : Jvm) (path : String) (s s' : State) (h : Ref)
    (hset : h.isSet = true) (h1 : Jni.getClass J path true s = .ok h s') :
    (∀ cache, Jni.getClass J path cache s' = .ok h s') ∧
    (∀ (reqs : List (String × Bool)) (u : Unit) (s2 : State),
      getClassEach J reqs s' = .ok u s2 →
      ∀ cache, Jni.getClass J path cache s2 = .ok h s2) := by
  have key := getClass_caches J path s s' h hset h1
  exact ⟨fun c => getClass_hit J path c s' h key,
    fun reqs u s2 hr c =>
      getClass_hit J path c s2 h (getClassEach_keeps_entry J path h reqs s' s2 u key hr)⟩

/-- Witness for `getClass_cached`: `com/example/Counter` in the sample
runtime, queried again directly and after two other `getClass` calls. -/
theorem getClass_cached_witness :
    (∀ cache, Jni.getClass Sample.jvm "com/example/Counter" cache
        ((Jni.getClass Sample.jvm "com/example/Counter" true Sample.state).stateD Sample.state)
      = .ok ⟨20, 2⟩
        ((Jni.getClass Sample.jvm "com/example/Counter" true Sample.state).stateD Sample.state)) ∧
    Jni.getClass Sample.jvm "com/example/Counter" false
      ((getClassEach Sample.jvm [("java/lang/String", true), ("no/such/Class", false)]
        ((Jni.getClass Sample.jvm "com/example/Counter" true Sample.state).stateD
          Sample.state)).stateD Sample.state)
      = .ok ⟨20, 2⟩
        ((getClassEach Sample.jvm [("java/lang/String", true), ("no/such/Class", false)]
          ((Jni.getClass Sample.jvm "com/example/Counter" true Sample.state).stateD
            Sample.state)).stateD Sample.state) :=
  ⟨(getClass_cached Sample.jvm "com/example/Counter" Sample.state
      ((Jni.getClass Sample.jvm "com/example/Counter" true Sample.state).stateD Sample.state)
      ⟨20, 2⟩ (by decide) (by decide!)).1,
   (getClass_cached Sample.jvm "com/example/Counter" Sample.state
      ((Jni.getClass Sample.jvm "com/example/Counter" true Sample.state).stateD Sample.state)
      ⟨20, 2⟩ (by decide) (by decide!)).2
      [("java/lang/String", true), ("no/such/Class", false)] ()
      ((getClassEach Sample.jvm [("java/lang/String", true), ("no/such/Class", false)]
        ((Jni.getClass Sample.jvm "com/example/Counter" true Sample.state).stateD
          Sample.state)).stateD Sample.state)
      (by decide!) false⟩

/-- The string `getClassPath` returns is the one the descriptor layer computes
from the view of the entry state. -/
theorem getClassPath_refines (J : Jvm) (fuel : Nat) (w w2 : JniObject) (s s' : State)
    (cp : String) (h : getClassPath J (fuel + 1) w s = .ok (cp, w2) s') :
    cp = Descriptor.getClassPath
      ⟨fun r => (lazyClassName J fuel r s).valueD ""⟩ w := by
  unfold Descriptor.getClassPath
  simp only [getClassPath] at h
  by_cases hc : (w._classPath.isEmpty && w._class.isSet) = true
  · simp only [hc, if_true, M.tryCatch, M.bind_apply, M.bind] at h ⊢
    cases hl : lazyClassName J fuel w._class s with
    | ok name s1 =>
      simp only [hl, M.pure_apply, Res.ok.injEq, Prod.mk.injEq] at h
      simp [Res.valueD, h.1.1]
    | raise e s1 =>
      simp only [hl, M.pure_apply, Res.ok.injEq, Prod.mk.injEq] at h
      have he : w._classPath = "" := by
        have := Bool.and_eq_true_iff.1 hc
        exact (String.isEmpty_iff _).1 this.1
      simp [Res.valueD, ← h.1.1, he]
    | outside why => simp [hl] at h
    | timeout => simp [hl] at h
  · simp only [hc, Bool.false_eq_true, if_false, M.pure_apply, Res.ok.injEq,
      Prod.mk.injEq] at h ⊢
    exact h.1.1.symm

/-- Witness for `ofClassPath_classPath`: the sample class path with the
`Counter` object, and a path the sample runtime does not resolve. -/
theorem ofClassPath_classPath_witness :
    (∃ w s', JniObject.ofClassPath Sample.jvm "com.example.Counter" ⟨100, 0⟩ Ref.null Sample.state
        = .ok w s' ∧
      w._class.isSet = true ∧ w._instance.isSet = (⟨100, 0⟩ : Ref).isSet ∧
      ∀ fuel, getClassPath Sample.jvm (fuel + 1) w s'
          = .ok (replaceDots "com.example.Counter", w) s' ∧
        getSignature Sample.jvm (fuel + 1) w s'
          = .ok ("L" ++ replaceDots "com.example.Counter" ++ ";", w) s') ∧
    replaceDots "com.example.Counter" = "com/example/Counter" ∧
    (∃ s', JniObject.ofClassPath Sample.jvm "no.such.Class" Ref.null Ref.null Sample.state
        = .ok ⟨Ref.null, Ref.null, ""⟩ s' ∧
      ∀ fuel, getClassPath Sample.jvm (fuel + 1) ⟨Ref.null, Ref.null, ""⟩ s'
        = .ok ("", ⟨Ref.null, Ref.null, ""⟩) s') :=
  ⟨(ofClassPath_classPath Sample.jvm Sample.state "com.example.Counter" ⟨100, 0⟩).1
      (by decide) (by decide) (by decide) (by decide),
   by decide,
   (ofClassPath_classPath Sample.jvm Sample.state "no.such.Class" Ref.null).2
      (by decide) (by decide) (by decide)⟩

/-- Witness for `checkJniException_spec`: the sample state without and with
the exception object 98 pending. -/
theorem checkJniException_spec_witness :
    (checkJniException Sample.jvm 11 Sample.state = .ok () (afterEnv Sample.jvm Sample.state)) ∧
    ∃ s4, checkJniException Sample.jvm 11 Sample.faulted
        = .raise ("java.lang.RuntimeException" ++ ": " ++ "boom") s4 ∧ s4.pending = 0 :=
  ⟨((checkJniException_spec Sample.jvm 10 Sample.state).1 (by decide) (by decide)).1,
   ((checkJniException_spec Sample.jvm 10 Sample.faulted).2 (by decide) (by decide) (by decide)).2
      ((wrapPending Sample.jvm Sample.faulted).valueD JniObject.fresh)
      ((wrapPending Sample.jvm Sample.faulted).stateD Sample.state)
      "java.lang.RuntimeException"
      ⟨⟨41, 3⟩, ⟨98, 4⟩, "java.lang.RuntimeException"⟩
      ((getClassPath Sample.jvm 10 ((wrapPending Sample.jvm Sample.faulted).valueD JniObject.fresh)
        ((wrapPending Sample.jvm Sample.faulted).stateD Sample.state)).stateD Sample.state)
      "boom"
      ((callSigned Sample.jvm 10 .string ⟨⟨41, 3⟩, ⟨98, 4⟩, "java.lang.RuntimeException"⟩
        "getLocalizedMessage" "()Ljava/lang/String;" []
        ((getClassPath Sample.jvm 10
          ((wrapPending Sample.jvm Sample.faulted).valueD JniObject.fresh)
          ((wrapPending Sample.jvm Sample.faulted).stateD Sample.state)).stateD
            Sample.state)).stateD Sample.state)
      (by decide!) (by decide!) (by decide!) |>.2⟩

/-- C5 (defect): for a wrapper built from the raw `Counter` object alone, so
with a class handle and no stored class path, `getClassPath()` returns the
name of the runtime's class-name accessor as it is, "com.example.Counter",
and caches it; `getSignature()` and the descriptor of the raw reference are
"Lcom.example.Counter;", with dots, where construction from the class path
stores "com/example/Counter". -/
theorem getClassPath_lazy_keeps_dots :
    (JniObject.ofObject Sample.jvm ⟨100, 0⟩ Sample.state).valueD JniObject.fresh
      = ⟨⟨20, 2⟩, ⟨100, 3⟩, ""⟩ ∧
    (getClassPath Sample.jvm 10 ⟨⟨20, 2⟩, ⟨100, 3⟩, ""⟩
        ((JniObject.ofObject Sample.jvm ⟨100, 0⟩ Sample.state).stateD Sample.state)).valueD
          ("", JniObject.fresh)
      = ("com.example.Counter", ⟨⟨20, 2⟩, ⟨100, 3⟩, "com.example.Counter"⟩) ∧
    (getSignature Sample.jvm 10 ⟨⟨20, 2⟩, ⟨100, 3⟩, ""⟩
        ((JniObject.ofObject Sample.jvm ⟨100, 0⟩ Sample.state).stateD Sample.state)).valueD
          ("", JniObject.fresh)
      = ("Lcom.example.Counter;", ⟨⟨20, 2⟩, ⟨100, 3⟩, "com.example.Counter"⟩) ∧
    (getSignaturePartJobject Sample.jvm 10 ⟨100, 0⟩ Sample.state).valueD ""
      = "Lcom.example.Counter;" ∧
    Sample.counter = ⟨⟨20, 2⟩, ⟨100, 3⟩, "com/example/Counter"⟩ ∧
    replaceDots "com.example.Counter" = "com/example/Counter" := by
  decide!

/-- C7 (defect): on the sample wrapper that holds the class `Counter` and no
object, `fieldSigned` raises nothing: it resolves the field identifier and
calls the runtime's field accessor on the class handle (object 20).  On the
wrapper that does hold the `Counter` object 100, whose `count` is 5, the
field is again read from the class handle 20, giving 0. -/
theorem fieldSigned_reads_class_handle :
    Sample.counterClass = ⟨⟨20, 3⟩, Ref.null, "com/example/Counter"⟩ ∧
    fieldSigned Sample.jvm 10 .int Sample.counterClass "count" "I" Sample.counterClassState
      = .ok (.int 0) { Sample.counterClassState with
          log := Sample.counterClassState.log
            ++ [.getFieldID 20 "count" "I", .getField 20 7] } ∧
    Sample.counter = ⟨⟨20, 2⟩, ⟨100, 3⟩, "com/example/Counter"⟩ ∧
    fieldSigned Sample.jvm 10 .int Sample.counter "count" "I" Sample.counterState
      = .ok (.int 0) { Sample.counterState with
          log := Sample.counterState.log ++ [.getFieldID 20 "count" "I", .getField 20 7] } ∧
    (Sample.jvm.readField 0 100 7).ret = .i 5 := by
  decide!

/-- C9 (defect): `callSigned` with a string result and a sequence argument,
on a method that throws: the uniform error is raised by the exception check
inside `callJavaObjectMethod`, before `cleanupArguments` runs, and the
transient array reference created for the argument is still live and was
never released.  With an int result the same call releases it, and so does
the string-valued call when the method returns. -/
theorem callSigned_string_leaks_array_on_exception :
    (createJavaArray Sample.jvm .long [.long 1] Sample.counterState).valueD Ref.null
      = ⟨1001, 4⟩ ∧
    (∃ s', callSigned Sample.jvm 10 .string Sample.counter "fail" "([J)Ljava/lang/String;"
        [.vector .long [.long 1]] Sample.counterState
          = .raise "java.lang.RuntimeException: boom" s' ∧
      (⟨1001, 4⟩ : Ref) ∈ s'.locals ∧ Event.deleteLocalRef ⟨1001, 4⟩ ∉ s'.log) ∧
    (∃ s', callSigned Sample.jvm 10 .int Sample.counter "fail" "([J)I"
        [.vector .long [.long 1]] Sample.counterState
          = .raise "java.lang.RuntimeException: boom" s' ∧
      (⟨1001, 4⟩ : Ref) ∉ s'.locals ∧ Event.deleteLocalRef ⟨1001, 4⟩ ∈ s'.log) ∧
    (∃ s', callSigned Sample.jvm 10 .string Sample.counter "describe" "([J)Ljava/lang/String;"
        [.vector .long [.long 1]] Sample.counterState = .ok (.string "a counter") s' ∧
      (⟨1001, 4⟩ : Ref) ∉ s'.locals ∧ Event.deleteLocalRef ⟨1001, 4⟩ ∈ s'.log) := by
  refine ⟨by decide!, ⟨(callSigned Sample.jvm 10 .string Sample.counter "fail"
      "([J)Ljava/lang/String;" [.vector .long [.long 1]] Sample.counterState).stateD Sample.state,
      by decide!⟩, ⟨(callSigned Sample.jvm 10 .int Sample.counter "fail"
      "([J)I" [.vector .long [.long 1]] Sample.counterState).stateD Sample.state, by decide!⟩,
    ⟨(callSigned Sample.jvm 10 .string Sample.counter "describe"
      "([J)Ljava/lang/String;" [.vector .long [.long 1]] Sample.counterState).stateD Sample.state,
      by decide!⟩⟩

/-! ## The class cache and the environment -/

/-- With no entry for a key, dropping the entries of that key changes nothing. -/
theorem filter_of_lookup_none (path : String) (l : List (String × Ref))
    (h : List.lookup path l = none) : l.filter (fun e => e.1 != path) = l := by
  induction l with
  | nil => rfl
  | cons e es ih =>
    obtain ⟨k, v⟩ := e
    by_cases hk : path = k
    · subst hk
      simp [List.lookup_cons] at h
    · have h1 : (path == k) = false := by simpa using hk
      have h2 : (k != path) = true := by
        simp only [bne_iff_ne, ne_eq]
        exact fun h => hk h.symm
      simp only [List.lookup_cons, h1] at h
      simp only [List.filter_cons, h2, if_true, ih h]

/-- C11: `getClass(path, false)` leaves the class cache exactly as it was.
`getClass(path, true)` either leaves it as it was or, when `path` had no
entry and the runtime resolved it, returns a non-null handle `h` and puts the
one entry `(path, h)` in front of the old cache.  With either flag every
entry that was cached is still cached with the same handle. -/
theorem getClass_cache_frame (J : Jvm) (path : String) (s : State) :
    ((Jni.getClass J path false s).stateD s).classes = s.classes ∧
    (((Jni.getClass J path true s).stateD s).classes = s.classes ∨
      (s.classes.lookup path = none ∧ (J.findClass path).id ≠ 0 ∧
        ∃ h, h.isSet = true ∧
          Jni.getClass J path true s = .ok h ((Jni.getClass J path true s).stateD s) ∧
          ((Jni.getClass J path true s).stateD s).classes = (path, h) :: s.classes)) ∧
    (∀ (cache : Bool) (q : String) (h : Ref), s.classes.lookup q = some h →
      ((Jni.getClass J path cache s).stateD s).classes.lookup q = some h) := by
  have hfalse : ((Jni.getClass J path false s).stateD s).classes = s.classes := by
    unfold Jni.getClass
    cases hl : s.classes.lookup path with
    | some cls => simp [Res.stateD]
    | none =>
      simp only [M.bind_apply, M.bind, getEnvironment, M.ite_apply, FindClass, logEvent,
        setPending, newLocal, NewGlobalRef, cacheClass, ExceptionClear, M.pure_apply]
      by_cases hj : s.java = false <;> by_cases ht : s.threadEnv = 0 <;>
        by_cases he : J.attachEnv = 0 <;> by_cases hf : (J.findClass path).id = 0 <;>
        by_cases hth : (J.findClass path).thrown = 0 <;>
        simp [hj, ht, he, hf, hth, Ref.isSet, Ref.null, Res.stateD]
  have htrue : ((Jni.getClass J path true s).stateD s).classes = s.classes ∨
      (s.classes.lookup path = none ∧ (J.findClass path).id ≠ 0 ∧
        ∃ h, h.isSet = true ∧
          Jni.getClass J path true s = .ok h ((Jni.getClass J path true s).stateD s) ∧
          ((Jni.getClass J path true s).stateD s).classes = (path, h) :: s.classes) := by
    unfold Jni.getClass
    cases hl : s.classes.lookup path with
    | some cls => simp [Res.stateD]
    | none =>
      have hfl := filter_of_lookup_none path s.classes hl
      simp only [M.bind_apply, M.bind, getEnvironment, M.ite_apply, FindClass, logEvent,
        setPending, newLocal, NewGlobalRef, cacheClass, ExceptionClear, M.pure_apply]
      by_cases hj : s.java = false <;> by_cases ht : s.threadEnv = 0 <;>
        by_cases he : J.attachEnv = 0 <;> by_cases hf : (J.findClass path).id = 0 <;>
        by_cases hth : (J.findClass path).thrown = 0 <;>
        simp [hj, ht, he, hf, hth, Ref.isSet, Ref.null, Res.stateD, hfl]
  refine ⟨hfalse, htrue, ?_⟩
  intro cache q h hq
  cases cache with
  | false => rw [hfalse]; exact hq
  | true =>
    rcases htrue with h1 | ⟨hl, _, h2, _, _, h3⟩
    · rw [h1]; exact hq
    · rw [h3]
      have hne : q ≠ path := by
        intro he; subst he; rw [hl] at hq; cases hq
      have hne2 : (q == path) = false := by simpa using hne
      simp [List.lookup_cons, hne2, hq]

/-- C12: with the runtime installed and an environment at hand, `getClass` on a
path that is not cached and that the runtime fails to resolve returns the
null handle without raising, leaves no pending exception and leaves the class
cache unchanged, for both values of the cache flag. -/
theorem getClass_unresolved (J : Jvm) (path : String) (cache : Bool) (s : State)
    (hj : s.java = true) (he : envOf J s ≠ 0) (hl : s.classes.lookup path = none)
    (hf : (J.findClass path).id = 0) :
    ∃ s2, Jni.getClass J path cache s = .ok Ref.null s2 ∧ s2.pending = 0 ∧
      s2.classes = s.classes := by
  unfold envOf at he
  unfold Jni.getClass
  simp only [hl, M.bind_apply, M.bind, getEnvironment, M.ite_apply, FindClass, logEvent,
    setPending, newLocal, NewGlobalRef, cacheClass, ExceptionClear, M.pure_apply]
  by_cases ht : s.threadEnv = 0 <;> by_cases hth : (J.findClass path).thrown = 0
  all_goals simp [ht] at he
  all_goals simp [hj, ht, he, hf, hth, Ref.isSet, Ref.null]

/-- C13: `getEnvironment` raises if and only if the runtime pointer is not
installed, and then the message is "Jni::onLoad not called."; with the
pointer installed, a call on a thread whose slot is empty attaches the thread
and stores the handle in the slot, a call on a thread whose slot is filled
returns the slot without attaching, and after any call that returned a
non-null handle the next call returns the same handle and changes nothing,
the call log included. -/
theorem getEnvironment_spec (J : Jvm) (s : State) :
    ((∃ e s1, getEnvironment J s = .raise e s1) ↔ s.java = false) ∧
    (s.java = false → getEnvironment J s = .raise "Jni::onLoad not called." s) ∧
    (s.java = true → s.threadEnv = 0 →
      getEnvironment J s = .ok J.attachEnv
        { s with threadEnv := J.attachEnv, log := s.log ++ [.attachCurrentThread] }) ∧
    (s.java = true → s.threadEnv ≠ 0 → getEnvironment J s = .ok s.threadEnv s) ∧
    (s.java = true → ∀ env s1, getEnvironment J s = .ok env s1 → env ≠ 0 →
      s1.threadEnv = env ∧ getEnvironment J s1 = .ok env s1) := by
  refine ⟨?_, ?_, ?_, ?_, ?_⟩
  · unfold getEnvironment
    by_cases hj : s.java = false <;> by_cases ht : s.threadEnv = 0 <;> simp [hj, ht]
  · intro hj; simp [getEnvironment, hj]
  · intro hj ht; simp [getEnvironment, hj, ht]
  · intro hj ht; simp [getEnvironment, hj, ht]
  · intro hj env s1 h henv
    unfold getEnvironment at h ⊢
    by_cases ht : s.threadEnv = 0
    · simp [hj, ht] at h
      obtain ⟨h1, h2⟩ := h
      subst h2; subst h1
      simp [hj, henv]
    · simp [hj, ht] at h
      obtain ⟨h1, h2⟩ := h
      subst h2; subst h1
      simp [hj, ht]

/-! ## Identity and release -/

/-- C14: with the runtime installed and an environment at hand, `a == b` is the
runtime's same-object answer for the two objects when both wrappers hold an
object, and the same-object answer for the two class handles when at least
one holds no object; so wrappers around the same object are equal, and two
wrappers without object are equal exactly when their class handles denote the
same class. -/
theorem equals_spec (J : Jvm) (a b : JniObject) (s : State)
    (hj : s.java = true) (he : envOf J s ≠ 0) :
    (a._instance.isSet = true → b._instance.isSet = true →
      JniObject.equals J a b s = .ok (IsSameObject a._instance b._instance) (afterEnv J s)) ∧
    (a._instance.isSet = false ∨ b._instance.isSet = false →
      JniObject.equals J a b s = .ok (IsSameObject a._class b._class) (afterEnv J s)) ∧
    (a._instance.isSet = true → a._instance.obj = b._instance.obj →
      JniObject.equals J a b s = .ok true (afterEnv J s)) ∧
    (a._instance.isSet = false → b._instance.isSet = false →
      (JniObject.equals J a b s = .ok true (afterEnv J s) ↔ a._class.obj = b._class.obj)) := by
  have hjf : ¬ s.java = false := by simp [hj]
  have key : JniObject.equals J a b s
      = .ok (if (a._instance.isSet && b._instance.isSet) = true
          then IsSameObject a._instance b._instance
          else IsSameObject a._class b._class) (afterEnv J s) := by
    unfold JniObject.equals
    rw [M.bind_of_ok _ _ s (afterEnv J s) (envOf J s) (by simp [getEnvironment_eq, hj])]
    simp only [he, if_false, M.ite_apply, M.pure_apply]
    split <;> rfl
  refine ⟨?_, ?_, ?_, ?_⟩
  · intro ha hb; rw [key]; simp [ha, hb]
  · intro h
    rw [key]
    rcases h with h | h <;> simp [h]
  · intro ha hab
    have hb : b._instance.isSet = true := by
      simp only [Ref.isSet] at ha ⊢
      rw [← hab]; exact ha
    rw [key]; simp [ha, hb, IsSameObject, hab]
  · intro ha hb
    rw [key]
    simp [ha, IsSameObject]

/-- C15: with the runtime installed and an environment at hand, `clear()` returns,
leaves both references absent and the class path as it was, calls
`DeleteGlobalRef` once on the class reference if the wrapper held one and once
on the object reference if it held one and makes no other runtime call, and
removes exactly those from the pinned set; a second `clear()` returns the
same wrapper and leaves the state, call log and pinned set included, exactly
as it was. -/
theorem clear_spec (J : Jvm) (w : JniObject) (s : State)
    (hj : s.java = true) (he : envOf J s ≠ 0) :
    ∃ w1 s1, JniObject.clear J w s = .ok w1 s1 ∧
      w1._class.isSet = false ∧ w1._instance.isSet = false ∧ w1._classPath = w._classPath ∧
      s1.log = (afterEnv J s).log
        ++ (if w._class.isSet then [Event.deleteGlobalRef w._class] else [])
        ++ (if w._instance.isSet then [Event.deleteGlobalRef w._instance] else []) ∧
      s1.globals = (if w._instance.isSet
        then (if w._class.isSet then s.globals.erase w._class else s.globals).erase w._instance
        else (if w._class.isSet then s.globals.erase w._class else s.globals)) ∧
      JniObject.clear J w1 s1 = .ok w1 s1 := by
  unfold envOf at he
  refine ⟨(JniObject.clear J w s).valueD w, (JniObject.clear J w s).stateD s, ?_⟩
  simp only [JniObject.clear, M.bind_apply, M.bind, getEnvironment, M.ite_apply, M.pure_apply,
    DeleteGlobalRef, afterEnv, Ref.isSet]
  by_cases ht : s.threadEnv = 0 <;> by_cases hc : w._class.obj = 0 <;>
    by_cases hi : w._instance.obj = 0
  all_goals simp [ht] at he
  all_goals simp [hj, ht, he, hc, hi, Ref.null, Res.valueD, Res.stateD]

/-! ## The wrapper invariant -/

/-- Pinning keeps the object a reference denotes. -/
theorem NewGlobalRef_ok (r g : Ref) (s s1 : State) (h : NewGlobalRef r s = .ok g s1) :
    g.obj = r.obj := by
  unfold NewGlobalRef at h
  by_cases hr : r.obj = 0
  · simp [hr] at h
    rw [← h.1, hr]; rfl
  · simp [hr] at h
    rw [← h.1]

/-- The class reference `GetObjectClass` returns denotes the class the runtime reports. -/
theorem GetObjectClass_ok (J : Jvm) (r c : Ref) (s s1 : State)
    (h : GetObjectClass J r s = .ok c s1) : c.obj = J.objectClass r.obj := by
  simp only [GetObjectClass, M.bind_apply, M.bind, logEvent, newLocal] at h
  by_cases hr : J.objectClass r.obj = 0
  · simp [hr] at h
    rw [← h.1, hr]; rfl
  · simp [hr] at h
    rw [← h.1]

/-- Running `init` on a wrapper that had the invariant establishes it. -/
theorem init_hasClassIfObject (J : Jvm) (hcls : ∀ o, o ≠ 0 → J.objectClass o ≠ 0)
    (w0 : JniObject) (objId classId : Ref) (p : String) (s s1 : State) (w : JniObject)
    (h0 : HasClassIfObject w0)
    (h : JniObject.init J w0 objId classId p s = .ok w s1) : HasClassIfObject w := by
  simp only [JniObject.init, M.bind_eq_ok] at h
  obtain ⟨env, sa, henv, h⟩ := h
  unfold HasClassIfObject at h0 ⊢
  simp only [Ref.isSet] at h0 ⊢
  by_cases he : env = 0
  · simp [he, M.pure_apply] at h
    rw [← h.1]; exact h0
  · simp only [bne_iff_ne, ne_eq, he, not_false_eq_true, if_true] at h
    by_cases hc : classId.obj = 0 <;> by_cases ho : objId.obj = 0
    · -- no class given, no object: the class path decides
      by_cases hp : p.isEmpty = true
      · simp [hc, ho, hp, Ref.isSet, M.bind_apply, M.bind, M.pure_apply] at h
        rw [← h.1]; simpa using h0
      · cases hg : Jni.getClass J (replaceDots p) true sa with
        | ok y sy =>
          by_cases hy : y.obj = 0
          · simp [hc, ho, hp, hy, hg, Ref.isSet, M.bind_apply, M.bind, M.pure_apply] at h
            rw [← h.1]; simpa using h0
          · simp [hc, ho, hp, hy, hg, Ref.isSet, M.bind_apply, M.bind, M.pure_apply,
              NewGlobalRef] at h
            rw [← h.1]; simp [hy]
        | raise e sy => simp [hc, ho, hp, hg, Ref.isSet, M.bind_apply, M.bind] at h
        | outside why => simp [hc, ho, hp, hg, Ref.isSet, M.bind_apply, M.bind] at h
        | timeout => simp [hc, ho, hp, hg, Ref.isSet, M.bind_apply, M.bind] at h
    · -- no class given, an object: the runtime reports its class
      have hoc := hcls objId.obj ho
      simp [hc, ho, hoc, Ref.isSet, M.bind_apply, M.bind, M.pure_apply, NewGlobalRef,
        GetObjectClass, logEvent, newLocal] at h
      rw [← h.1]; simp [hoc]
    · simp [hc, ho, Ref.isSet, M.bind_apply, M.bind, M.pure_apply, NewGlobalRef] at h
      rw [← h.1]; simp [hc]
    · simp [hc, ho, Ref.isSet, M.bind_apply, M.bind, M.pure_apply, NewGlobalRef] at h
      rw [← h.1]; simp [hc]

/-- Clearing a wrapper keeps the invariant. -/
theorem clear_hasClassIfObject (J : Jvm) (w0 : JniObject) (s s1 : State) (w : JniObject)
    (h0 : HasClassIfObject w0) (h : JniObject.clear J w0 s = .ok w s1) :
    HasClassIfObject w := by
  unfold HasClassIfObject at h0 ⊢
  simp only [Ref.isSet] at h0 ⊢
  simp only [JniObject.clear, M.bind_eq_ok] at h
  obtain ⟨env, sa, henv, h⟩ := h
  by_cases he : env = 0 <;> by_cases hc : w0._class.obj = 0 <;>
    by_cases hi : w0._instance.obj = 0
  all_goals simp [he, hc, hi, Ref.isSet, Ref.null, M.bind_apply, M.bind, M.pure_apply,
    DeleteGlobalRef] at h
  all_goals rw [← h.1]
  all_goals simp_all [Ref.null]

/-- C19: if the runtime reports a non-null class for every non-null object
(pinning keeps the object a reference denotes, see `NewGlobalRef`), then every
wrapper state reachable through the constructors, copy construction,
assignment from another wrapper and `clear()` that holds an object reference
holds a class reference. -/
theorem reachable_hasClassIfObject (J : Jvm) (hcls : ∀ o, o ≠ 0 → J.objectClass o ≠ 0)
    (w : JniObject) (hr : Reachable J w) :
    w._instance.isSet = true → w._class.isSet = true := by
  have hfresh : HasClassIfObject JniObject.fresh := by
    simp [HasClassIfObject, JniObject.fresh, Ref.isSet, Ref.null]
  induction hr with
  | ofClassPath p objId classId s s1 w h =>
    exact init_hasClassIfObject J hcls _ _ _ _ _ _ _ hfresh h
  | ofClass classId objId s s1 w h =>
    exact init_hasClassIfObject J hcls _ _ _ _ _ _ _ hfresh h
  | ofObject objId s s1 w h =>
    exact init_hasClassIfObject J hcls _ _ _ _ _ _ _ hfresh h
  | copy other s s1 w _ h _ =>
    exact init_hasClassIfObject J hcls _ _ _ _ _ _ _ hfresh h
  | assign w0 other s s1 w _ _ h ih0 _ =>
    simp only [JniObject.assign, M.bind_eq_ok] at h
    obtain ⟨wc, sc, hclear, hinit⟩ := h
    have hc := clear_hasClassIfObject J w0 s sc wc ih0 hclear
    exact init_hasClassIfObject J hcls _ _ _ _ _ _ _
      (by simpa [HasClassIfObject] using hc) hinit
  | clear w0 s s1 w _ h ih0 =>
    exact clear_hasClassIfObject J w0 s s1 w ih0 h

/-! ## Instance tests and copies -/

/-- C16 (amended): with the thread attached, for a wrapper `w` that holds a class
reference, or holds nothing and has an empty class path, copy-constructing
`c` from `w` returns; `c` denotes the same class and the same object; each
reference `w` holds is pinned anew for `c` (the new reference was not pinned
before and is pinned after); `c` stores the class path of `w` with '.'
replaced by '/'; `c == w` holds; and clearing `c` gives back exactly the
pinned set from before the copy, so the references of `w` stay pinned. -/
theorem copy_spec (J : Jvm) (w : JniObject) (s : State)
    (hj : s.java = true) (ht : s.threadEnv ≠ 0) (hfresh : FreshIds s)
    (hw : w._class.isSet = true ∨ (w._instance.isSet = false ∧ w._classPath = "")) :
    ∃ c s1, JniObject.copy J w s = .ok c s1 ∧
      c._class.obj = w._class.obj ∧ c._instance.obj = w._instance.obj ∧
      (w._class.isSet = true → c._class ∉ s.globals ∧ c._class ∈ s1.globals) ∧
      (w._instance.isSet = true → c._instance ∉ s.globals ∧ c._instance ∈ s1.globals) ∧
      c._classPath = replaceDots w._classPath ∧
      JniObject.equals J c w s1 = .ok true s1 ∧
      ∃ c2 s2, JniObject.clear J c s1 = .ok c2 s2 ∧ s2.globals = s.globals := by
  have hid : ∀ (o k : Nat), (⟨o, s.nextId + k⟩ : Ref) ∉ s.globals := by
    intro o k hmem
    have := hfresh _ hmem
    simp at this
  refine ⟨(JniObject.copy J w s).valueD w, (JniObject.copy J w s).stateD s, ?_⟩
  simp only [JniObject.copy, JniObject.init, JniObject.fresh, JniObject.equals, JniObject.clear,
    M.bind_apply, M.bind, getEnvironment, M.ite_apply, M.pure_apply, NewGlobalRef,
    DeleteGlobalRef, GetObjectClass, logEvent, newLocal, Ref.isSet] at hw ⊢
  by_cases hc : w._class.obj = 0 <;> by_cases hi : w._instance.obj = 0
  · -- neither reference: the class path is empty
    have hp : w._classPath = "" := by
      rcases hw with h | h
      · simp [hc] at h
      · exact h.2
    have hp2 : replaceDots "" = "" := by decide
    have hp3 : ("" : String).isEmpty = true := by decide
    simp [hj, ht, hc, hi, hp, hp2, hp3, Ref.null, Res.valueD, Res.stateD, IsSameObject,
      Ref.isSet]
    exact ⟨_, _, ⟨rfl, rfl⟩, rfl⟩
  · rcases hw with h | h
    · simp [hc] at h
    · simp [hi] at h
  · have h0 := hid w._class.obj 0
    simp only [Nat.add_zero] at h0
    simp [hj, ht, hc, hi, Ref.null, Res.valueD, Res.stateD, IsSameObject, Ref.isSet, h0]
    exact ⟨_, _, ⟨rfl, rfl⟩, rfl⟩
  · have h0 := hid w._class.obj 0
    have h1 := hid w._instance.obj 1
    simp only [Nat.add_zero] at h0
    simp [hj, ht, hc, hi, Ref.null, Res.valueD, Res.stateD, IsSameObject, Ref.isSet, h0, h1]
    exact ⟨_, _, ⟨rfl, rfl⟩, rfl⟩

/-! ## The installed runtime pointer is never changed

`_java` is set by `JNI_OnLoad` alone; no operation of the wrapper writes it. -/

set_option linter.unusedTactic false
set_option linter.unreachableTactic false


theorem keepsJava_pure {α : Type} (a : α) : KeepsJava (pure a : M α) := ⟨fun _ => rfl⟩

theorem keepsJava_throwJni {α : Type} (msg : String) : KeepsJava (throwJni msg : M α) :=
  ⟨fun _ => rfl⟩

theorem keepsJava_outside {α : Type} (w : String) : KeepsJava (fun _ => .outside w : M α) :=
  ⟨fun _ => rfl⟩

theorem keepsJava_timeout {α : Type} : KeepsJava (fun _ => .timeout : M α) := ⟨fun _ => rfl⟩

theorem keepsJava_bind {α β : Type} (m : M α) (f : α → M β) (hm : KeepsJava m)
    (hf : ∀ a, KeepsJava (f a)) : KeepsJava (m >>= f) := by
  refine ⟨fun s => ?_⟩
  have h1 := hm.java_eq s
  simp only [M.bind_apply, M.bind]
  cases h : m s with
  | ok a s1 =>
    rw [h] at h1
    have h2 := (hf a).java_eq s1
    simp only [Res.stateD] at h1 h2 ⊢
    cases h3 : f a s1 <;> simp_all
  | raise e s1 => rw [h] at h1; simpa [Res.stateD] using h1
  | outside w => rfl
  | timeout => rfl

theorem keepsJava_andFinally {α : Type} (m : M α) (fin : M Unit) (hm : KeepsJava m)
    (hf : KeepsJava fin) : KeepsJava (M.andFinally m fin) := by
  refine ⟨fun s => ?_⟩
  have h1 := hm.java_eq s
  unfold M.andFinally
  cases h : m s with
  | ok a s1 =>
    rw [h] at h1
    have h2 := hf.java_eq s1
    simp only [Res.stateD] at h1 h2 ⊢
    cases h3 : fin s1 <;> simp_all
  | raise e s1 =>
    rw [h] at h1
    have h2 := hf.java_eq s1
    simp only [Res.stateD] at h1 h2 ⊢
    cases h3 : fin s1 <;> simp_all
  | outside w => rfl
  | timeout => rfl

theorem keepsJava_onRaise {α : Type} (m : M α) (fin : M Unit) (hm : KeepsJava m)
    (hf : KeepsJava fin) : KeepsJava (M.onRaise m fin) := by
  refine ⟨fun s => ?_⟩
  have h1 := hm.java_eq s
  unfold M.onRaise
  cases h : m s with
  | ok a s1 => rw [h] at h1; simpa [Res.stateD] using h1
  | raise e s1 =>
    rw [h] at h1
    have h2 := hf.java_eq s1
    simp only [Res.stateD] at h1 h2 ⊢
    cases h3 : fin s1 <;> simp_all
  | outside w => rfl
  | timeout => rfl

theorem keepsJava_tryCatch {α : Type} (m h : M α) (hm : KeepsJava m)
    (hh : KeepsJava h) : KeepsJava (M.tryCatch m h) := by
  refine ⟨fun s => ?_⟩
  have h1 := hm.java_eq s
  unfold M.tryCatch
  cases hms : m s with
  | ok a s1 => rw [hms] at h1; simpa [Res.stateD] using h1
  | raise e s1 =>
    rw [hms] at h1
    have h2 := hh.java_eq s1
    simp only [Res.stateD] at h1 h2 ⊢
    cases h3 : h s1 <;> simp_all
  | outside w => rfl
  | timeout => rfl

theorem keepsJava_of_state {α : Type} (m : State → M α) (h : ∀ s0, KeepsJava (m s0)) :
    KeepsJava (fun s => m s s) := ⟨fun s => (h s).java_eq s⟩

theorem keepsJava_logEvent (e : Event) : KeepsJava (logEvent e) := ⟨fun _ => rfl⟩

theorem keepsJava_newLocal (obj : Nat) : KeepsJava (newLocal obj) := by
  refine ⟨fun s => ?_⟩; unfold newLocal; split <;> rfl

theorem keepsJava_setPending (t : Nat) : KeepsJava (setPending t) := by
  refine ⟨fun s => ?_⟩; unfold setPending; split <;> rfl

theorem keepsJava_getEnvironment (J : Jvm) : KeepsJava (getEnvironment J) := by
  refine ⟨fun s => ?_⟩; unfold getEnvironment; split
  · rfl
  · split <;> rfl



theorem keepsJava_NewGlobalRef (r : Ref) : KeepsJava (NewGlobalRef r) := by
  refine ⟨fun s => ?_⟩; unfold NewGlobalRef; split <;> rfl

theorem keepsJava_DeleteGlobalRef (r : Ref) : KeepsJava (DeleteGlobalRef r) := ⟨fun _ => rfl⟩

theorem keepsJava_DeleteLocalRef (r : Ref) : KeepsJava (DeleteLocalRef r) := ⟨fun _ => rfl⟩

theorem keepsJava_ExceptionCheck : KeepsJava ExceptionCheck := ⟨fun _ => rfl⟩

theorem keepsJava_ExceptionClear : KeepsJava ExceptionClear := ⟨fun _ => rfl⟩

theorem keepsJava_cacheClass (p : String) (c : Ref) : KeepsJava (cacheClass p c) :=
  ⟨fun _ => rfl⟩

theorem keepsJava_cassert (c : Bool) (w : String) : KeepsJava (cassert c w) := by
  refine ⟨fun s => ?_⟩; unfold cassert; split <;> rfl

theorem keepsJava_runOutcome (e : Event) (o : Nat → Outcome) : KeepsJava (runOutcome e o) := by
  refine ⟨fun s => ?_⟩; unfold runOutcome; simp only [Res.stateD]; split <;> rfl

theorem keepsJava_NewStringUTF (c : String) : KeepsJava (NewStringUTF c) := by
  refine ⟨fun s => ?_⟩
  have h := (keepsJava_newLocal (s.nextObj + 1)).java_eq
    { s with nextObj := s.nextObj + 1, strings := (s.nextObj + 1, c) :: s.strings,
             log := s.log ++ [.newStringUTF c] }
  unfold NewStringUTF
  unfold newLocal at h ⊢
  split <;> rfl

theorem keepsJava_GetStringUTFChars (J : Jvm) (r : Ref) : KeepsJava (GetStringUTFChars J r) :=
  ⟨fun _ => rfl⟩

theorem keepsJava_NewArray (k : ArrayKind) (n : Nat) (z : JValue) : KeepsJava (NewArray k n z) := by
  refine ⟨fun s => ?_⟩
  unfold NewArray newLocal
  split <;> rfl

theorem keepsJava_SetArrayRegion (k : ArrayKind) (a : Ref) (n : Nat) (v : List JValue) :
    KeepsJava (SetArrayRegion k a n v) := by
  refine ⟨fun s => ?_⟩
  unfold SetArrayRegion
  split
  · rfl
  · split <;> rfl

theorem keepsJava_SetObjectArrayElement (a : Ref) (n : Nat) (e : Ref) :
    KeepsJava (SetObjectArrayElement a n e) := ⟨fun _ => rfl⟩

theorem keepsJava_ExceptionOccurredTail : KeepsJava (fun s => newLocal s.pending s) :=
  keepsJava_of_state (fun s0 => newLocal s0.pending) (fun _ => keepsJava_newLocal _)




attribute [simp] keepsJava_pure keepsJava_throwJni keepsJava_outside keepsJava_timeout
  keepsJava_logEvent keepsJava_newLocal keepsJava_setPending keepsJava_getEnvironment
  keepsJava_NewGlobalRef keepsJava_DeleteGlobalRef keepsJava_DeleteLocalRef
  keepsJava_ExceptionCheck keepsJava_ExceptionClear keepsJava_cacheClass keepsJava_cassert
  keepsJava_runOutcome keepsJava_NewStringUTF keepsJava_GetStringUTFChars keepsJava_NewArray
  keepsJava_SetArrayRegion keepsJava_SetObjectArrayElement keepsJava_ExceptionOccurredTail

@[simp] theorem keepsJava_FindClass (J : Jvm) (p : String) :
    KeepsJava (FindClass J p) := by
  unfold FindClass
  repeat' (first
    | intro _
    | with_reducible apply keepsJava_bind
    | with_reducible apply keepsJava_andFinally
    | with_reducible apply keepsJava_onRaise
    | with_reducible apply keepsJava_tryCatch
    | (simp; done)
    | split
    | dsimp only)

@[simp] theorem keepsJava_GetObjectClass (J : Jvm) (r : Ref) :
    KeepsJava (GetObjectClass J r) := by
  unfold GetObjectClass
  repeat' (first
    | intro _
    | with_reducible apply keepsJava_bind
    | with_reducible apply keepsJava_andFinally
    | with_reducible apply keepsJava_onRaise
    | with_reducible apply keepsJava_tryCatch
    | (simp; done)
    | split
    | dsimp only)

@[simp] theorem keepsJava_NewLocalRef (r : Ref) :
    KeepsJava (NewLocalRef r) := by
  unfold NewLocalRef
  repeat' (first
    | intro _
    | with_reducible apply keepsJava_bind
    | with_reducible apply keepsJava_andFinally
    | with_reducible apply keepsJava_onRaise
    | with_reducible apply keepsJava_tryCatch
    | (simp; done)
    | split
    | dsimp only)

@[simp] theorem keepsJava_ExceptionOccurred  :
    KeepsJava (ExceptionOccurred) := by
  unfold ExceptionOccurred
  repeat' (first
    | intro _
    | with_reducible apply keepsJava_bind
    | with_reducible apply keepsJava_andFinally
    | with_reducible apply keepsJava_onRaise
    | with_reducible apply keepsJava_tryCatch
    | (simp; done)
    | split
    | dsimp only)

@[simp] theorem keepsJava_lookupMember (e : Event) (l : Lookup) :
    KeepsJava (lookupMember e l) := by
  unfold lookupMember
  repeat' (first
    | intro _
    | with_reducible apply keepsJava_bind
    | with_reducible apply keepsJava_andFinally
    | with_reducible apply keepsJava_onRaise
    | with_reducible apply keepsJava_tryCatch
    | (simp; done)
    | split
    | dsimp only)

@[simp] theorem keepsJava_GetMethodID (J : Jvm) (c : Ref) (n g : String) :
    KeepsJava (GetMethodID J c n g) := by
  unfold GetMethodID
  repeat' (first
    | intro _
    | with_reducible apply keepsJava_bind
    | with_reducible apply keepsJava_andFinally
    | with_reducible apply keepsJava_onRaise
    | with_reducible apply keepsJava_tryCatch
    | (simp; done)
    | split
    | dsimp only)

@[simp] theorem keepsJava_GetStaticMethodID (J : Jvm) (c : Ref) (n g : String) :
    KeepsJava (GetStaticMethodID J c n g) := by
  unfold GetStaticMethodID
  repeat' (first
    | intro _
    | with_reducible apply keepsJava_bind
    | with_reducible apply keepsJava_andFinally
    | with_reducible apply keepsJava_onRaise
    | with_reducible apply keepsJava_tryCatch
    | (simp; done)
    | split
    | dsimp only)

@[simp] theorem keepsJava_GetFieldID (J : Jvm) (c : Ref) (n g : String) :
    KeepsJava (GetFieldID J c n g) := by
  unfold GetFieldID
  repeat' (first
    | intro _
    | with_reducible apply keepsJava_bind
    | with_reducible apply keepsJava_andFinally
    | with_reducible apply keepsJava_onRaise
    | with_reducible apply keepsJava_tryCatch
    | (simp; done)
    | split
    | dsimp only)

@[simp] theorem keepsJava_GetStaticFieldID (J : Jvm) (c : Ref) (n g : String) :
    KeepsJava (GetStaticFieldID J c n g) := by
  unfold GetStaticFieldID
  repeat' (first
    | intro _
    | with_reducible apply keepsJava_bind
    | with_reducible apply keepsJava_andFinally
    | with_reducible apply keepsJava_onRaise
    | with_reducible apply keepsJava_tryCatch
    | (simp; done)
    | split
    | dsimp only)

@[simp] theorem keepsJava_CallMethodA (J : Jvm) (o : Ref) (m : Nat) (a : List JValue) :
    KeepsJava (CallMethodA J o m a) := by
  unfold CallMethodA
  repeat' (first
    | intro _
    | with_reducible apply keepsJava_bind
    | with_reducible apply keepsJava_andFinally
    | with_reducible apply keepsJava_onRaise
    | with_reducible apply keepsJava_tryCatch
    | (simp; done)
    | split
    | dsimp only)

@[simp] theorem keepsJava_CallStaticMethodA (J : Jvm) (o : Ref) (m : Nat) (a : List JValue) :
    KeepsJava (CallStaticMethodA J o m a) := by
  unfold CallStaticMethodA
  repeat' (first
    | intro _
    | with_reducible apply keepsJava_bind
    | with_reducible apply keepsJava_andFinally
    | with_reducible apply keepsJava_onRaise
    | with_reducible apply keepsJava_tryCatch
    | (simp; done)
    | split
    | dsimp only)

@[simp] theorem keepsJava_GetField (J : Jvm) (o : Ref) (m : Nat) :
    KeepsJava (GetField J o m) := by
  unfold GetField
  repeat' (first
    | intro _
    | with_reducible apply keepsJava_bind
    | with_reducible apply keepsJava_andFinally
    | with_reducible apply keepsJava_onRaise
    | with_reducible apply keepsJava_tryCatch
    | (simp; done)
    | split
    | dsimp only)

@[simp] theorem keepsJava_GetStaticField (J : Jvm) (o : Ref) (m : Nat) :
    KeepsJava (GetStaticField J o m) := by
  unfold GetStaticField
  repeat' (first
    | intro _
    | with_reducible apply keepsJava_bind
    | with_reducible apply keepsJava_andFinally
    | with_reducible apply keepsJava_onRaise
    | with_reducible apply keepsJava_tryCatch
    | (simp; done)
    | split
    | dsimp only)

@[simp] theorem keepsJava_asLocal (v : JValue) :
    KeepsJava (asLocal v) := by
  unfold asLocal
  repeat' (first
    | intro _
    | with_reducible apply keepsJava_bind
    | with_reducible apply keepsJava_andFinally
    | with_reducible apply keepsJava_onRaise
    | with_reducible apply keepsJava_tryCatch
    | (simp; done)
    | split
    | dsimp only)

@[simp] theorem keepsJava_NewObjectA (J : Jvm) (o : Ref) (m : Nat) (a : List JValue) :
    KeepsJava (NewObjectA J o m a) := by
  unfold NewObjectA
  repeat' (first
    | intro _
    | with_reducible apply keepsJava_bind
    | with_reducible apply keepsJava_andFinally
    | with_reducible apply keepsJava_onRaise
    | with_reducible apply keepsJava_tryCatch
    | (simp; done)
    | split
    | dsimp only)

@[simp] theorem keepsJava_getClass (J : Jvm) (p : String) (c : Bool) :
    KeepsJava (Jni.getClass J p c) := by
  refine ⟨fun s => ?_⟩
  unfold Jni.getClass
  split
  · rfl
  · refine KeepsJava.java_eq ?_ s
    repeat' (first
      | intro _
      | with_reducible apply keepsJava_bind
      | with_reducible apply keepsJava_andFinally
      | with_reducible apply keepsJava_onRaise
      | with_reducible apply keepsJava_tryCatch
      | (simp; done)
      | split
      | dsimp only)

@[simp] theorem keepsJava_init (J : Jvm) (w : JniObject) (o c : Ref) (p : String) :
    KeepsJava (JniObject.init J w o c p) := by
  unfold JniObject.init
  repeat' (first
    | intro _
    | with_reducible apply keepsJava_bind
    | with_reducible apply keepsJava_andFinally
    | with_reducible apply keepsJava_onRaise
    | with_reducible apply keepsJava_tryCatch
    | (simp; done)
    | split
    | dsimp only)

@[simp] theorem keepsJava_ofClassPath (J : Jvm) (p : String) (o c : Ref) :
    KeepsJava (JniObject.ofClassPath J p o c) := by
  unfold JniObject.ofClassPath
  repeat' (first
    | intro _
    | with_reducible apply keepsJava_bind
    | with_reducible apply keepsJava_andFinally
    | with_reducible apply keepsJava_onRaise
    | with_reducible apply keepsJava_tryCatch
    | (simp; done)
    | split
    | dsimp only)

@[simp] theorem keepsJava_ofClass (J : Jvm) (o c : Ref) :
    KeepsJava (JniObject.ofClass J c o) := by
  unfold JniObject.ofClass
  repeat' (first
    | intro _
    | with_reducible apply keepsJava_bind
    | with_reducible apply keepsJava_andFinally
    | with_reducible apply keepsJava_onRaise
    | with_reducible apply keepsJava_tryCatch
    | (simp; done)
    | split
    | dsimp only)

@[simp] theorem keepsJava_ofObject (J : Jvm) (o : Ref) :
    KeepsJava (JniObject.ofObject J o) := by
  unfold JniObject.ofObject
  repeat' (first
    | intro _
    | with_reducible apply keepsJava_bind
    | with_reducible apply keepsJava_andFinally
    | with_reducible apply keepsJava_onRaise
    | with_reducible apply keepsJava_tryCatch
    | (simp; done)
    | split
    | dsimp only)

@[simp] theorem keepsJava_copy (J : Jvm) (w : JniObject) :
    KeepsJava (JniObject.copy J w) := by
  unfold JniObject.copy
  repeat' (first
    | intro _
    | with_reducible apply keepsJava_bind
    | with_reducible apply keepsJava_andFinally
    | with_reducible apply keepsJava_onRaise
    | with_reducible apply keepsJava_tryCatch
    | (simp; done)
    | split
    | dsimp only)

@[simp] theorem keepsJava_clear (J : Jvm) (w : JniObject) :
    KeepsJava (JniObject.clear J w) := by
  unfold JniObject.clear
  repeat' (first
    | intro _
    | with_reducible apply keepsJava_bind
    | with_reducible apply keepsJava_andFinally
    | with_reducible apply keepsJava_onRaise
    | with_reducible apply keepsJava_tryCatch
    | (simp; done)
    | split
    | dsimp only)

@[simp] theorem keepsJava_destroy (J : Jvm) (w : JniObject) :
    KeepsJava (JniObject.destroy J w) := by
  unfold JniObject.destroy
  repeat' (first
    | intro _
    | with_reducible apply keepsJava_bind
    | with_reducible apply keepsJava_andFinally
    | with_reducible apply keepsJava_onRaise
    | with_reducible apply keepsJava_tryCatch
    | (simp; done)
    | split
    | dsimp only)

@[simp] theorem keepsJava_assign (J : Jvm) (w o : JniObject) :
    KeepsJava (JniObject.assign J w o) := by
  unfold JniObject.assign
  repeat' (first
    | intro _
    | with_reducible apply keepsJava_bind
    | with_reducible apply keepsJava_andFinally
    | with_reducible apply keepsJava_onRaise
    | with_reducible apply keepsJava_tryCatch
    | (simp; done)
    | split
    | dsimp only)

@[simp] theorem keepsJava_convertFromJavaObjectString (J : Jvm) (o : Ref) (out : String) :
    KeepsJava (convertFromJavaObjectString J o out) := by
  unfold convertFromJavaObjectString
  repeat' (first
    | intro _
    | with_reducible apply keepsJava_bind
    | with_reducible apply keepsJava_andFinally
    | with_reducible apply keepsJava_onRaise
    | with_reducible apply keepsJava_tryCatch
    | (simp; done)
    | split
    | dsimp only)

@[simp] theorem keepsJava_convertFromJavaObjectWrapper (J : Jvm) (o : Ref) (out : JniObject) :
    KeepsJava (convertFromJavaObjectWrapper J o out) := by
  unfold convertFromJavaObjectWrapper
  repeat' (first
    | intro _
    | with_reducible apply keepsJava_bind
    | with_reducible apply keepsJava_andFinally
    | with_reducible apply keepsJava_onRaise
    | with_reducible apply keepsJava_tryCatch
    | (simp; done)
    | split
    | dsimp only)

@[simp] theorem keepsJava_convertFromJavaObjectStringValue (J : Jvm) (o : Ref) :
    KeepsJava (convertFromJavaObjectStringValue J o) := by
  unfold convertFromJavaObjectStringValue
  repeat' (first
    | intro _
    | with_reducible apply keepsJava_bind
    | with_reducible apply keepsJava_andFinally
    | with_reducible apply keepsJava_onRaise
    | with_reducible apply keepsJava_tryCatch
    | (simp; done)
    | split
    | dsimp only)

@[simp] theorem keepsJava_convertFromJavaObjectWrapperValue (J : Jvm) (o : Ref) :
    KeepsJava (convertFromJavaObjectWrapperValue J o) := by
  unfold convertFromJavaObjectWrapperValue
  repeat' (first
    | intro _
    | with_reducible apply keepsJava_bind
    | with_reducible apply keepsJava_andFinally
    | with_reducible apply keepsJava_onRaise
    | with_reducible apply keepsJava_tryCatch
    | (simp; done)
    | split
    | dsimp only)

@[simp] theorem keepsJava_convertFromJavaObjectStringNoEnv (J : Jvm) (o : Ref) :
    KeepsJava (convertFromJavaObjectStringNoEnv J o) := by
  unfold convertFromJavaObjectStringNoEnv
  repeat' (first
    | intro _
    | with_reducible apply keepsJava_bind
    | with_reducible apply keepsJava_andFinally
    | with_reducible apply keepsJava_onRaise
    | with_reducible apply keepsJava_tryCatch
    | (simp; done)
    | split
    | dsimp only)

@[simp] theorem keepsJava_convertFromJavaObjectWrapperNoEnv (J : Jvm) (o : Ref) :
    KeepsJava (convertFromJavaObjectWrapperNoEnv J o) := by
  unfold convertFromJavaObjectWrapperNoEnv
  repeat' (first
    | intro _
    | with_reducible apply keepsJava_bind
    | with_reducible apply keepsJava_andFinally
    | with_reducible apply keepsJava_onRaise
    | with_reducible apply keepsJava_tryCatch
    | (simp; done)
    | split
    | dsimp only)

@[simp] theorem keepsJava_RetValDestroy (J : Jvm) (r : RetVal) :
    KeepsJava (RetVal.destroy J r) := by
  unfold RetVal.destroy
  repeat' (first
    | intro _
    | with_reducible apply keepsJava_bind
    | with_reducible apply keepsJava_andFinally
    | with_reducible apply keepsJava_onRaise
    | with_reducible apply keepsJava_tryCatch
    | (simp; done)
    | split
    | dsimp only)

@[simp] theorem keepsJava_createJavaArrayOf (J : Jvm) (e : NativeVal) (n : Nat) :
    KeepsJava (createJavaArrayOf J e n) := by
  unfold createJavaArrayOf
  repeat' (first
    | intro _
    | with_reducible apply keepsJava_bind
    | with_reducible apply keepsJava_andFinally
    | with_reducible apply keepsJava_onRaise
    | with_reducible apply keepsJava_tryCatch
    | (simp; done)
    | split
    | dsimp only)

@[simp] theorem keepsJava_setJavaArrayElement (a : Ref) (n : Nat) (v : NativeVal) :
    KeepsJava (setJavaArrayElement a n v) := by
  unfold setJavaArrayElement
  repeat' (first
    | intro _
    | with_reducible apply keepsJava_bind
    | with_reducible apply keepsJava_andFinally
    | with_reducible apply keepsJava_onRaise
    | with_reducible apply keepsJava_tryCatch
    | (simp; done)
    | split
    | dsimp only)


@[simp] theorem keepsJava_cleanupArguments (J : Jvm) (jargs : List JValue) (args : List NativeVal) :
    KeepsJava (cleanupArguments J jargs args) := by
  induction jargs generalizing args with
  | nil => unfold cleanupArguments; simp
  | cons jv jargs ih =>
    cases args with
    | nil => unfold cleanupArguments; simp
    | cons arg args =>
      unfold cleanupArguments
      have h := ih args
      repeat' (first
      | intro _
      | with_reducible apply keepsJava_bind
      | with_reducible apply keepsJava_andFinally
      | with_reducible apply keepsJava_onRaise
      | with_reducible apply keepsJava_tryCatch
      | (simp; done)
      | assumption
      | split
      | dsimp only)

@[simp] theorem keepsJava_setEach (arr : Ref) (i : Nat) (xs : List NativeVal) :
    KeepsJava (setEach arr i xs) := by
  induction xs generalizing i with
  | nil => unfold setEach; simp
  | cons x xs ih =>
    unfold setEach
    have h := ih (i + 1)
    repeat' (first
      | intro _
      | with_reducible apply keepsJava_bind
      | with_reducible apply keepsJava_andFinally
      | with_reducible apply keepsJava_onRaise
      | with_reducible apply keepsJava_tryCatch
      | (simp; done)
      | assumption
      | split
      | dsimp only)

@[simp] theorem keepsJava_setJavaArrayElements (arr : Ref) (t : NativeType) (xs : List NativeVal) :
    KeepsJava (setJavaArrayElements arr t xs) := by
  unfold setJavaArrayElements
  repeat' (first
      | intro _
      | with_reducible apply keepsJava_bind
      | with_reducible apply keepsJava_andFinally
      | with_reducible apply keepsJava_onRaise
      | with_reducible apply keepsJava_tryCatch
      | (simp; done)
      | assumption
      | split
      | dsimp only)

@[simp] theorem keepsJava_createJavaArray (J : Jvm) (t : NativeType) (xs : List NativeVal) :
    KeepsJava (createJavaArray J t xs) := by
  unfold createJavaArray
  repeat' (first
      | intro _
      | with_reducible apply keepsJava_bind
      | with_reducible apply keepsJava_andFinally
      | with_reducible apply keepsJava_onRaise
      | with_reducible apply keepsJava_tryCatch
      | (simp; done)
      | assumption
      | split
      | dsimp only)

theorem keepsJava_buildArguments (f : NativeVal → M JValue) (hf : ∀ v, KeepsJava (f v))
    (args : List NativeVal) : KeepsJava (buildArguments f args) := by
  induction args with
  | nil => unfold buildArguments; simp
  | cons a args ih =>
    unfold buildArguments
    have h := hf a
    repeat' (first
      | intro _
      | with_reducible apply keepsJava_bind
      | with_reducible apply keepsJava_andFinally
      | with_reducible apply keepsJava_onRaise
      | with_reducible apply keepsJava_tryCatch
      | (simp; done)
      | assumption
      | split
      | dsimp only)

theorem keepsJava_forEntries (f : NativeVal → NativeVal → M Unit)
    (hf : ∀ k v, KeepsJava (f k v)) (es : List (NativeVal × NativeVal)) :
    KeepsJava (forEntries f es) := by
  induction es with
  | nil => unfold forEntries; simp
  | cons e es ih =>
    obtain ⟨k, v⟩ := e
    unfold forEntries
    have h := hf k v
    repeat' (first
      | intro _
      | with_reducible apply keepsJava_bind
      | with_reducible apply keepsJava_andFinally
      | with_reducible apply keepsJava_onRaise
      | with_reducible apply keepsJava_tryCatch
      | (simp; done)
      | assumption
      | split
      | dsimp only)

/-- None of the invocation and dispatch functions changes the installed runtime pointer. -/
theorem keepsJava_block (J : Jvm) : ∀ fuel : Nat,
    KeepsJava (checkJniException J fuel) ∧
    (∀ cls, KeepsJava (lazyClassName J fuel cls)) ∧
    (∀ w, KeepsJava (getClassPath J fuel w)) ∧
    (∀ k o m a, KeepsJava (callJavaMethod J fuel k o m a)) ∧
    (∀ v, KeepsJava (convertToJavaValue J fuel v)) ∧
    (∀ args, KeepsJava (createArguments J fuel args)) ∧
    (∀ k w n g a, KeepsJava (callSigned J fuel k w n g a)) ∧
    (∀ w n g a, KeepsJava (callSignedVoid J fuel w n g a)) ∧
    (∀ k c m a, KeepsJava (callStaticJavaMethod J fuel k c m a)) ∧
    (∀ k w n g a, KeepsJava (staticCallSigned J fuel k w n g a)) ∧
    (∀ w n g a, KeepsJava (staticCallSignedVoid J fuel w n g a)) ∧
    (∀ p a, KeepsJava (createNew J fuel p a)) ∧
    (∀ t es p, KeepsJava (createJavaMap J fuel t es p)) := by
  intro fuel
  induction fuel with
  | zero =>
    refine ⟨?_, ?_, ?_, ?_, ?_, ?_, ?_, ?_, ?_, ?_, ?_, ?_, ?_⟩
    · unfold checkJniException; simp
    · intro cls; unfold lazyClassName; simp
    · intro w; unfold getClassPath; simp
    · intro k o m a; unfold callJavaMethod; simp
    · intro v; unfold convertToJavaValue; simp
    · intro args; unfold createArguments; simp
    · intro k w n g a; unfold callSigned; simp
    · intro w n g a; unfold callSignedVoid; simp
    · intro k c m a; unfold callStaticJavaMethod; simp
    · intro k w n g a; unfold staticCallSigned; simp
    · intro w n g a; unfold staticCallSignedVoid; simp
    · intro p a; unfold createNew; simp
    · intro t es p; unfold createJavaMap; simp
  | succ fuel ih =>
    obtain ⟨h1, h2, h3, h4, h5, h6, h7, h8, h9, h10, h11, h12, h13⟩ := ih
    refine ⟨?_, ?_, ?_, ?_, ?_, ?_, ?_, ?_, ?_, ?_, ?_, ?_, ?_⟩
    · unfold checkJniException
      repeat' (first
          | intro _
          | with_reducible apply keepsJava_bind
          | with_reducible apply keepsJava_andFinally
          | with_reducible apply keepsJava_onRaise
          | with_reducible apply keepsJava_tryCatch
          | with_reducible apply keepsJava_buildArguments
          | with_reducible apply keepsJava_forEntries
          | (simp [*]; done)
          | split
          | dsimp only)
    · intro cls; unfold lazyClassName
      repeat' (first
          | intro _
          | with_reducible apply keepsJava_bind
          | with_reducible apply keepsJava_andFinally
          | with_reducible apply keepsJava_onRaise
          | with_reducible apply keepsJava_tryCatch
          | with_reducible apply keepsJava_buildArguments
          | with_reducible apply keepsJava_forEntries
          | (simp [*]; done)
          | split
          | dsimp only)
    · intro w; unfold getClassPath
      repeat' (first
          | intro _
          | with_reducible apply keepsJava_bind
          | with_reducible apply keepsJava_andFinally
          | with_reducible apply keepsJava_onRaise
          | with_reducible apply keepsJava_tryCatch
          | with_reducible apply keepsJava_buildArguments
          | with_reducible apply keepsJava_forEntries
          | (simp [*]; done)
          | split
          | dsimp only)
    · intro k o m a; unfold callJavaMethod
      repeat' (first
          | intro _
          | with_reducible apply keepsJava_bind
          | with_reducible apply keepsJava_andFinally
          | with_reducible apply keepsJava_onRaise
          | with_reducible apply keepsJava_tryCatch
          | with_reducible apply keepsJava_buildArguments
          | with_reducible apply keepsJava_forEntries
          | (simp [*]; done)
          | split
          | dsimp only)
    · intro v; unfold convertToJavaValue
      repeat' (first
          | intro _
          | with_reducible apply keepsJava_bind
          | with_reducible apply keepsJava_andFinally
          | with_reducible apply keepsJava_onRaise
          | with_reducible apply keepsJava_tryCatch
          | with_reducible apply keepsJava_buildArguments
          | with_reducible apply keepsJava_forEntries
          | (simp [*]; done)
          | split
          | dsimp only)
    · intro args; unfold createArguments
      repeat' (first
          | intro _
          | with_reducible apply keepsJava_bind
          | with_reducible apply keepsJava_andFinally
          | with_reducible apply keepsJava_onRaise
          | with_reducible apply keepsJava_tryCatch
          | with_reducible apply keepsJava_buildArguments
          | with_reducible apply keepsJava_forEntries
          | (simp [*]; done)
          | split
          | dsimp only)
    · intro k w n g a; unfold callSigned
      repeat' (first
          | intro _
          | with_reducible apply keepsJava_bind
          | with_reducible apply keepsJava_andFinally
          | with_reducible apply keepsJava_onRaise
          | with_reducible apply keepsJava_tryCatch
          | with_reducible apply keepsJava_buildArguments
          | with_reducible apply keepsJava_forEntries
          | (simp [*]; done)
          | split
          | dsimp only)
    · intro w n g a; unfold callSignedVoid
      repeat' (first
          | intro _
          | with_reducible apply keepsJava_bind
          | with_reducible apply keepsJava_andFinally
          | with_reducible apply keepsJava_onRaise
          | with_reducible apply keepsJava_tryCatch
          | with_reducible apply keepsJava_buildArguments
          | with_reducible apply keepsJava_forEntries
          | (simp [*]; done)
          | split
          | dsimp only)
    · intro k c m a; unfold callStaticJavaMethod
      repeat' (first
          | intro _
          | with_reducible apply keepsJava_bind
          | with_reducible apply keepsJava_andFinally
          | with_reducible apply keepsJava_onRaise
          | with_reducible apply keepsJava_tryCatch
          | with_reducible apply keepsJava_buildArguments
          | with_reducible apply keepsJava_forEntries
          | (simp [*]; done)
          | split
          | dsimp only)
    · intro k w n g a; unfold staticCallSigned
      repeat' (first
          | intro _
          | with_reducible apply keepsJava_bind
          | with_reducible apply keepsJava_andFinally
          | with_reducible apply keepsJava_onRaise
          | with_reducible apply keepsJava_tryCatch
          | with_reducible apply keepsJava_buildArguments
          | with_reducible apply keepsJava_forEntries
          | (simp [*]; done)
          | split
          | dsimp only)
    · intro w n g a; unfold staticCallSignedVoid
      repeat' (first
          | intro _
          | with_reducible apply keepsJava_bind
          | with_reducible apply keepsJava_andFinally
          | with_reducible apply keepsJava_onRaise
          | with_reducible apply keepsJava_tryCatch
          | with_reducible apply keepsJava_buildArguments
          | with_reducible apply keepsJava_forEntries
          | (simp [*]; done)
          | split
          | dsimp only)
    · intro p a
      refine ⟨fun s => ?_⟩
      unfold createNew
      dsimp only
      refine KeepsJava.java_eq ?_ s
      repeat' (first
          | intro _
          | with_reducible apply keepsJava_bind
          | with_reducible apply keepsJava_andFinally
          | with_reducible apply keepsJava_onRaise
          | with_reducible apply keepsJava_tryCatch
          | with_reducible apply keepsJava_buildArguments
          | with_reducible apply keepsJava_forEntries
          | (simp [*]; done)
          | split
          | dsimp only)
    · intro t es p; unfold createJavaMap
      repeat' (first
          | intro _
          | with_reducible apply keepsJava_bind
          | with_reducible apply keepsJava_andFinally
          | with_reducible apply keepsJava_onRaise
          | with_reducible apply keepsJava_tryCatch
          | with_reducible apply keepsJava_buildArguments
          | with_reducible apply keepsJava_forEntries
          | (simp [*]; done)
          | split
          | dsimp only)

@[simp] theorem keepsJava_checkJniException (J : Jvm) (fuel : Nat) :
    KeepsJava (checkJniException J fuel) := (keepsJava_block J fuel).1

@[simp] theorem keepsJava_getClassPath (J : Jvm) (fuel : Nat) (w : JniObject) :
    KeepsJava (getClassPath J fuel w) := (keepsJava_block J fuel).2.2.1 w

@[simp] theorem keepsJava_callSigned (J : Jvm) (fuel : Nat) (k : RetKind) (w : JniObject)
    (n g : String) (a : List NativeVal) : KeepsJava (callSigned J fuel k w n g a) :=
  (keepsJava_block J fuel).2.2.2.2.2.2.1 k w n g a

@[simp] theorem keepsJava_staticCallSigned (J : Jvm) (fuel : Nat) (k : RetKind) (w : JniObject)
    (n g : String) (a : List NativeVal) : KeepsJava (staticCallSigned J fuel k w n g a) :=
  (keepsJava_block J fuel).2.2.2.2.2.2.2.2.2.1 k w n g a

@[simp] theorem keepsJava_getJavaStaticField (J : Jvm) (k : RetKind) (c : Ref) (f : Nat) :
    KeepsJava (getJavaStaticField J k c f) := by
  unfold getJavaStaticField
  repeat' (first
    | intro _
    | with_reducible apply keepsJava_bind
    | with_reducible apply keepsJava_andFinally
    | with_reducible apply keepsJava_onRaise
    | with_reducible apply keepsJava_tryCatch
    | (simp [*]; done)
    | split
    | dsimp only)

@[simp] theorem keepsJava_staticFieldSigned (J : Jvm) (fuel : Nat) (k : RetKind) (w : JniObject)
    (n g : String) : KeepsJava (staticFieldSigned J fuel k w n g) := by
  unfold staticFieldSigned
  repeat' (first
    | intro _
    | with_reducible apply keepsJava_bind
    | with_reducible apply keepsJava_andFinally
    | with_reducible apply keepsJava_onRaise
    | with_reducible apply keepsJava_tryCatch
    | (simp [*]; done)
    | split
    | dsimp only)

@[simp] theorem keepsJava_getSignature (J : Jvm) (fuel : Nat) (w : JniObject) :
    KeepsJava (getSignature J fuel w) := by
  unfold getSignature
  repeat' (first
    | intro _
    | with_reducible apply keepsJava_bind
    | with_reducible apply keepsJava_andFinally
    | with_reducible apply keepsJava_onRaise
    | with_reducible apply keepsJava_tryCatch
    | (simp [*]; done)
    | split
    | dsimp only)

@[simp] theorem keepsJava_staticFieldWrapper (J : Jvm) (fuel : Nat) (w : JniObject) (n : String)
    (d : JniObject) : KeepsJava (staticFieldWrapper J fuel w n d) := by
  unfold staticFieldWrapper
  repeat' (first
    | intro _
    | with_reducible apply keepsJava_bind
    | with_reducible apply keepsJava_andFinally
    | with_reducible apply keepsJava_onRaise
    | with_reducible apply keepsJava_tryCatch
    | (simp [*]; done)
    | split
    | dsimp only)

@[simp] theorem keepsJava_staticCallWrapper (J : Jvm) (fuel : Nat) (w : JniObject) (n : String)
    (d : JniObject) : KeepsJava (staticCallWrapper J fuel w n d) := by
  unfold staticCallWrapper
  repeat' (first
    | intro _
    | with_reducible apply keepsJava_bind
    | with_reducible apply keepsJava_andFinally
    | with_reducible apply keepsJava_onRaise
    | with_reducible apply keepsJava_tryCatch
    | (simp [*]; done)
    | split
    | dsimp only)

/-- What `KeepsJava` says of a call that returned. -/
theorem KeepsJava.of_ok {α : Type} {m : M α} (h : KeepsJava m) {s s1 : State} {a : α}
    (hm : m s = .ok a s1) : s1.java = s.java := by
  have := h.java_eq s
  rw [hm] at this
  exact this

/-- What `KeepsJava` says of a call that threw. -/
theorem KeepsJava.of_raise {α : Type} {m : M α} (h : KeepsJava m) {s s1 : State} {e : String}
    (hm : m s = .raise e s1) : s1.java = s.java := by
  have := h.java_eq s
  rw [hm] at this
  exact this

/-- With the runtime installed the destructor returns. -/
theorem destroy_ok (J : Jvm) (w : JniObject) (s : State) (hj : s.java = true) :
    ∃ s1, JniObject.destroy J w s = .ok () s1 := by
  simp only [JniObject.destroy, JniObject.clear, M.bind_apply, M.bind, getEnvironment,
    M.ite_apply, M.pure_apply, DeleteGlobalRef]
  by_cases ht : s.threadEnv = 0 <;>
    by_cases he : J.attachEnv = 0 <;> by_cases hc : w._class.isSet = true <;>
    by_cases hi : w._instance.isSet = true <;> simp [hj, ht, he, hc, hi]

/-- With the runtime installed, the class-path constructor returns. -/
theorem ofClassPath_ok (J : Jvm) (path : String) (s : State) (hj : s.java = true) :
    ∃ cls s1, JniObject.ofClassPath J path Ref.null Ref.null s = .ok cls s1 ∧
      (cls._classPath.isEmpty = true → cls._class.isSet = false) := by
  refine ⟨(JniObject.ofClassPath J path Ref.null Ref.null s).valueD JniObject.fresh,
    (JniObject.ofClassPath J path Ref.null Ref.null s).stateD s, ?_⟩
  have hrd := replaceDots_isEmpty path
  simp only [JniObject.ofClassPath, JniObject.init, JniObject.fresh, M.bind_apply, M.bind,
    getEnvironment, M.ite_apply, M.pure_apply, Jni.getClass, FindClass, logEvent, setPending,
    newLocal, NewGlobalRef, cacheClass, ExceptionClear, Ref.isSet, Ref.null]
  cases hl : s.classes.lookup (replaceDots path) with
  | none =>
    by_cases ht : s.threadEnv = 0 <;> by_cases he : J.attachEnv = 0 <;>
      by_cases hp : path.isEmpty = true <;>
      by_cases hf : (J.findClass (replaceDots path)).id = 0 <;>
      by_cases hth : (J.findClass (replaceDots path)).thrown = 0 <;>
      simp [hj, ht, he, hp, hf, hth, hrd, hl, Res.valueD, Res.stateD]
  | some v =>
    by_cases ht : s.threadEnv = 0 <;> by_cases he : J.attachEnv = 0 <;>
      by_cases hp : path.isEmpty = true <;> by_cases hv : v.obj = 0 <;>
      simp [hj, ht, he, hp, hv, hrd, hl, Res.valueD, Res.stateD]

/-! ## Singletons -/

/-- The class-path constructor stores the normalised path with the class handle. -/
theorem ofClassPath_path (J : Jvm) (path : String) (s s1 : State) (cls : JniObject)
    (h : JniObject.ofClassPath J path Ref.null Ref.null s = .ok cls s1) :
    cls._class.isSet = true → cls._classPath = replaceDots path := by
  have hrd := replaceDots_isEmpty path
  simp only [JniObject.ofClassPath, JniObject.init, JniObject.fresh, M.bind_apply, M.bind,
    getEnvironment, M.ite_apply, M.pure_apply, Jni.getClass, FindClass, logEvent, setPending,
    newLocal, NewGlobalRef, cacheClass, ExceptionClear, Ref.isSet, Ref.null] at h ⊢
  cases hl : s.classes.lookup (replaceDots path) with
  | none =>
    by_cases hj : s.java = false <;>
    by_cases ht : s.threadEnv = 0 <;> by_cases he : J.attachEnv = 0 <;>
      by_cases hp : path.isEmpty = true <;>
      by_cases hf : (J.findClass (replaceDots path)).id = 0 <;>
      by_cases hth : (J.findClass (replaceDots path)).thrown = 0 <;>
      simp [hj, ht, he, hp, hf, hth, hrd, hl] at h <;>
      (obtain ⟨h1, _⟩ := h; subst h1; simp)
  | some v =>
    by_cases hj : s.java = false <;>
    by_cases ht : s.threadEnv = 0 <;> by_cases he : J.attachEnv = 0 <;>
      by_cases hp : path.isEmpty = true <;> by_cases hv : v.obj = 0 <;>
      simp [hj, ht, he, hp, hv, hrd, hl] at h <;>
      (obtain ⟨h1, _⟩ := h; subst h1; simp)

/-- On a wrapper whose class path is stored, or that has no class handle,
`getSignature` is "L" + the stored path + ";" and touches nothing. -/
theorem getSignature_stored (J : Jvm) (fuel : Nat) (w : JniObject)
    (h : w._classPath.isEmpty = true → w._class.isSet = false) :
    getSignature J (fuel + 1) w = pure ("L" ++ w._classPath ++ ";", w) := by
  funext s
  unfold getSignature getClassPath
  by_cases hp : w._classPath.isEmpty = true
  · simp [hp, h hp, M.bind_apply, M.bind, M.pure_apply]
  · simp [hp, M.bind_apply, M.bind, M.pure_apply]

/-- C18: with the runtime installed, `findSingleton(path)` builds the class
wrapper `cls` and reads the static field "instance" with the descriptor
"L" + class path + ";"; if that read returns, `findSingleton` returns its
value.  If it throws, `findSingleton` calls the static method "getInstance"
with the descriptor "()L" + class path + ";" and no arguments, and returns its
result if that call returns.  If both throw, `findSingleton` throws "Could
not find singleton instance."; and whenever `findSingleton` throws, it throws
that message and both attempts threw.  In each case the class wrapper is
destroyed on the way out. -/
theorem findSingleton_spec (J : Jvm) (fuel : Nat) (path : String) (s : State)
    (hj : s.java = true) :
    ∃ cls s1, JniObject.ofClassPath J path Ref.null Ref.null s = .ok cls s1 ∧
      (cls._class.isSet = true → cls._classPath = replaceDots path) ∧
      staticFieldWrapper J (fuel + 1) cls "instance" cls = (do
        let r ← staticFieldSigned J (fuel + 1) .wrapper cls "instance"
          ("L" ++ cls._classPath ++ ";")
        pure r.toWrapper) ∧
      staticCallWrapper J (fuel + 1) cls "getInstance" cls = (do
        let r ← staticCallSigned J (fuel + 1) .wrapper cls "getInstance"
          ("(" ++ ")" ++ ("L" ++ cls._classPath ++ ";")) []
        pure r.toWrapper) ∧
      (∀ r s2, staticFieldWrapper J (fuel + 1) cls "instance" cls s1 = .ok r s2 →
        ∃ s3, JniObject.destroy J cls s2 = .ok () s3 ∧
          findSingleton J (fuel + 1) path s = .ok r s3) ∧
      (∀ e s2 r s3, staticFieldWrapper J (fuel + 1) cls "instance" cls s1 = .raise e s2 →
        staticCallWrapper J (fuel + 1) cls "getInstance" cls s2 = .ok r s3 →
        ∃ s4, JniObject.destroy J cls s3 = .ok () s4 ∧
          findSingleton J (fuel + 1) path s = .ok r s4) ∧
      (∀ e s2 e2 s3, staticFieldWrapper J (fuel + 1) cls "instance" cls s1 = .raise e s2 →
        staticCallWrapper J (fuel + 1) cls "getInstance" cls s2 = .raise e2 s3 →
        ∃ s4, JniObject.destroy J cls s3 = .ok () s4 ∧
          findSingleton J (fuel + 1) path s
            = .raise "Could not find singleton instance." s4) ∧
      (∀ e s4, findSingleton J (fuel + 1) path s = .raise e s4 →
        e = "Could not find singleton instance." ∧
        ∃ e1 s2 e2 s3,
          staticFieldWrapper J (fuel + 1) cls "instance" cls s1 = .raise e1 s2 ∧
          staticCallWrapper J (fuel + 1) cls "getInstance" cls s2 = .raise e2 s3) := by
  obtain ⟨cls, s1, hctor, hcp⟩ := ofClassPath_ok J path s hj
  have hj1 : s1.java = true := by
    rw [(keepsJava_ofClassPath J path Ref.null Ref.null).of_ok hctor]; exact hj
  have hfs : findSingleton J (fuel + 1) path s
      = M.andFinally
          (M.tryCatch (staticFieldWrapper J (fuel + 1) cls "instance" cls)
            (M.tryCatch (staticCallWrapper J (fuel + 1) cls "getInstance" cls)
              (throwJni "Could not find singleton instance.")))
          (JniObject.destroy J cls) s1 := by
    unfold findSingleton
    rw [M.bind_of_ok _ _ s s1 cls hctor]
  have hsig := getSignature_stored J fuel cls hcp
  refine ⟨cls, s1, hctor, ofClassPath_path J path s s1 cls hctor, ?_, ?_, ?_, ?_, ?_, ?_⟩
  · funext t
    unfold staticFieldWrapper
    rw [hsig]
    rfl
  · funext t
    unfold staticCallWrapper
    rw [hsig]
    rfl
  · intro r s2 h1
    have hj2 : s2.java = true := by
      rw [(keepsJava_staticFieldWrapper J _ cls "instance" cls).of_ok h1]; exact hj1
    obtain ⟨s3, hd⟩ := destroy_ok J cls s2 hj2
    refine ⟨s3, hd, ?_⟩
    rw [hfs]
    simp [M.andFinally, M.tryCatch, h1, hd]
  · intro e s2 r s3 h1 h2
    have hj2 : s2.java = true := by
      rw [(keepsJava_staticFieldWrapper J _ cls "instance" cls).of_raise h1]; exact hj1
    have hj3 : s3.java = true := by
      rw [(keepsJava_staticCallWrapper J _ cls "getInstance" cls).of_ok h2]; exact hj2
    obtain ⟨s4, hd⟩ := destroy_ok J cls s3 hj3
    refine ⟨s4, hd, ?_⟩
    rw [hfs]
    simp [M.andFinally, M.tryCatch, h1, h2, hd]
  · intro e s2 e2 s3 h1 h2
    have hj2 : s2.java = true := by
      rw [(keepsJava_staticFieldWrapper J _ cls "instance" cls).of_raise h1]; exact hj1
    have hj3 : s3.java = true := by
      rw [(keepsJava_staticCallWrapper J _ cls "getInstance" cls).of_raise h2]; exact hj2
    obtain ⟨s4, hd⟩ := destroy_ok J cls s3 hj3
    refine ⟨s4, hd, ?_⟩
    rw [hfs]
    simp [M.andFinally, M.tryCatch, h1, h2, hd, throwJni]
  · intro e s4 h
    rw [hfs] at h
    cases h1 : staticFieldWrapper J (fuel + 1) cls "instance" cls s1 with
    | ok r s2 =>
      have hj2 : s2.java = true := by
        rw [(keepsJava_staticFieldWrapper J _ cls "instance" cls).of_ok h1]; exact hj1
      obtain ⟨s3, hd⟩ := destroy_ok J cls s2 hj2
      simp [M.andFinally, M.tryCatch, h1, hd] at h
    | raise e1 s2 =>
      have hj2 : s2.java = true := by
        rw [(keepsJava_staticFieldWrapper J _ cls "instance" cls).of_raise h1]; exact hj1
      cases h2 : staticCallWrapper J (fuel + 1) cls "getInstance" cls s2 with
      | ok r s3 =>
        have hj3 : s3.java = true := by
          rw [(keepsJava_staticCallWrapper J _ cls "getInstance" cls).of_ok h2]; exact hj2
        obtain ⟨s5, hd⟩ := destroy_ok J cls s3 hj3
        simp [M.andFinally, M.tryCatch, h1, h2, hd] at h
      | raise e2 s3 =>
        have hj3 : s3.java = true := by
          rw [(keepsJava_staticCallWrapper J _ cls "getInstance" cls).of_raise h2]; exact hj2
        obtain ⟨s5, hd⟩ := destroy_ok J cls s3 hj3
        simp [M.andFinally, M.tryCatch, h1, h2, hd, throwJni] at h
        exact ⟨h.1.symm, e1, s2, e2, s3, rfl, h2⟩
      | outside w => simp [M.andFinally, M.tryCatch, h1, h2] at h
      | timeout => simp [M.andFinally, M.tryCatch, h1, h2] at h
    | outside w => simp [M.andFinally, M.tryCatch, h1] at h
    | timeout => simp [M.andFinally, M.tryCatch, h1] at h

/-! ## Sequences to foreign arrays and back -/

/-- C20 (defect): for every sequence of 32-bit integers, the empty one included,
with the runtime installed and an environment at hand: the array for an `int`
element is allocated as an array of `long` (`NewLongArray`, as for a `long`
element), `setJavaArrayElements` then hands it to `SetIntArrayRegion`, which
the runtime defines for `int` arrays only; so `createJavaArray`, and with it
the round trip through `convertFromJavaArray`, leaves defined behaviour
instead of returning the sequence. -/
theorem createJavaArray_int_mismatch (J : Jvm) (xs : List Int) (s : State)
    (hj : s.java = true) (he : envOf J s ≠ 0) :
    (∀ i n, createJavaArrayOf J (.int i) n = NewArray .long n (.j 0)) ∧
    (∀ arr, setJavaArrayElements arr .int (xs.map NativeVal.int)
      = SetArrayRegion .int arr 0 ((xs.map NativeVal.int).map NativeVal.slot)) ∧
    createJavaArray J .int (xs.map NativeVal.int) s
      = .outside "Set<Kind>ArrayRegion on an array of another element kind" ∧
    roundTrip J .int (xs.map NativeVal.int) s
      = .outside "Set<Kind>ArrayRegion on an array of another element kind" := by
  have hc : createJavaArray J .int (xs.map NativeVal.int) s
      = .outside "Set<Kind>ArrayRegion on an array of another element kind" := by
    unfold createJavaArray
    rw [M.bind_of_ok _ _ s (afterEnv J s) (envOf J s) (by simp [getEnvironment_eq, hj])]
    simp only [he, if_false]
    cases xs with
    | nil =>
      simp [M.bind_apply, M.bind, createJavaArrayOf, NativeType.defaultValue, NewArray, newLocal,
        setJavaArrayElements, SetArrayRegion, List.lookup]
    | cons x xs =>
      simp [M.bind_apply, M.bind, createJavaArrayOf, NewArray, newLocal,
        setJavaArrayElements, SetArrayRegion, List.lookup]
  refine ⟨fun _ _ => rfl, fun _ => rfl, hc, ?_⟩
  unfold roundTrip
  simp only [M.bind_apply, M.bind, hc]

/-! ## Witnesses and counterexamples on the sample runtime -/

/-- Witness for `getClass_cache_frame`: resolving `java/lang/String` with the
cache flag set, in the sample state that has `com/example/Counter` cached,
keeps that entry. -/
theorem getClass_cache_frame_witness :
    Sample.counterClassState.classes.lookup "com/example/Counter" = some ⟨20, 2⟩ ∧
    ((Jni.getClass Sample.jvm "java/lang/String" true Sample.counterClassState).stateD
      Sample.counterClassState).classes.lookup "com/example/Counter" = some ⟨20, 2⟩ ∧
    ((Jni.getClass Sample.jvm "java/lang/String" false Sample.counterClassState).stateD
      Sample.counterClassState).classes = Sample.counterClassState.classes :=
  ⟨by decide!,
   (getClass_cache_frame Sample.jvm "java/lang/String" Sample.counterClassState).2.2
      true "com/example/Counter" ⟨20, 2⟩ (by decide!),
   (getClass_cache_frame Sample.jvm "java/lang/String" Sample.counterClassState).1⟩

/-- Witness for `getClass_unresolved`: a path the sample runtime does not resolve. -/
theorem getClass_unresolved_witness :
    ∃ s2, Jni.getClass Sample.jvm "no/such/Class" true Sample.state = .ok Ref.null s2 ∧
      s2.pending = 0 ∧ s2.classes = Sample.state.classes :=
  getClass_unresolved Sample.jvm "no/such/Class" true Sample.state
    (by decide) (by decide) (by decide) (by decide)

/-- Witness for `getEnvironment_spec`: the sample state, attached, and the same
state with an empty thread slot. -/
theorem getEnvironment_spec_witness :
    getEnvironment Sample.jvm Sample.state = .ok Sample.state.threadEnv Sample.state ∧
    getEnvironment Sample.jvm { Sample.state with threadEnv := 0 }
      = .ok 1 { Sample.state with threadEnv := 1, log := [.attachCurrentThread] } ∧
    getEnvironment Sample.jvm { Sample.state with java := false }
      = .raise "Jni::onLoad not called." { Sample.state with java := false } :=
  ⟨(getEnvironment_spec Sample.jvm Sample.state).2.2.2.1 (by decide) (by decide),
   (getEnvironment_spec Sample.jvm { Sample.state with threadEnv := 0 }).2.2.1
      (by decide) (by decide),
   (getEnvironment_spec Sample.jvm { Sample.state with java := false }).2.1 (by decide)⟩

/-- Witness for `equals_spec`: the sample wrapper and a copy of it, which hold
different references to the same object; and two class-only wrappers. -/
theorem equals_spec_witness :
    JniObject.equals Sample.jvm Sample.counter ⟨⟨20, 4⟩, ⟨100, 5⟩, "com/example/Counter"⟩
        Sample.counterState
      = .ok true (afterEnv Sample.jvm Sample.counterState) ∧
    (JniObject.equals Sample.jvm Sample.counterClass ⟨⟨20, 9⟩, Ref.null, ""⟩
        Sample.counterClassState
      = .ok true (afterEnv Sample.jvm Sample.counterClassState) ↔
      Sample.counterClass._class.obj = 20) :=
  ⟨(equals_spec Sample.jvm Sample.counter ⟨⟨20, 4⟩, ⟨100, 5⟩, "com/example/Counter"⟩
      Sample.counterState (by decide!) (by decide!)).2.2.1 (by decide!) (by decide!),
   (equals_spec Sample.jvm Sample.counterClass ⟨⟨20, 9⟩, Ref.null, ""⟩
      Sample.counterClassState (by decide!) (by decide!)).2.2.2 (by decide!) (by decide)⟩

/-- Witness for `clear_spec`: clearing the sample wrapper. -/
theorem clear_spec_witness :
    ∃ w1 s1, JniObject.clear Sample.jvm Sample.counter Sample.counterState = .ok w1 s1 ∧
      w1._class.isSet = false ∧ w1._instance.isSet = false ∧
      w1._classPath = Sample.counter._classPath ∧
      s1.log = (afterEnv Sample.jvm Sample.counterState).log
        ++ (if Sample.counter._class.isSet then [Event.deleteGlobalRef Sample.counter._class]
            else [])
        ++ (if Sample.counter._instance.isSet
            then [Event.deleteGlobalRef Sample.counter._instance] else []) ∧
      s1.globals = (if Sample.counter._instance.isSet
        then (if Sample.counter._class.isSet
          then Sample.counterState.globals.erase Sample.counter._class
          else Sample.counterState.globals).erase Sample.counter._instance
        else (if Sample.counter._class.isSet
          then Sample.counterState.globals.erase Sample.counter._class
          else Sample.counterState.globals)) ∧
      JniObject.clear Sample.jvm w1 s1 = .ok w1 s1 :=
  clear_spec Sample.jvm Sample.counter Sample.counterState (by decide!) (by decide!)

/-- C16, counterexample: the class-only sample wrapper, cleared, keeps its class
path and holds no reference; copy-constructing from it resolves the class
path again, so the copy holds a class reference and `c == w` is false. -/
theorem copy_of_cleared_counterexample :
    ∃ w s c s1,
      JniObject.clear Sample.jvm Sample.counterClass Sample.counterClassState = .ok w s ∧
      w = ⟨Ref.null, Ref.null, "com/example/Counter"⟩ ∧
      JniObject.copy Sample.jvm w s = .ok c s1 ∧
      c = ⟨⟨20, 4⟩, Ref.null, "com/example/Counter"⟩ ∧
      JniObject.equals Sample.jvm c w s1 = .ok false s1 :=
  ⟨(JniObject.clear Sample.jvm Sample.counterClass Sample.counterClassState).valueD
      JniObject.fresh,
   (JniObject.clear Sample.jvm Sample.counterClass Sample.counterClassState).stateD Sample.state,
   ⟨⟨20, 4⟩, Ref.null, "com/example/Counter"⟩,
   (JniObject.copy Sample.jvm ⟨Ref.null, Ref.null, "com/example/Counter"⟩
      ((JniObject.clear Sample.jvm Sample.counterClass Sample.counterClassState).stateD
        Sample.state)).stateD Sample.state,
   by decide!, by decide!, by decide!, rfl, by decide!⟩

/-- The pinned references of the sample state around the `Counter` object were
handed out before. -/
theorem Sample.counterState_freshIds : FreshIds Sample.counterState := by
  unfold FreshIds
  decide!

/-- Witness for `copy_spec`: copying the sample wrapper. -/
theorem copy_spec_witness :
    ∃ c s1, JniObject.copy Sample.jvm Sample.counter Sample.counterState = .ok c s1 ∧
      c._class.obj = Sample.counter._class.obj ∧
      c._instance.obj = Sample.counter._instance.obj ∧
      (Sample.counter._class.isSet = true →
        c._class ∉ Sample.counterState.globals ∧ c._class ∈ s1.globals) ∧
      (Sample.counter._instance.isSet = true →
        c._instance ∉ Sample.counterState.globals ∧ c._instance ∈ s1.globals) ∧
      c._classPath = replaceDots Sample.counter._classPath ∧
      JniObject.equals Sample.jvm c Sample.counter s1 = .ok true s1 ∧
      ∃ c2 s2, JniObject.clear Sample.jvm c s1 = .ok c2 s2 ∧
        s2.globals = Sample.counterState.globals :=
  copy_spec Sample.jvm Sample.counter Sample.counterState (by decide!) (by decide!)
    Sample.counterState_freshIds (Or.inl (by decide!))

/-- The sample runtime reports a class for every object. -/
theorem Sample.objectClass_ne_zero (o : Nat) (h : o ≠ 0) : Sample.jvm.objectClass o ≠ 0 := by
  show Sample.objectClass o ≠ 0
  unfold Sample.objectClass
  rw [if_neg h]
  repeat' split
  all_goals decide

/-- Witness for `reachable_hasClassIfObject`: the sample wrapper, built by the
class-path constructor around the `Counter` object. -/
theorem reachable_hasClassIfObject_witness : Sample.counter._class.isSet = true :=
  reachable_hasClassIfObject Sample.jvm Sample.objectClass_ne_zero Sample.counter
    (Reachable.ofClassPath "com.example.Counter" ⟨100, 0⟩ Ref.null Sample.state
      Sample.counterState Sample.counter (by decide!))
    (by decide!)

/-- Witness for `createJavaArray_int_mismatch`: the sequence `[1, 2, 3]` of 32-bit
integers in the sample state; the same sequence of `long` and a sequence of
`uint8_t` make the round trip, and so does the empty sequence of `long`. -/
theorem createJavaArray_int_mismatch_witness :
    roundTrip Sample.jvm .int [.int 1, .int 2, .int 3] Sample.state
      = .outside "Set<Kind>ArrayRegion on an array of another element kind" ∧
    roundTrip Sample.jvm .long [.long 1, .long 2, .long 3] Sample.state
      = .ok (true, [.long 1, .long 2, .long 3])
          ((roundTrip Sample.jvm .long [.long 1, .long 2, .long 3] Sample.state).stateD
            Sample.state) ∧
    roundTrip Sample.jvm .uint8 [.uint8 7, .uint8 255] Sample.state
      = .ok (true, [.uint8 7, .uint8 255])
          ((roundTrip Sample.jvm .uint8 [.uint8 7, .uint8 255] Sample.state).stateD
            Sample.state) ∧
    roundTrip Sample.jvm .long [] Sample.state
      = .ok (true, [])
          ((roundTrip Sample.jvm .long [] Sample.state).stateD Sample.state) :=
  ⟨(createJavaArray_int_mismatch Sample.jvm [1, 2, 3] Sample.state (by decide) (by decide)).2.2.2,
   rfl, rfl, rfl⟩

/-- Witness for `findSingleton_spec`: in the sample runtime `Registry` has a
static `getInstance()` and no `instance` field, and its singleton, object 600,
is found through the second attempt; `Config` has the field, and its
singleton, object 700, is found through the first; `Counter` has neither. -/
theorem findSingleton_spec_witness :
    (∃ s2 s3 s4,
      staticFieldWrapper Sample.jvm 10 ⟨⟨60, 3⟩, Ref.null, "com/example/Registry"⟩ "instance"
        ⟨⟨60, 3⟩, Ref.null, "com/example/Registry"⟩
        ((JniObject.ofClassPath Sample.jvm "com.example.Registry" Ref.null Ref.null
          Sample.state).stateD Sample.state) = .raise "java.lang.NoSuchFieldError: boom" s2 ∧
      staticCallWrapper Sample.jvm 10 ⟨⟨60, 3⟩, Ref.null, "com/example/Registry"⟩ "getInstance"
        ⟨⟨60, 3⟩, Ref.null, "com/example/Registry"⟩ s2
        = .ok ⟨⟨60, 17⟩, ⟨600, 18⟩, ""⟩ s3 ∧
      findSingleton Sample.jvm 10 "com.example.Registry" Sample.state
        = .ok ⟨⟨60, 17⟩, ⟨600, 18⟩, ""⟩ s4) ∧
    (∃ s4, findSingleton Sample.jvm 10 "com.example.Config" Sample.state
        = .ok ⟨⟨70, 8⟩, ⟨700, 9⟩, ""⟩ s4) ∧
    (∃ s4, findSingleton Sample.jvm 10 "com.example.Counter" Sample.state
        = .raise "Could not find singleton instance." s4) ∧
    ∃ cls s1, JniObject.ofClassPath Sample.jvm "com.example.Registry" Ref.null Ref.null
        Sample.state = .ok cls s1 ∧
      ∀ e s2 r s3, staticFieldWrapper Sample.jvm (9 + 1) cls "instance" cls s1 = .raise e s2 →
        staticCallWrapper Sample.jvm (9 + 1) cls "getInstance" cls s2 = .ok r s3 →
        ∃ s4, JniObject.destroy Sample.jvm cls s3 = .ok () s4 ∧
          findSingleton Sample.jvm (9 + 1) "com.example.Registry" Sample.state = .ok r s4 :=
  ⟨⟨(staticFieldWrapper Sample.jvm 10 ⟨⟨60, 3⟩, Ref.null, "com/example/Registry"⟩ "instance"
        ⟨⟨60, 3⟩, Ref.null, "com/example/Registry"⟩
        ((JniObject.ofClassPath Sample.jvm "com.example.Registry" Ref.null Ref.null
          Sample.state).stateD Sample.state)).stateD Sample.state,
     (staticCallWrapper Sample.jvm 10 ⟨⟨60, 3⟩, Ref.null, "com/example/Registry"⟩ "getInstance"
        ⟨⟨60, 3⟩, Ref.null, "com/example/Registry"⟩
        ((staticFieldWrapper Sample.jvm 10 ⟨⟨60, 3⟩, Ref.null, "com/example/Registry"⟩
          "instance" ⟨⟨60, 3⟩, Ref.null, "com/example/Registry"⟩
          ((JniObject.ofClassPath Sample.jvm "com.example.Registry" Ref.null Ref.null
            Sample.state).stateD Sample.state)).stateD Sample.state)).stateD Sample.state,
     (findSingleton Sample.jvm 10 "com.example.Registry" Sample.state).stateD Sample.state,
     by decide!, by decide!, by decide!⟩,
   ⟨(findSingleton Sample.jvm 10 "com.example.Config" Sample.state).stateD Sample.state,
     by decide!⟩,
   ⟨(findSingleton Sample.jvm 10 "com.example.Counter" Sample.state).stateD Sample.state,
     by decide!⟩,
   (findSingleton_spec Sample.jvm 9 "com.example.Registry" Sample.state (by decide)).imp
     fun _ h => h.imp fun _ h => ⟨h.1, h.2.2.2.2.2.1⟩⟩

/-! ## Foreign arrays to native sequences and maps -/

/-- The loop of `convertFromJavaArray` appends the decoded elements to what it has. -/
theorem decodeEach_eq (decode : Ref → Nat → M (Bool × NativeVal)) (arr : Ref)
    (is : List Nat) (acc : List NativeVal) :
    decodeEach decode arr is acc = (do
      let es ← decodedAt decode arr is
      pure (acc ++ es)) := by
  induction is generalizing acc with
  | nil =>
    funext s
    simp [decodeEach, decodedAt, M.bind_apply, M.bind, M.pure_apply]
  | cons i is ih =>
    funext s
    simp only [decodeEach, decodedAt, M.bind_apply, M.bind, M.pure_apply, ih]
    cases h : decode arr i s with
    | ok a s1 =>
      obtain ⟨b, e⟩ := a
      simp only
      cases h2 : decodedAt decode arr is s1 <;> simp
    | raise e s1 => rfl
    | outside w => rfl
    | timeout => rfl

/-- A numeric decoder on an array of its own kind reads the slot and changes nothing. -/
theorem convertFromJavaArrayElement_numeric (J : Jvm) (t : NativeType) (k : ArrayKind)
    (hk : t.regionKind = some k) (arr : Ref) (a : JArray) (s : State)
    (hl : s.arrays.lookup arr.obj = some a) (hkind : a.kind = k) (i : Nat) (v : JValue)
    (hv : a.elems.get? i = some v) :
    convertFromJavaArrayElement J t arr i s = .ok (true, t.ofSlot v) s := by
  cases t <;> simp [NativeType.regionKind] at hk <;> subst hk <;>
    simp only [convertFromJavaArrayElement, M.bind_apply, M.bind, GetArrayRegion1, hl, hkind,
      if_true, hv, M.pure_apply, scalarOr] <;>
    cases v <;> rfl

/-- Decoding the indices of a suffix of a numeric array yields that suffix. -/
theorem decodedAt_numeric (J : Jvm) (t : NativeType) (k : ArrayKind)
    (hk : t.regionKind = some k) (arr : Ref) (a : JArray) (s : State)
    (hl : s.arrays.lookup arr.obj = some a) (hkind : a.kind = k)
    (rest pre : List JValue) (hsplit : a.elems = pre ++ rest) :
    decodedAt (convertFromJavaArrayElement J t) arr (List.range' pre.length rest.length) s
      = .ok (rest.map t.ofSlot) s := by
  induction rest generalizing pre with
  | nil => rfl
  | cons v rest ih =>
    have hv : a.elems.get? pre.length = some v := by
      rw [hsplit, List.get?_eq_getElem?, List.getElem?_append_right (le_refl _)]; simp
    have h1 := convertFromJavaArrayElement_numeric J t k hk arr a s hl hkind pre.length v hv
    have h2 := ih (pre ++ [v]) (by rw [hsplit]; simp)
    simp only [List.length_append, List.length_singleton] at h2
    simp only [List.length_cons, List.range'_succ, decodedAt, M.bind_apply, M.bind, h1, h2,
      M.pure_apply, List.map_cons]

/-- On a non-null array `convertFromJavaArray` reads the length, decodes the indices
below it in order and appends the elements. -/
theorem convertFromJavaArrayWith_eq (decode : Ref → Nat → M (Bool × NativeVal)) (arr : Ref)
    (container : List NativeVal) (h : arr.isSet = true) :
    convertFromJavaArrayWith decode arr container = (do
      let n ← GetArrayLength arr
      let es ← decodedAt decode arr (List.range n)
      pure (true, container ++ es)) := by
  funext s
  simp only [convertFromJavaArrayWith, h, Bool.not_true, Bool.false_eq_true, if_false,
    decodeEach_eq, M.bind_apply, M.bind, M.pure_apply]
  cases GetArrayLength arr s with
  | ok n s1 =>
    simp only
    cases decodedAt decode arr (List.range n) s1 <;> rfl
  | raise e s1 => rfl
  | outside w => rfl
  | timeout => rfl

/-- C23: on a null array handle `convertFromJavaArray` returns `false` and the
container as it was.  On a non-null handle it reads the length `N` the runtime
reports, decodes the indices `0 .. N-1` in that order and returns `true` with
the container followed by the decoded elements; for a numeric element type
and an array of that kind the result is the container followed by the
array's elements in array order, with the state unchanged. -/
theorem convertFromJavaArray_spec (decode : Ref → Nat → M (Bool × NativeVal)) (arr : Ref)
    (container : List NativeVal) :
    (arr.isSet = false →
      convertFromJavaArrayWith decode arr container = pure (false, container)) ∧
    (arr.isSet = true →
      convertFromJavaArrayWith decode arr container = (do
        let n ← GetArrayLength arr
        let es ← decodedAt decode arr (List.range n)
        pure (true, container ++ es))) ∧
    (∀ (J : Jvm) (t : NativeType) (k : ArrayKind) (a : JArray) (s : State),
      arr.isSet = true → t.regionKind = some k → s.arrays.lookup arr.obj = some a →
      a.kind = k →
      convertFromJavaArray J t arr container s
        = .ok (true, container ++ a.elems.map t.ofSlot) s) := by
  refine ⟨?_, convertFromJavaArrayWith_eq decode arr container, ?_⟩
  · intro h
    simp [convertFromJavaArrayWith, h]
  · intro J t k a s h hk hl hkind
    have h3 := decodedAt_numeric J t k hk arr a s hl hkind a.elems [] rfl
    simp only [List.length_nil] at h3
    have hr : List.range a.elems.length = List.range' 0 a.elems.length :=
      List.range_eq_range' _
    unfold convertFromJavaArray
    rw [convertFromJavaArrayWith_eq _ arr container h]
    simp only [M.bind_apply, M.bind, GetArrayLength, hl, hr, h3, M.pure_apply]

/-- The loop of `convertToMapFromJavaArray` assigns the decoded pairs in order. -/
theorem mapPairsLoop_eq (lt : NativeVal → NativeVal → Bool)
    (decodeK decodeV : Ref → Nat → M (Bool × NativeVal)) (arr : Ref)
    (is : List Nat) (out : List (NativeVal × NativeVal)) :
    mapPairsLoop lt decodeK decodeV arr is out = (do
      let ps ← decodedPairsAt decodeK decodeV arr is
      pure (updatedWith lt ps out)) := by
  induction is generalizing out with
  | nil => rfl
  | cons i is ih =>
    funext s
    simp only [mapPairsLoop, decodedPairsAt, M.bind_apply, M.bind, M.pure_apply, ih]
    cases h : decodeK arr (i * 2) s with
    | ok a s1 =>
      obtain ⟨okK, k⟩ := a
      cases okK with
      | false =>
        simp only [Bool.false_eq_true, if_false, M.bind_apply, M.bind, M.pure_apply]
      | true =>
        simp only [if_true, M.bind_apply, M.bind]
        cases h2 : decodeV arr (i * 2 + 1) s1 with
        | ok b s2 =>
          obtain ⟨okV, v⟩ := b
          cases okV <;> simp only [Bool.false_eq_true, if_false, if_true, M.bind_apply, M.bind,
            M.pure_apply] <;>
            cases decodedPairsAt decodeK decodeV arr is s2 <;> rfl
        | raise e s2 => rfl
        | outside w => rfl
        | timeout => rfl
    | raise e s1 => rfl
    | outside w => rfl
    | timeout => rfl

/-- With decoders that succeed at every index of the array and leave the state as it
is, the loop folds the assignment over the pairs. -/
theorem mapPairsLoop_pure (lt : NativeVal → NativeVal → Bool)
    (decodeK decodeV : Ref → Nat → M (Bool × NativeVal)) (arr : Ref) (s : State) (n : Nat)
    (key val : Nat → NativeVal)
    (hK : ∀ i, i < n → decodeK arr i s = .ok (true, key i) s)
    (hV : ∀ i, i < n → decodeV arr i s = .ok (true, val i) s)
    (is : List Nat) (his : ∀ i ∈ is, i * 2 + 1 < n) (out : List (NativeVal × NativeVal)) :
    mapPairsLoop lt decodeK decodeV arr is out s
      = .ok (updatedWith lt (is.map (fun i => (key (i * 2), val (i * 2 + 1)))) out) s := by
  induction is generalizing out with
  | nil => rfl
  | cons i is ih =>
    have hi := his i (List.mem_cons_self _ _)
    have h1 := hK (i * 2) (by omega)
    have h2 := hV (i * 2 + 1) hi
    have h3 := ih (fun j hj => his j (List.mem_cons_of_mem _ hj)) (mapAssign lt (key (i * 2)) (val (i * 2 + 1)) out)
    simp only [mapPairsLoop, M.bind_apply, M.bind, h1, h2, if_true, h3, List.map_cons,
      updatedWith, List.foldl_cons]

/-- C24: on a null array `convertToMapFromJavaArray` returns `false` and the map
as it was.  On a non-null array of length `n` it returns `true` and the map
updated, for `i = 0 .. n/2 - 1` in that order, with the pair decoded from the
elements `2i` and `2i + 1`, a later pair overwriting the value of an
equivalent key; with `n` odd the last element is never read.  This is shown
for decoders in general (a pair one of whose halves does not decode is
skipped), for decoders that succeed at every index and leave the state alone,
and for the numeric element types on an array of their kind. -/
theorem convertToMapFromJavaArray_spec (lt : NativeVal → NativeVal → Bool)
    (decodeK decodeV : Ref → Nat → M (Bool × NativeVal)) (arr : Ref)
    (out : List (NativeVal × NativeVal)) (s : State) :
    (arr.isSet = false →
      convertToMapFromJavaArrayWith lt decodeK decodeV arr out s = .ok (false, out) s) ∧
    (arr.isSet = true →
      convertToMapFromJavaArrayWith lt decodeK decodeV arr out = (do
        let n ← GetArrayLength arr
        let ps ← decodedPairsAt decodeK decodeV arr (List.range (n / 2))
        pure (true, updatedWith lt ps out))) ∧
    (∀ (a : JArray) (key val : Nat → NativeVal), arr.isSet = true →
      s.arrays.lookup arr.obj = some a →
      (∀ i, i < a.elems.length → decodeK arr i s = .ok (true, key i) s) →
      (∀ i, i < a.elems.length → decodeV arr i s = .ok (true, val i) s) →
      convertToMapFromJavaArrayWith lt decodeK decodeV arr out s
        = .ok (true, updatedWith lt
            ((List.range (a.elems.length / 2)).map (fun i => (key (i * 2), val (i * 2 + 1))))
            out) s) ∧
    (∀ (J : Jvm) (kt vt : NativeType) (k : ArrayKind) (a : JArray), arr.isSet = true →
      kt.regionKind = some k → vt.regionKind = some k →
      s.arrays.lookup arr.obj = some a → a.kind = k →
      convertToMapFromJavaArray J lt kt vt arr out s
        = .ok (true, updatedWith lt
            (slotPairs kt vt a.elems (List.range (a.elems.length / 2))) out) s) := by
  have key2 : ∀ (dK dV : Ref → Nat → M (Bool × NativeVal)) (a : JArray)
      (key val : Nat → NativeVal), arr.isSet = true →
      s.arrays.lookup arr.obj = some a →
      (∀ i, i < a.elems.length → dK arr i s = .ok (true, key i) s) →
      (∀ i, i < a.elems.length → dV arr i s = .ok (true, val i) s) →
      convertToMapFromJavaArrayWith lt dK dV arr out s
        = .ok (true, updatedWith lt
            ((List.range (a.elems.length / 2)).map (fun i => (key (i * 2), val (i * 2 + 1))))
            out) s := by
    intro dK dV a key val h hl hK hV
    have hloop := mapPairsLoop_pure lt dK dV arr s a.elems.length key val hK hV
      (List.range (a.elems.length / 2))
      (by
        intro i hi
        have := List.mem_range.1 hi
        omega) out
    simp only [convertToMapFromJavaArrayWith, h, Bool.not_true, Bool.false_eq_true, if_false,
      M.bind_apply, M.bind, GetArrayLength, hl, hloop, M.pure_apply]
  refine ⟨?_, ?_, key2 decodeK decodeV, ?_⟩
  · intro h
    simp [convertToMapFromJavaArrayWith, h, M.pure_apply]
  · intro h
    funext t
    simp only [convertToMapFromJavaArrayWith, h, Bool.not_true, Bool.false_eq_true, if_false,
      mapPairsLoop_eq, M.bind_apply, M.bind, M.pure_apply]
    cases GetArrayLength arr t with
    | ok n s1 =>
      simp only
      cases decodedPairsAt decodeK decodeV arr (List.range (n / 2)) s1 <;> rfl
    | raise e s1 => rfl
    | outside w => rfl
    | timeout => rfl
  · intro J kt vt k a h hkt hvt hl hkind
    have hget : ∀ i, i < a.elems.length →
        a.elems.get? i = some (a.elems.getD i (.l Ref.null)) := by
      intro i hi
      simp [List.getD, List.get?_eq_getElem?, List.getElem?_eq_getElem hi]
    have := key2 (convertFromJavaArrayElement J kt) (convertFromJavaArrayElement J vt) a
      (fun i => kt.ofSlot (a.elems.getD i (.l Ref.null)))
      (fun i => vt.ofSlot (a.elems.getD i (.l Ref.null))) h hl
      (fun i hi => convertFromJavaArrayElement_numeric J kt k hkt arr a s hl hkind i _ (hget i hi))
      (fun i hi => convertFromJavaArrayElement_numeric J vt k hvt arr a s hl hkind i _ (hget i hi))
    exact this

/-! ## The arrays `createJavaArray` allocates -/

/-- C22 (defect): the array `createJavaArray` allocates has the length asked for
and the element kind of the element type for `double`, `long`, `float`,
`uint8_t` (byte), strings (object array of the class `FindClass` gives for
`java/lang/String`) and wrappers (object array of the wrapper's class), but
for a 32-bit `int` element the array is a `long` array; the elements are then
written with the region setter of the element type (`SetIntArrayRegion` for
`int`) or, for strings and wrappers, per index. -/
theorem createJavaArray_allocation (J : Jvm) (size : Nat) (s : State) :
    allocated (createJavaArrayOfDouble size s) = some (.double, size) ∧
    (∀ i, allocated (createJavaArrayOf J (.long i) size s) = some (.long, size)) ∧
    (∀ b, allocated (createJavaArrayOf J (.float b) size s) = some (.float, size)) ∧
    (∀ i, allocated (createJavaArrayOf J (.int i) size s) = some (.long, size)) ∧
    (∀ n, allocated (createJavaArrayOf J (.uint8 n) size s) = some (.byte, size)) ∧
    (∀ str, allocated (createJavaArrayOf J (.string str) size s)
      = some (.object (J.findClass "java/lang/String").id, size)) ∧
    (∀ w, allocated (createJavaArrayOf J (.wrapper w) size s)
      = some (.object w._class.obj, size)) ∧
    (∀ arr xs, setJavaArrayElementsDouble arr xs
      = SetArrayRegion .double arr 0 (xs.map JValue.d)) ∧
    (∀ arr xs, setJavaArrayElements arr .long xs
      = SetArrayRegion .long arr 0 (xs.map NativeVal.slot)) ∧
    (∀ arr xs, setJavaArrayElements arr .float xs
      = SetArrayRegion .float arr 0 (xs.map NativeVal.slot)) ∧
    (∀ arr xs, setJavaArrayElements arr .int xs
      = SetArrayRegion .int arr 0 (xs.map NativeVal.slot)) ∧
    (∀ arr xs, setJavaArrayElements arr .uint8 xs
      = SetArrayRegion .byte arr 0 (xs.map NativeVal.slot)) ∧
    (∀ arr xs, setJavaArrayElements arr .string xs = setEach arr 0 xs) ∧
    (∀ arr xs, setJavaArrayElements arr .wrapper xs = setEach arr 0 xs) := by
  have hnew : ∀ (k : ArrayKind) (z : JValue) (t : State),
      allocated (NewArray k size z t) = some (k, size) := by
    intro k z t
    simp [allocated, NewArray, newLocal, List.lookup]
  refine ⟨hnew _ _ _, fun _ => hnew _ _ _, fun _ => hnew _ _ _, fun _ => hnew _ _ _,
    fun _ => hnew _ _ _, ?_, fun _ => hnew _ _ _, fun _ _ => rfl, fun _ _ => rfl,
    fun _ _ => rfl, fun _ _ => rfl, fun _ _ => rfl, fun _ _ => rfl, fun _ _ => rfl⟩
  intro str
  simp only [createJavaArrayOf, M.bind_apply, M.bind, FindClass, logEvent, setPending, newLocal]
  by_cases hf : (J.findClass "java/lang/String").id = 0 <;>
    by_cases hth : (J.findClass "java/lang/String").thrown = 0 <;>
    simp [hf, hth, allocated, NewArray, newLocal, List.lookup, Ref.null]

/-! ## Assignment and the stored class path -/

/-- Whatever the environment, `init` with the default class path leaves the stored class
path empty. -/
theorem init_default_classPath (J : Jvm) (w0 : JniObject) (objId classId : Ref)
    (s s1 : State) (w : JniObject)
    (h : JniObject.init J w0 objId classId "" s = .ok w s1) : w._classPath = "" := by
  have hp2 : replaceDots "" = "" := by decide
  have hp3 : ("" : String).isEmpty = true := by decide
  simp only [JniObject.init, M.bind_eq_ok] at h
  obtain ⟨env, sa, henv, h⟩ := h
  by_cases he : env = 0
  · simp [he, M.pure_apply, hp2] at h
    rw [← h.1]
  · simp only [bne_iff_ne, ne_eq, he, not_false_eq_true, if_true, hp2, hp3] at h
    by_cases hc : classId.obj = 0 <;> by_cases ho : objId.obj = 0 <;>
      by_cases hoc : J.objectClass objId.obj = 0
    all_goals simp [hc, ho, hoc, Ref.isSet, Ref.null, M.bind_apply, M.bind, M.pure_apply,
      NewGlobalRef, GetObjectClass, logEvent, newLocal] at h
    all_goals rw [← h.1]

/-- An assignment that returns leaves the stored class path empty. -/
theorem assign_classPath_empty (J : Jvm) (a b : JniObject) (s s1 : State) (a1 : JniObject)
    (h : JniObject.assign J a b s = .ok a1 s1) : a1._classPath = "" := by
  simp only [JniObject.assign, M.bind_eq_ok] at h
  obtain ⟨wc, sc, _, hinit⟩ := h
  exact init_default_classPath J _ _ _ _ _ _ hinit

/-- Without a raw object `init` leaves the object reference as it was. -/
theorem init_no_object (J : Jvm) (w0 : JniObject) (objId classId : Ref) (p : String)
    (s s1 : State) (w : JniObject) (ho : objId.obj = 0)
    (h : JniObject.init J w0 objId classId p s = .ok w s1) : w._instance = w0._instance := by
  simp only [JniObject.init, M.bind_eq_ok] at h
  obtain ⟨env, sa, henv, h⟩ := h
  by_cases he : env = 0
  · simp [he, M.pure_apply] at h
    rw [← h.1]
  · simp only [bne_iff_ne, ne_eq, he, not_false_eq_true, if_true] at h
    by_cases hc : classId.obj = 0
    · by_cases hp : p.isEmpty = true
      · simp [hc, ho, hp, Ref.isSet, M.bind_apply, M.bind, M.pure_apply] at h
        rw [← h.1]
      · cases hg : Jni.getClass J (replaceDots p) true sa with
        | ok y sy =>
          by_cases hy : y.obj = 0
          · simp [hc, ho, hp, hy, hg, Ref.isSet, M.bind_apply, M.bind, M.pure_apply] at h
            rw [← h.1]
          · simp [hc, ho, hp, hy, hg, Ref.isSet, M.bind_apply, M.bind, M.pure_apply,
              NewGlobalRef] at h
            rw [← h.1]
        | raise e sy => simp [hc, ho, hp, hg, Ref.isSet, M.bind_apply, M.bind] at h
        | outside why => simp [hc, ho, hp, hg, Ref.isSet, M.bind_apply, M.bind] at h
        | timeout => simp [hc, ho, hp, hg, Ref.isSet, M.bind_apply, M.bind] at h
    · simp [hc, ho, Ref.isSet, M.bind_apply, M.bind, M.pure_apply, NewGlobalRef] at h
      rw [← h.1]

/-- The class-path constructor without a raw object holds no object. -/
theorem ofClassPath_no_object (J : Jvm) (p : String) (classId : Ref) (s s1 : State)
    (w : JniObject) (h : JniObject.ofClassPath J p Ref.null classId s = .ok w s1) :
    w._instance.isSet = false := by
  rw [init_no_object J JniObject.fresh Ref.null classId p s s1 w rfl h]
  rfl

/-- A wrapper `createNew` returns with an object has an empty stored class path. -/
theorem createNew_classPath_empty (J : Jvm) (fuel : Nat) (p : String) (args : List NativeVal)
    (s s1 : State) (w : JniObject)
    (h : createNew J (fuel + 1) p args s = .ok w s1) (hi : w._instance.isSet = true) :
    w._classPath = "" := by
  simp only [createNew, M.bind_eq_ok, M.onRaise_eq_ok] at h
  obtain ⟨defRet, sd, hdef, env, se, henv, h⟩ := h
  have hno := ofClassPath_no_object J p Ref.null s sd defRet hdef
  by_cases he : env = 0
  · simp only [he, if_true, M.pure_apply, Res.ok.injEq] at h
    rw [← h.1, hno] at hi
    cases hi
  · simp only [he, if_false, M.bind_eq_ok] at h
    obtain ⟨classId, sc, hcls, h⟩ := h
    by_cases hc : classId.isSet = true
    · simp only [hc, Bool.not_true, Bool.false_eq_true, if_false, M.bind_eq_ok,
        M.andFinally_eq_ok] at h
      obtain ⟨mid, s2, _, u, s3, _, jargs, s4, _, obj, s5, _, u2, s6, _, tmp, s7, _, s8,
        hassign, _⟩ := h
      exact assign_classPath_empty J _ _ _ _ _ hassign
    · simp only [hc, Bool.not_false, if_true, M.pure_apply, Res.ok.injEq] at h
      rw [← h.1, hno] at hi
      cases hi

/-- C25 (defect): with the runtime installed and an environment at hand the
assignment `a = b` returns; `a` then denotes the object of `b` and, when `b`
holds a class reference, the class of `b`, through pinned references of its
own; but the stored class path of `a` is empty, so `getClassPath()` on it asks
the runtime's class-name accessor (and gives "" if that throws) instead of
returning the class path `b` had.  Likewise every wrapper `createNew` returns
around a new object has an empty stored class path. -/
theorem assign_spec (J : Jvm) (a b : JniObject) (s : State)
    (hj : s.java = true) (he : envOf J s ≠ 0) :
    ∃ a1 s1, JniObject.assign J a b s = .ok a1 s1 ∧
      a1._instance.obj = b._instance.obj ∧
      (b._class.isSet = true → a1._class.obj = b._class.obj) ∧
      (b._class.isSet = true → a1._class ∈ s1.globals) ∧
      (b._instance.isSet = true → a1._instance ∈ s1.globals) ∧
      a1._classPath = "" ∧
      (∀ fuel, a1._class.isSet = true →
        getClassPath J (fuel + 1) a1 = M.tryCatch (do
          let name ← lazyClassName J fuel a1._class
          pure (name, { a1 with _classPath := name })) (pure ("", a1))) ∧
      (∀ (fuel : Nat) (p : String) (args : List NativeVal) (t t1 : State) (w : JniObject),
        createNew J (fuel + 1) p args t = .ok w t1 → w._instance.isSet = true →
        w._classPath = "") := by
  have hex : ∃ a1 s1, JniObject.assign J a b s = .ok a1 s1 ∧
      a1._instance.obj = b._instance.obj ∧
      (b._class.isSet = true → a1._class.obj = b._class.obj) ∧
      (b._class.isSet = true → a1._class ∈ s1.globals) ∧
      (b._instance.isSet = true → a1._instance ∈ s1.globals) := by
    unfold envOf at he
    have hp2 : replaceDots "" = "" := by decide
    have hp3 : ("" : String).isEmpty = true := by decide
    refine ⟨(JniObject.assign J a b s).valueD a, (JniObject.assign J a b s).stateD s, ?_⟩
    simp only [JniObject.assign, JniObject.clear, JniObject.init, M.bind_apply, M.bind,
      getEnvironment, M.ite_apply, M.pure_apply, NewGlobalRef, DeleteGlobalRef, GetObjectClass,
      logEvent, newLocal, Ref.isSet]
    by_cases ht : s.threadEnv = 0 <;> by_cases hc : a._class.obj = 0 <;>
      by_cases hi : a._instance.obj = 0 <;> by_cases hbc : b._class.obj = 0 <;>
      by_cases hbi : b._instance.obj = 0 <;>
      by_cases hoc : J.objectClass b._instance.obj = 0
    all_goals simp [ht] at he
    all_goals simp [hj, ht, he, hc, hi, hbc, hbi, hoc, hp2, hp3, Ref.null, Res.valueD,
      Res.stateD, Ref.isSet]
  obtain ⟨a1, s1, hassign, h1, h2, h3, h4⟩ := hex
  have hcp := assign_classPath_empty J a b s s1 a1 hassign
  refine ⟨a1, s1, hassign, h1, h2, h3, h4, hcp, ?_, ?_⟩
  · intro fuel hset
    have hp3 : ("" : String).isEmpty = true := by decide
    funext t
    simp [getClassPath, hcp, hp3, hset]
  · intro fuel p args t t1 w h hi
    exact createNew_classPath_empty J fuel p args t t1 w h hi

/-! ## Foreign maps to native maps -/

/-- The instance test does not change the installed runtime pointer. -/
@[simp] theorem keepsJava_isInstanceOf (J : Jvm) (w : JniObject) (p : String) :
    KeepsJava (JniObject.isInstanceOf J w p) := by
  unfold JniObject.isInstanceOf
  repeat' (first
    | intro _
    | with_reducible apply keepsJava_bind
    | (simp [*]; done)
    | split
    | dsimp only)

/-- A wrapper-valued call does not change the installed runtime pointer. -/
@[simp] theorem keepsJava_callWrapper (J : Jvm) (fuel : Nat) (w : JniObject) (n : String)
    (d : JniObject) : KeepsJava (callWrapper J fuel w n d) := by
  unfold callWrapper
  repeat' (first
    | intro _
    | with_reducible apply keepsJava_bind
    | (simp [*]; done)
    | split
    | dsimp only)

/-- C21 (defect): `convertFromJavaObject` for a map attempts the array decoding
only when `convertFromJavaMap` returned `false`; when `convertFromJavaMap`
throws, `convertFromJavaObject` throws the same error and no array decoding is
attempted.  In particular, for an object that is an instance of
`java.util.Map` whose `keySet()` call throws, decoding throws that error. -/
theorem convertFromJavaObjectMap_propagates (J : Jvm) (lt : NativeVal → NativeVal → Bool)
    (fuel : Nat) (kt vt : NativeType) (obj : Ref) (out : List (NativeVal × NativeVal))
    (s : State) :
    (∀ e s1, convertFromJavaMap J lt fuel kt vt obj out s = .raise e s1 →
      convertFromJavaObjectMap J lt fuel kt vt obj out s = .raise e s1) ∧
    (∀ out1 s1, convertFromJavaMap J lt fuel kt vt obj out s = .ok (true, out1) s1 →
      convertFromJavaObjectMap J lt fuel kt vt obj out s = .ok (true, out1) s1) ∧
    (∀ out1 s1, convertFromJavaMap J lt fuel kt vt obj out s = .ok (false, out1) s1 →
      convertFromJavaObjectMap J lt fuel kt vt obj out s
        = (do
            let (ok, out2) ← convertToMapFromJavaArray J lt kt vt obj out1
            pure (ok, out2)) s1) ∧
    (∀ jmap s1 s2 defRet s3 e s4, s.java = true → obj.isSet = true →
      JniObject.ofObject J obj s = .ok jmap s1 →
      JniObject.isInstanceOf J jmap "java.util.Map" s1 = .ok true s2 →
      JniObject.ofClassPath J "java.util.Set" Ref.null Ref.null s2 = .ok defRet s3 →
      callWrapper J fuel jmap "keySet" defRet s3 = .raise e s4 →
      ∃ s5, convertFromJavaObjectMap J lt fuel kt vt obj out s = .raise e s5) := by
  have hraise : ∀ e s1, convertFromJavaMap J lt fuel kt vt obj out s = .raise e s1 →
      convertFromJavaObjectMap J lt fuel kt vt obj out s = .raise e s1 := by
    intro e s1 h
    simp only [convertFromJavaObjectMap, M.bind_apply, M.bind, h]
  refine ⟨hraise, ?_, ?_, ?_⟩
  · intro out1 s1 h
    simp only [convertFromJavaObjectMap, M.bind_apply, M.bind, h, if_true, M.pure_apply]
  · intro out1 s1 h
    simp only [convertFromJavaObjectMap, M.bind_apply, M.bind, h, Bool.false_eq_true, if_false,
      M.pure_apply]
    cases h2 : convertToMapFromJavaArray J lt kt vt obj out1 s1 with
    | ok r s2 =>
      obtain ⟨ok, out2⟩ := r
      cases ok <;> rfl
    | raise e s2 => rfl
    | outside w => rfl
    | timeout => rfl
  · intro jmap s1 s2 defRet s3 e s4 hj hobj h1 h2 h3 h4
    have hj1 : s1.java = true := by rw [(keepsJava_ofObject J obj).of_ok h1]; exact hj
    have hj2 : s2.java = true := by
      rw [(keepsJava_isInstanceOf J jmap "java.util.Map").of_ok h2]; exact hj1
    have hj3 : s3.java = true := by
      rw [(keepsJava_ofClassPath J "java.util.Set" Ref.null Ref.null).of_ok h3]; exact hj2
    have hj4 : s4.java = true := by
      rw [(keepsJava_callWrapper J fuel jmap "keySet" defRet).of_raise h4]; exact hj3
    obtain ⟨s5, hd1⟩ := destroy_ok J defRet s4 hj4
    have hj5 : s5.java = true := by
      rw [(keepsJava_destroy J defRet).of_ok hd1]; exact hj4
    obtain ⟨s6, hd2⟩ := destroy_ok J jmap s5 hj5
    refine ⟨s6, hraise e s6 ?_⟩
    have hinner : M.andFinally (callWrapper J fuel jmap "keySet" defRet)
        (JniObject.destroy J defRet) s3 = .raise e s5 :=
      M.andFinally_of_raise _ _ s3 s4 s5 e h4 (Or.inl hd1)
    simp only [convertFromJavaMap, hobj, Bool.not_true, Bool.false_eq_true, if_false]
    rw [M.bind_of_ok _ _ s s1 jmap h1]
    refine M.andFinally_of_raise _ _ s1 s5 s6 e ?_ (Or.inl hd2)
    rw [M.bind_of_ok _ _ s1 s2 true h2]
    simp only [Bool.not_true, Bool.false_eq_true, if_false]
    rw [M.bind_of_ok _ _ s2 s3 defRet h3]
    rw [M.bind_of_raise _ _ s3 s5 e hinner]

/-! ## Witnesses for the container claims, on the sample runtime -/

/-- A computation whose thrown message is `e` threw `e`. -/
theorem Res.eq_raise_of_raised {α : Type} (r : Res α) (e : String) (d : State)
    (h : r.raised = some e) : r = .raise e (r.stateD d) := by
  cases r <;> simp [Res.raised, Res.stateD] at h ⊢
  exact h

/-- Witness for `convertFromJavaObjectMap_propagates`: in the sample runtime the map
800 is an instance of `java.util.Map` whose `keySet()` throws a
`RuntimeException`; decoding it into a map of strings to `long` throws that
error.  The map 810, whose calls return, decodes to its two entries. -/
theorem convertFromJavaObjectMap_propagates_witness :
    Sample.jvm.isInstance 800 (Sample.jvm.findClass "java/util/Map").id = true ∧
    convertFromJavaObjectMap Sample.jvm NativeVal.keyLt 9 .string .long ⟨800, 0⟩ []
        Sample.mapState
      = .raise "java.lang.RuntimeException: boom"
          ((convertFromJavaMap Sample.jvm NativeVal.keyLt 9 .string .long ⟨800, 0⟩ []
            Sample.mapState).stateD Sample.state) ∧
    (∃ s5, convertFromJavaObjectMap Sample.jvm NativeVal.keyLt 9 .string .long ⟨800, 0⟩ []
        Sample.mapState = .raise "java.lang.RuntimeException: boom" s5) ∧
    ((convertFromJavaObjectMap Sample.jvm NativeVal.keyLt 9 .string .long ⟨810, 0⟩ []
        Sample.mapState).valueD (false, [])).2.map (fun p => (p.1.textOf, p.2.numberOf))
      = [(some "a counter", some 1), (some "boom", some 0)] :=
  ⟨by decide,
   (convertFromJavaObjectMap_propagates Sample.jvm NativeVal.keyLt 9 .string .long ⟨800, 0⟩ []
      Sample.mapState).1 _ _ (Res.eq_raise_of_raised _ _ _ (by decide!)),
   (convertFromJavaObjectMap_propagates Sample.jvm NativeVal.keyLt 9 .string .long ⟨800, 0⟩ []
      Sample.mapState).2.2.2
      ⟨⟨81, 2⟩, ⟨800, 3⟩, ""⟩
      ((JniObject.ofObject Sample.jvm ⟨800, 0⟩ Sample.mapState).stateD Sample.state)
      ((JniObject.isInstanceOf Sample.jvm ⟨⟨81, 2⟩, ⟨800, 3⟩, ""⟩ "java.util.Map"
        ((JniObject.ofObject Sample.jvm ⟨800, 0⟩ Sample.mapState).stateD Sample.state)).stateD
          Sample.state)
      ⟨⟨82, 7⟩, Ref.null, "java/util/Set"⟩
      ((JniObject.ofClassPath Sample.jvm "java.util.Set" Ref.null Ref.null
        ((JniObject.isInstanceOf Sample.jvm ⟨⟨81, 2⟩, ⟨800, 3⟩, ""⟩ "java.util.Map"
          ((JniObject.ofObject Sample.jvm ⟨800, 0⟩ Sample.mapState).stateD
            Sample.state)).stateD Sample.state)).stateD Sample.state)
      "java.lang.RuntimeException: boom"
      ((callWrapper Sample.jvm 9 ⟨⟨81, 2⟩, ⟨800, 3⟩, ""⟩ "keySet"
        ⟨⟨82, 7⟩, Ref.null, "java/util/Set"⟩
        ((JniObject.ofClassPath Sample.jvm "java.util.Set" Ref.null Ref.null
          ((JniObject.isInstanceOf Sample.jvm ⟨⟨81, 2⟩, ⟨800, 3⟩, ""⟩ "java.util.Map"
            ((JniObject.ofObject Sample.jvm ⟨800, 0⟩ Sample.mapState).stateD
              Sample.state)).stateD Sample.state)).stateD Sample.state)).stateD Sample.state)
      (by decide) (by decide) (by decide!) (by decide!) (by decide!) (by decide!),
   by decide!⟩

/-- Witness for `convertFromJavaArray_spec`: the `long[]` array `1, 2, 1, 5, 9` of
the sample state decoded after the element `7`, and a null handle. -/
theorem convertFromJavaArray_spec_witness :
    convertFromJavaArray Sample.jvm .long ⟨900, 0⟩ [.long 7] Sample.longArrayState
      = .ok (true, [.long 7, .long 1, .long 2, .long 1, .long 5, .long 9])
          Sample.longArrayState ∧
    convertFromJavaArrayWith (convertFromJavaArrayElement Sample.jvm .long) Ref.null [.long 7]
      = pure (false, [.long 7]) :=
  ⟨(convertFromJavaArray_spec (convertFromJavaArrayElement Sample.jvm .long) ⟨900, 0⟩
      [.long 7]).2.2 Sample.jvm .long .long ⟨.long, [.j 1, .j 2, .j 1, .j 5, .j 9]⟩
      Sample.longArrayState (by decide) rfl (by decide) rfl,
   (convertFromJavaArray_spec (convertFromJavaArrayElement Sample.jvm .long) Ref.null
      [.long 7]).1 (by decide)⟩

/-- Witness for `convertToMapFromJavaArray_spec`: the `long[]` array `1, 2, 1, 5, 9` of
the sample state decoded into the map `0 ↦ 0`: the pair `(1, 5)` overwrites
`(1, 2)` and the odd element `9` is ignored; and a null handle. -/
theorem convertToMapFromJavaArray_spec_witness :
    convertToMapFromJavaArray Sample.jvm NativeVal.keyLt .long .long ⟨900, 0⟩
        [(.long 0, .long 0)] Sample.longArrayState
      = .ok (true, [(.long 0, .long 0), (.long 1, .long 5)]) Sample.longArrayState ∧
    convertToMapFromJavaArrayWith NativeVal.keyLt (convertFromJavaArrayElement Sample.jvm .long)
        (convertFromJavaArrayElement Sample.jvm .long) Ref.null [(.long 0, .long 0)]
        Sample.longArrayState
      = .ok (false, [(.long 0, .long 0)]) Sample.longArrayState :=
  ⟨(convertToMapFromJavaArray_spec NativeVal.keyLt (convertFromJavaArrayElement Sample.jvm .long)
      (convertFromJavaArrayElement Sample.jvm .long) ⟨900, 0⟩ [(.long 0, .long 0)]
      Sample.longArrayState).2.2.2 Sample.jvm .long .long .long
      ⟨.long, [.j 1, .j 2, .j 1, .j 5, .j 9]⟩ (by decide) rfl rfl (by decide) rfl,
   (convertToMapFromJavaArray_spec NativeVal.keyLt (convertFromJavaArrayElement Sample.jvm .long)
      (convertFromJavaArrayElement Sample.jvm .long) Ref.null [(.long 0, .long 0)]
      Sample.longArrayState).1 (by decide)⟩

/-- Witness for `assign_spec`: assigning the sample wrapper, whose class path is
"com/example/Counter", to an empty wrapper leaves the class path empty, and
`getClassPath()` on the result is the dotted name the class-name accessor
reports; `createNew("com/example/Counter")` returns a wrapper with an empty
stored class path and the signature "Lcom.example.Counter;". -/
theorem assign_spec_witness :
    (∃ a1 s1, JniObject.assign Sample.jvm JniObject.fresh Sample.counter Sample.counterState
        = .ok a1 s1 ∧ a1._classPath = "") ∧
    JniObject.assign Sample.jvm JniObject.fresh Sample.counter Sample.counterState
      = .ok ⟨⟨20, 4⟩, ⟨100, 5⟩, ""⟩
          ((JniObject.assign Sample.jvm JniObject.fresh Sample.counter
            Sample.counterState).stateD Sample.state) ∧
    (getClassPath Sample.jvm 9 Sample.counter Sample.counterState).valueD ("", JniObject.fresh)
      = ("com/example/Counter", Sample.counter) ∧
    (getClassPath Sample.jvm 9 ⟨⟨20, 4⟩, ⟨100, 5⟩, ""⟩
        ((JniObject.assign Sample.jvm JniObject.fresh Sample.counter
          Sample.counterState).stateD Sample.state)).valueD ("", JniObject.fresh)
      = ("com.example.Counter", ⟨⟨20, 4⟩, ⟨100, 5⟩, "com.example.Counter"⟩) ∧
    createNew Sample.jvm 10 "com/example/Counter" [] Sample.state
      = .ok ⟨⟨20, 7⟩, ⟨101, 8⟩, ""⟩
          ((createNew Sample.jvm 10 "com/example/Counter" [] Sample.state).stateD
            Sample.state) ∧
    (getSignature Sample.jvm 9 ⟨⟨20, 7⟩, ⟨101, 8⟩, ""⟩
        ((createNew Sample.jvm 10 "com/example/Counter" [] Sample.state).stateD
          Sample.state)).valueD ("", JniObject.fresh)
      = ("Lcom.example.Counter;", ⟨⟨20, 7⟩, ⟨101, 8⟩, "com.example.Counter"⟩) :=
  ⟨(assign_spec Sample.jvm JniObject.fresh Sample.counter Sample.counterState
      (by decide!) (by decide!)).imp fun _ h => h.imp fun _ h => ⟨h.1, h.2.2.2.2.2.1⟩,
   by decide!, by decide!, by decide!, by decide!, by decide!⟩

end JniSpec
